import Mathlib

/-!
# Treasure hunt: process orchestration and command dispatch

A shallow embedding of the C sources `treasure_hub_v2.c`, `treasure_hub.c`,
`treasure_monitor.c`, `treasure_manager.c` and `score_calculator.c`.

* A C string is the `List Char` of its bytes before the terminating NUL.
* Global variables of a process become the fields of a state record; every C
  function becomes a function from the state to the new state together with the
  list of effects (output, file writes, signals, process creation) it performed.
* Results of system calls that the program cannot control (`fopen`, `pipe`,
  `fork`, `read`, `waitpid`) are read from an oracle record passed to the function.
* Signal handlers run between two function calls of the interrupted process.
* A treasure file is the list of its records, `none` when the file is absent; sums
  of `int` values wrap at 32 bits.
-/

namespace TreasureHunt

/-! ## C strings and stdio -/

/-- The terminating byte of a C string. -/
def NUL : Char := Char.ofNat 0

/-- The newline byte. -/
def NL : Char := Char.ofNat 10

/-- The space byte. -/
def SP : Char := Char.ofNat 32

/-- Size of the command and parameter buffers (`#define MAX_CMD_LEN 256`). -/
def MAX_CMD_LEN : Nat := 256

/-- The bytes of a buffer as `strlen`, `strcmp` and `%s` see them: up to the first NUL. -/
def cstr (buf : List Char) : List Char :=
  buf.takeWhile (fun c => c != NUL)

/-- Bytes that one `fgets` call stores: at most `k` bytes, ending after the first newline. -/
def fgets_bytes : Nat → List Char → List Char
  | 0, _ => []
  | _, [] => []
  | k + 1, c :: cs => if c = NL then [c] else c :: fgets_bytes k cs

/-- The call `fgets(buf, n, f)` on a freshly opened stream with the given content:
`none` (NULL, buffer untouched) at end of file, else the bytes stored. -/
def fgets (n : Nat) (content : List Char) : Option (List Char) :=
  if content = [] then none else some (fgets_bytes (n - 1) content)

/-- Removal of one trailing newline:
`len = strlen(s); if (len > 0 && s[len - 1] == NL) s[len - 1] = 0`. -/
def trim_newline (str : List Char) : List Char :=
  if str.getLast? = some NL then str.dropLast else str

/-- The call `snprintf(buf, n, ...)`: the formatted text cut to `n - 1` bytes. -/
def snprintf (n : Nat) (text : List Char) : List Char :=
  text.take (n - 1)

/-! ## The command channel: two files -/

/-- The two files of the command channel; `none` is an absent file. -/
structure Channel where
  /-- Content of `monitor_command.txt` -/
  command_file : Option (List Char)
  /-- Content of `monitor_params.txt` -/
  param_file : Option (List Char)
  deriving DecidableEq, Repr

/-- What a process is after a call that does not return. -/
inductive Halt where
  /-- The process called `exit(code)` or returned `code` from `main` -/
  | exit (code : Int)
  /-- The process image was replaced by `exec` with this argument vector -/
  | exec (argv : List (List Char))
  deriving DecidableEq, Repr

/-- Observable actions of a process. -/
inductive Effect where
  /-- Bytes written to standard output -/
  | print (text : List Char)
  /-- A `perror` message on standard error -/
  | perror (text : List Char)
  /-- `monitor_command.txt` was truncated and this text written -/
  | write_command (text : List Char)
  /-- `monitor_params.txt` was truncated and this text written -/
  | write_params (text : List Char)
  /-- `kill(pid, SIGUSR1)` -/
  | kill (pid : Int)
  /-- `pipe(fd)` succeeded -/
  | pipe
  /-- One end of a pipe was closed: 0 the read end, 1 the write end -/
  | close (fd_end : Nat)
  /-- `fork()` succeeded in the parent; the child goes on to exec `argv` -/
  | spawn (pid : Int) (argv : List (List Char))
  /-- `waitpid(pid, &status, 0)` returned -/
  | wait (pid : Int)
  /-- `usleep(microseconds)` -/
  | usleep (microseconds : Nat)
  deriving DecidableEq, Repr

/-- Termination status of a child as `waitpid` reports it, seen through the macros
`WIFEXITED`/`WEXITSTATUS` and `WIFSIGNALED`/`WTERMSIG`. -/
inductive WStatus where
  /-- Normal exit with this code -/
  | exited (code : Nat)
  /-- Terminated by this signal -/
  | signaled (sig : Nat)
  /-- Neither (stopped or continued) -/
  | other
  deriving DecidableEq, Repr

/-- The macro `WIFEXITED`. -/
def WIFEXITED : WStatus → Bool
  | .exited _ => true
  | _ => false

/-- The macro `WEXITSTATUS`. -/
def WEXITSTATUS : WStatus → Int
  | .exited code => code
  | _ => 0

/-- The macro `WIFSIGNALED`. -/
def WIFSIGNALED : WStatus → Bool
  | .signaled _ => true
  | _ => false

/-- The macro `WTERMSIG`. -/
def WTERMSIG : WStatus → Int
  | .signaled sig => sig
  | _ => 0

/-- Decimal text of an integer, as `%d` prints it. -/
def fmt_d : Int → List Char
  | Int.ofNat m => Nat.toDigits 10 m
  | Int.negSucc m => '-' :: Nat.toDigits 10 (m + 1)

/-- One call of `strtok` with the delimiter set `" "` on the text not yet scanned:
leading spaces are skipped; `none` (NULL) when nothing is left, else the token and
the text after the space that ended it. -/
def strtok (rest : List Char) : Option (List Char × List Char) :=
  let r := rest.dropWhile (fun c => c == SP)
  if r = [] then none
  else some (r.takeWhile (fun c => c != SP), (r.dropWhile (fun c => c != SP)).drop 1)

/-! ## The Hub, `treasure_hub_v2.c` -/

/-- Outcome of one `launch_score_calculator` call, as the system decides it. -/
structure ScoreRun where
  /-- The directory entry name `entry->d_name` -/
  d_name : List Char
  /-- `pipe(score_pipe)` succeeds -/
  pipe_ok : Bool
  /-- Return value of `fork()` -/
  fork_pid : Int
  /-- `dup2` succeeds (child) -/
  dup2_ok : Bool
  /-- `execl` succeeds (child) -/
  exec_ok : Bool
  /-- Bytes the single `read` returns; empty when it returns 0 or fails -/
  output : List Char
  deriving DecidableEq, Repr

/-- Results of the system calls made during one Hub function call. -/
structure Oracle where
  /-- `fopen(COMMAND_FILE, "w")` succeeds -/
  cmd_open : Bool
  /-- `fopen(PARAM_FILE, "w")` succeeds -/
  param_open : Bool
  /-- `pipe(pipe_fd)` succeeds -/
  pipe_ok : Bool
  /-- The descriptor number stored in `pipe_fd[1]` -/
  pipe_wr : Int
  /-- Return value of `fork()` -/
  fork_pid : Int
  /-- `dup2` succeeds (child) -/
  dup2_ok : Bool
  /-- `execl` succeeds (child) -/
  exec_ok : Bool
  /-- The chunks `read(pipe_fd[0], ...)` returns before it returns 0 or fails -/
  drained : List (List Char)
  /-- `opendir(HUNTS_DIR)` and the entries `readdir` yields; `none` when opendir fails -/
  hunts : Option (List ScoreRun)
  deriving DecidableEq, Repr

/-- The global variables of the Hub, the channel files it writes, and whether it still runs. -/
structure Hub where
  /-- `pid_t monitor_pid` -/
  monitor_pid : Int
  /-- `volatile sig_atomic_t monitor_exiting` -/
  monitor_exiting : Int
  /-- `volatile sig_atomic_t child_exited` -/
  child_exited : Int
  /-- `int exit_status` -/
  exit_status : Int
  /-- The two channel files -/
  chan : Channel
  /-- Set once the process has exited or has been replaced -/
  halted : Option Halt
  deriving DecidableEq, Repr

/-- The Hub at program start: the initialisers of the globals, with the given files. -/
def Hub.init (chan : Channel) : Hub :=
  { monitor_pid := -1, monitor_exiting := 0, child_exited := 0, exit_status := 0,
    chan := chan, halted := none }

namespace HubV2

/-- The function `send_command_to_monitor(command, params)`; `params = none` is NULL. -/
def send_command_to_monitor (o : Oracle) (command : List Char) (params : Option (List Char))
    (s : Hub) : Hub × List Effect :=
  let (cf, e1) :=
    if o.cmd_open then (some command, [Effect.write_command command])
    else (s.chan.command_file, [Effect.perror "Failed to write command file".toList])
  let (pf, e2) :=
    match params with
    | some p =>
      if o.param_open then (some p, [Effect.write_params p])
      else (s.chan.param_file, [Effect.perror "Failed to write params file".toList])
    | none => (s.chan.param_file, [])
  let e3 := if s.monitor_pid > 0 then [Effect.kill s.monitor_pid] else []
  ({ s with chan := { command_file := cf, param_file := pf } }, e1 ++ e2 ++ e3)

/-- The function `read_monitor_output()`: settle, then print every chunk read. -/
def read_monitor_output (o : Oracle) : List Effect :=
  Effect.usleep 100000 :: o.drained.map (fun chunk => Effect.print (cstr chunk))

/-- The function `start_monitor()`. -/
def start_monitor (o : Oracle) (s : Hub) : Hub × List Effect :=
  if s.monitor_pid > 0 then
    (s, [Effect.print ("Monitor is already running (PID: ".toList ++ fmt_d s.monitor_pid
          ++ ")\n".toList)])
  else if !o.pipe_ok then
    (s, [Effect.perror "Failed to create pipe".toList])
  else if o.fork_pid < 0 then
    (s, [Effect.pipe, Effect.perror "Fork failed".toList, Effect.close 0, Effect.close 1])
  else if o.fork_pid = 0 then
    if !o.dup2_ok then
      ({ s with halted := some (Halt.exit 1) },
        [Effect.pipe, Effect.close 0, Effect.perror "dup2 failed".toList])
    else if o.exec_ok then
      ({ s with halted := some (Halt.exec ["treasure_monitor".toList, fmt_d o.pipe_wr]) },
        [Effect.pipe, Effect.close 0, Effect.close 1])
    else
      ({ s with halted := some (Halt.exit 1) },
        [Effect.pipe, Effect.close 0, Effect.close 1, Effect.perror "Exec failed".toList])
  else
    ({ s with monitor_pid := o.fork_pid },
      [Effect.pipe, Effect.spawn o.fork_pid ["treasure_monitor".toList, fmt_d o.pipe_wr],
       Effect.close 1,
       Effect.print ("Monitor started with PID: ".toList ++ fmt_d o.fork_pid ++ "\n".toList)])

/-- The function `list_hunts()`. -/
def list_hunts (o : Oracle) (s : Hub) : Hub × List Effect :=
  if s.monitor_pid < 0 then
    (s, [Effect.print "Error: Monitor is not running\n".toList])
  else if s.monitor_exiting ≠ 0 then
    (s, [Effect.print "Error: Monitor is in the process of exiting\n".toList])
  else
    let (s1, e1) := send_command_to_monitor o "list_hunts".toList none s
    (s1, e1 ++ read_monitor_output o)

/-- The function `list_treasures(hunt_id)`. -/
def list_treasures (o : Oracle) (hunt_id : List Char) (s : Hub) : Hub × List Effect :=
  if s.monitor_pid < 0 then
    (s, [Effect.print "Error: Monitor is not running\n".toList])
  else if s.monitor_exiting ≠ 0 then
    (s, [Effect.print "Error: Monitor is in the process of exiting\n".toList])
  else
    let (s1, e1) := send_command_to_monitor o "list_treasures".toList (some hunt_id) s
    (s1, e1 ++ read_monitor_output o)

/-- The function `view_treasure(hunt_id, treasure_id)`. -/
def view_treasure (o : Oracle) (hunt_id treasure_id : List Char) (s : Hub) :
    Hub × List Effect :=
  if s.monitor_pid < 0 then
    (s, [Effect.print "Error: Monitor is not running\n".toList])
  else if s.monitor_exiting ≠ 0 then
    (s, [Effect.print "Error: Monitor is in the process of exiting\n".toList])
  else
    let params := snprintf MAX_CMD_LEN (hunt_id ++ SP :: treasure_id)
    let (s1, e1) := send_command_to_monitor o "view_treasure".toList (some params) s
    (s1, e1 ++ read_monitor_output o)

/-- The function `stop_monitor()`. -/
def stop_monitor (o : Oracle) (s : Hub) : Hub × List Effect :=
  if s.monitor_pid < 0 then
    (s, [Effect.print "Error: Monitor is not running\n".toList])
  else if s.monitor_exiting ≠ 0 then
    (s, [Effect.print "Error: Monitor is already in the process of exiting\n".toList])
  else
    let (s1, e1) := send_command_to_monitor o "stop".toList none { s with monitor_exiting := 1 }
    (s1, e1 ++ read_monitor_output o ++ [Effect.print "Stopping monitor...\n".toList])

/-- The function `launch_score_calculator(hunt_id)`, its system calls decided by `r`. -/
def launch_score_calculator (r : ScoreRun) (hunt_id : List Char) (s : Hub) :
    Hub × List Effect :=
  if !r.pipe_ok then
    (s, [Effect.perror "Failed to create score pipe".toList])
  else if r.fork_pid < 0 then
    (s, [Effect.pipe, Effect.perror "Score calculator fork failed".toList,
         Effect.close 0, Effect.close 1])
  else if r.fork_pid = 0 then
    if !r.dup2_ok then
      ({ s with halted := some (Halt.exit 1) },
        [Effect.pipe, Effect.close 0, Effect.perror "Score calculator dup2 failed".toList])
    else if r.exec_ok then
      ({ s with halted := some (Halt.exec ["score_calculator".toList, hunt_id]) },
        [Effect.pipe, Effect.close 0, Effect.close 1])
    else
      ({ s with halted := some (Halt.exit 1) },
        [Effect.pipe, Effect.close 0, Effect.close 1,
         Effect.perror "Score calculator exec failed".toList])
  else
    (s, [Effect.pipe, Effect.spawn r.fork_pid ["score_calculator".toList, hunt_id],
         Effect.close 1]
        ++ (if r.output = [] then []
            else [Effect.print ("Scores for hunt '".toList ++ hunt_id ++ "':\n".toList),
                  Effect.print (cstr r.output)])
        ++ [Effect.close 0, Effect.wait r.fork_pid])

/-- The `readdir` loop of `calculate_score()` over the remaining directory entries. -/
def score_loop : List ScoreRun → Hub → Hub × List Effect
  | [], s => (s, [])
  | r :: rs, s =>
    if r.d_name = ".".toList ∨ r.d_name = "..".toList then score_loop rs s
    else
      let (s1, e1) := launch_score_calculator r r.d_name s
      if s1.halted.isSome then (s1, e1)
      else
        let (s2, e2) := score_loop rs s1
        (s2, e1 ++ e2)

/-- The function `calculate_score()`. -/
def calculate_score (o : Oracle) (s : Hub) : Hub × List Effect :=
  match o.hunts with
  | none => (s, [Effect.perror "Failed to open hunts directory".toList])
  | some entries =>
    let (s1, e1) := score_loop entries s
    if s1.halted.isSome then
      (s1, Effect.print "Calculating scores for all hunts...\n".toList :: e1)
    else
      (s1, Effect.print "Calculating scores for all hunts...\n".toList :: e1
            ++ [Effect.print "Score calculation complete.\n".toList])

/-- The function `process_command(cmd)`. -/
def process_command (o : Oracle) (cmd : List Char) (s : Hub) : Hub × List Effect :=
  match strtok (trim_newline cmd) with
  | none => (s, [])
  | some (token, rest) =>
    if token = "start_monitor".toList then start_monitor o s
    else if token = "list_hunts".toList then list_hunts o s
    else if token = "list_treasures".toList then
      match strtok rest with
      | some (hunt_id, _) => list_treasures o hunt_id s
      | none => (s, [Effect.print "Error: Missing hunt ID\n".toList])
    else if token = "view_treasure".toList then
      match strtok rest with
      | some (hunt_id, rest2) =>
        match strtok rest2 with
        | some (treasure_id, _) => view_treasure o hunt_id treasure_id s
        | none => (s, [Effect.print "Error: Missing hunt ID or treasure ID\n".toList])
      | none => (s, [Effect.print "Error: Missing hunt ID or treasure ID\n".toList])
    else if token = "calculate_score".toList then calculate_score o s
    else if token = "stop_monitor".toList then stop_monitor o s
    else if token = "exit".toList then
      if s.monitor_pid > 0 then
        (s, [Effect.print
          "Error: Monitor is still running. Stop it first with 'stop_monitor'\n".toList])
      else
        ({ s with halted := some (Halt.exit 0) },
          [Effect.print "Exiting treasure_hub\n".toList])
    else
      (s, [Effect.print ("Unknown command: ".toList ++ token ++ "\n".toList),
           Effect.print ("Available commands: start_monitor, list_hunts, list_treasures, "
             ++ "view_treasure, calculate_score, stop_monitor, exit\n").toList])

/-- The body of the `waitpid` loop of `handle_sigchld()` for one reaped child. -/
def reap_one (pid : Int) (status : WStatus) (s : Hub) : Hub × List Effect :=
  if pid = s.monitor_pid then
    ({ s with
        child_exited := 1,
        exit_status :=
          if WIFEXITED status then WEXITSTATUS status
          else if WIFSIGNALED status then 128 + WTERMSIG status
          else s.exit_status,
        monitor_pid := -1 },
      [Effect.close 0])
  else (s, [])

/-- The signal handler `handle_sigchld()`; `reaped` lists the (pid, status) pairs that
`waitpid(-1, &status, WNOHANG)` returns before it returns 0 or fails. The loop runs
while the returned pid is positive. -/
def handle_sigchld : List (Int × WStatus) → Hub → Hub × List Effect
  | [], s => (s, [])
  | (pid, status) :: more, s =>
    if pid > 0 then
      let (s1, e1) := reap_one pid status s
      let (s2, e2) := handle_sigchld more s1
      (s2, e1 ++ e2)
    else (s, [])

/-- The check at the top of the loop of `main`, with the prompt. -/
def loop_top (s : Hub) : Hub × List Effect :=
  if s.child_exited ≠ 0 then
    ({ s with child_exited := 0, monitor_exiting := 0 },
      [Effect.print ("Monitor has terminated with status ".toList ++ fmt_d s.exit_status
         ++ "\n".toList),
       Effect.print "> ".toList])
  else (s, [Effect.print "> ".toList])

end HubV2

/-- What `fgets(cmd, MAX_CMD_LEN, stdin)` gives the Hub. -/
inductive Input where
  /-- A line was read -/
  | line (cmd : List Char)
  /-- NULL at end of file -/
  | eof
  /-- NULL with an error -/
  | error
  deriving DecidableEq, Repr

/-- The steps of the Hub process: the two halves of one iteration of the loop of
`main`, and the asynchronous signal handler. -/
inductive Event where
  /-- The check at the top of the loop -/
  | check
  /-- `fgets` returned and, for a line, `process_command` ran -/
  | input (o : Oracle) (i : Input)
  /-- SIGCHLD was delivered and `handle_sigchld` reaped these children -/
  | sigchld (reaped : List (Int × WStatus))
  deriving DecidableEq, Repr

namespace HubV2

/-- One step of the Hub; a halted process takes no further step. -/
def step (ev : Event) (s : Hub) : Hub × List Effect :=
  if s.halted.isSome then (s, [])
  else
    match ev with
    | .check => loop_top s
    | .input o (.line cmd) => process_command o cmd s
    | .input _ .eof =>
      ({ s with halted := some (Halt.exit 0) },
        [Effect.print "\nEnd of input. Exiting.\n".toList])
    | .input _ .error => (s, [Effect.perror "Error reading command".toList])
    | .sigchld reaped => handle_sigchld reaped s

/-- The Hub after a sequence of steps, with all effects in order. -/
def run : List Event → Hub → Hub × List Effect
  | [], s => (s, [])
  | ev :: evs, s =>
    let (s1, e1) := step ev s
    let (s2, e2) := run evs s1
    (s2, e1 ++ e2)

end HubV2

/-! ## The Hub without result pipe, `treasure_hub.c` -/

namespace HubV1

/-- The function `send_command_to_monitor(command, params)`; `params = none` is NULL. -/
def send_command_to_monitor (o : Oracle) (command : List Char) (params : Option (List Char))
    (s : Hub) : Hub × List Effect :=
  let (cf, e1) :=
    if o.cmd_open then (some command, [Effect.write_command command])
    else (s.chan.command_file, [Effect.perror "Failed to write command file".toList])
  let (pf, e2) :=
    match params with
    | some p =>
      if o.param_open then (some p, [Effect.write_params p])
      else (s.chan.param_file, [Effect.perror "Failed to write params file".toList])
    | none => (s.chan.param_file, [])
  let e3 := if s.monitor_pid > 0 then [Effect.kill s.monitor_pid] else []
  ({ s with chan := { command_file := cf, param_file := pf } }, e1 ++ e2 ++ e3)

/-- The function `start_monitor()`. -/
def start_monitor (o : Oracle) (s : Hub) : Hub × List Effect :=
  if s.monitor_pid > 0 then
    (s, [Effect.print ("Monitor is already running (PID: ".toList ++ fmt_d s.monitor_pid
          ++ ")\n".toList)])
  else if o.fork_pid < 0 then
    (s, [Effect.perror "Fork failed".toList])
  else if o.fork_pid = 0 then
    if o.exec_ok then
      ({ s with halted := some (Halt.exec ["treasure_monitor".toList]) }, [])
    else
      ({ s with halted := some (Halt.exit 1) }, [Effect.perror "Exec failed".toList])
  else
    ({ s with monitor_pid := o.fork_pid },
      [Effect.spawn o.fork_pid ["treasure_monitor".toList],
       Effect.print ("Monitor started with PID: ".toList ++ fmt_d o.fork_pid ++ "\n".toList)])

/-- The function `list_hunts()`. -/
def list_hunts (o : Oracle) (s : Hub) : Hub × List Effect :=
  if s.monitor_pid < 0 then
    (s, [Effect.print "Error: Monitor is not running\n".toList])
  else if s.monitor_exiting ≠ 0 then
    (s, [Effect.print "Error: Monitor is in the process of exiting\n".toList])
  else send_command_to_monitor o "list_hunts".toList none s

/-- The function `list_treasures(hunt_id)`. -/
def list_treasures (o : Oracle) (hunt_id : List Char) (s : Hub) : Hub × List Effect :=
  if s.monitor_pid < 0 then
    (s, [Effect.print "Error: Monitor is not running\n".toList])
  else if s.monitor_exiting ≠ 0 then
    (s, [Effect.print "Error: Monitor is in the process of exiting\n".toList])
  else send_command_to_monitor o "list_treasures".toList (some hunt_id) s

/-- The function `view_treasure(hunt_id, treasure_id)`. -/
def view_treasure (o : Oracle) (hunt_id treasure_id : List Char) (s : Hub) :
    Hub × List Effect :=
  if s.monitor_pid < 0 then
    (s, [Effect.print "Error: Monitor is not running\n".toList])
  else if s.monitor_exiting ≠ 0 then
    (s, [Effect.print "Error: Monitor is in the process of exiting\n".toList])
  else
    let params := snprintf MAX_CMD_LEN (hunt_id ++ SP :: treasure_id)
    send_command_to_monitor o "view_treasure".toList (some params) s

/-- The function `stop_monitor()`. -/
def stop_monitor (o : Oracle) (s : Hub) : Hub × List Effect :=
  if s.monitor_pid < 0 then
    (s, [Effect.print "Error: Monitor is not running\n".toList])
  else if s.monitor_exiting ≠ 0 then
    (s, [Effect.print "Error: Monitor is already in the process of exiting\n".toList])
  else
    let (s1, e1) := send_command_to_monitor o "stop".toList none { s with monitor_exiting := 1 }
    (s1, e1 ++ [Effect.print "Stopping monitor...\n".toList])

/-- The function `process_command(cmd)`. -/
def process_command (o : Oracle) (cmd : List Char) (s : Hub) : Hub × List Effect :=
  match strtok (trim_newline cmd) with
  | none => (s, [])
  | some (token, rest) =>
    if token = "start_monitor".toList then start_monitor o s
    else if token = "list_hunts".toList then list_hunts o s
    else if token = "list_treasures".toList then
      match strtok rest with
      | some (hunt_id, _) => list_treasures o hunt_id s
      | none => (s, [Effect.print "Error: Missing hunt ID\n".toList])
    else if token = "view_treasure".toList then
      match strtok rest with
      | some (hunt_id, rest2) =>
        match strtok rest2 with
        | some (treasure_id, _) => view_treasure o hunt_id treasure_id s
        | none => (s, [Effect.print "Error: Missing hunt ID or treasure ID\n".toList])
      | none => (s, [Effect.print "Error: Missing hunt ID or treasure ID\n".toList])
    else if token = "stop_monitor".toList then stop_monitor o s
    else if token = "exit".toList then
      if s.monitor_pid > 0 then
        (s, [Effect.print
          "Error: Monitor is still running. Stop it first with 'stop_monitor'\n".toList])
      else
        ({ s with halted := some (Halt.exit 0) },
          [Effect.print "Exiting treasure_hub\n".toList])
    else
      (s, [Effect.print ("Unknown command: ".toList ++ token ++ "\n".toList),
           Effect.print ("Available commands: start_monitor, list_hunts, list_treasures, "
             ++ "view_treasure, stop_monitor, exit\n").toList])

/-- The body of the `waitpid` loop of `handle_sigchld()` for one reaped child. -/
def reap_one (pid : Int) (status : WStatus) (s : Hub) : Hub × List Effect :=
  if pid = s.monitor_pid then
    ({ s with
        child_exited := 1,
        exit_status :=
          if WIFEXITED status then WEXITSTATUS status
          else if WIFSIGNALED status then 128 + WTERMSIG status
          else s.exit_status,
        monitor_pid := -1 },
      [])
  else (s, [])

/-- The signal handler `handle_sigchld()`; `reaped` lists the (pid, status) pairs that
`waitpid(-1, &status, WNOHANG)` returns before it returns 0 or fails. -/
def handle_sigchld : List (Int × WStatus) → Hub → Hub × List Effect
  | [], s => (s, [])
  | (pid, status) :: more, s =>
    if pid > 0 then
      let (s1, e1) := reap_one pid status s
      let (s2, e2) := handle_sigchld more s1
      (s2, e1 ++ e2)
    else (s, [])

/-- The check at the top of the loop of `main`, with the prompt. -/
def loop_top (s : Hub) : Hub × List Effect :=
  if s.child_exited ≠ 0 then
    ({ s with child_exited := 0, monitor_exiting := 0 },
      [Effect.print ("Monitor has terminated with status ".toList ++ fmt_d s.exit_status
         ++ "\n".toList),
       Effect.print "> ".toList])
  else (s, [Effect.print "> ".toList])

/-- One step of the Hub; a halted process takes no further step. -/
def step (ev : Event) (s : Hub) : Hub × List Effect :=
  if s.halted.isSome then (s, [])
  else
    match ev with
    | .check => loop_top s
    | .input o (.line cmd) => process_command o cmd s
    | .input _ .eof =>
      ({ s with halted := some (Halt.exit 0) },
        [Effect.print "\nEnd of input. Exiting.\n".toList])
    | .input _ .error => (s, [Effect.perror "Error reading command".toList])
    | .sigchld reaped => handle_sigchld reaped s

/-- The Hub after a sequence of steps, with all effects in order. -/
def run : List Event → Hub → Hub × List Effect
  | [], s => (s, [])
  | ev :: evs, s =>
    let (s1, e1) := step ev s
    let (s2, e2) := run evs s1
    (s2, e1 ++ e2)

end HubV1

/-! ## The Monitor, `treasure_monitor.c` -/

/-- The C predicate `isspace` in the C locale. -/
def isspace (c : Char) : Bool :=
  c == SP || (9 ≤ c.toNat && c.toNat ≤ 13)

/-- One `%s` conversion of `sscanf`: white space is skipped, then the bytes up to the
next white space are stored. Gives the stored word (empty when the input ran out and
nothing was stored) and the input left. -/
def scan_word (input : List Char) : List Char × List Char :=
  let r := input.dropWhile isspace
  (r.takeWhile (fun c => !isspace c), r.dropWhile (fun c => !isspace c))

/-- The call `sscanf(params, "%s %s", hunt_id, treasure_id)` on two zeroed buffers:
the contents of `hunt_id` and `treasure_id` afterwards. -/
def sscanf_two (params : List Char) : List Char × List Char :=
  let (hunt_id, rest) := scan_word params
  if hunt_id = [] then ([], [])
  else (hunt_id, (scan_word rest).1)

/-- Results of the system calls made during one Monitor function call. -/
structure MOracle where
  /-- Return value of `fork()` -/
  fork_pid : Int
  /-- `execlp` succeeds (child) -/
  exec_ok : Bool
  /-- The status `waitpid` stores (parent) -/
  status : WStatus
  deriving DecidableEq, Repr

/-- The global variables of the Monitor, and whether it still runs. -/
structure Monitor where
  /-- `volatile sig_atomic_t should_exit` -/
  should_exit : Int
  /-- `volatile sig_atomic_t received_command` -/
  received_command : Int
  /-- Set once the process has exited or has been replaced -/
  halted : Option Halt
  deriving DecidableEq, Repr

/-- The Monitor at program start, after `main` has installed the handler and printed
its start banner. -/
def Monitor.init : Monitor :=
  { should_exit := 0, received_command := 0, halted := none }

/-- Grace delay in microseconds (`#define DELAY_BEFORE_EXIT 2000000`). -/
def DELAY_BEFORE_EXIT : Nat := 2000000

namespace Monitor

/-- The argument vector `execlp` receives in `execute_treasure_manager`. -/
def worker_argv (action : List Char) (params : Option (List Char)) : List (List Char) :=
  match params with
  | some p => ["treasure_manager".toList, action, p]
  | none => ["treasure_manager".toList, action]

/-- The function `execute_treasure_manager(action, params)`; `params = none` is NULL. -/
def execute_treasure_manager (o : MOracle) (action : List Char) (params : Option (List Char))
    (m : Monitor) : Monitor × List Effect :=
  if o.fork_pid < 0 then
    (m, [Effect.perror "Fork failed".toList])
  else if o.fork_pid = 0 then
    if o.exec_ok then
      ({ m with halted := some (Halt.exec (worker_argv action params)) }, [])
    else
      ({ m with halted := some (Halt.exit 1) }, [Effect.perror "Exec failed".toList])
  else
    (m, [Effect.spawn o.fork_pid (worker_argv action params), Effect.wait o.fork_pid]
        ++ (if WIFEXITED o.status ∧ WEXITSTATUS o.status ≠ 0 then
              [Effect.print ("Treasure manager exited with status ".toList
                 ++ fmt_d (WEXITSTATUS o.status) ++ "\n".toList)]
            else []))

/-- The function `list_hunts()` of the Monitor. -/
def list_hunts (o : MOracle) (m : Monitor) : Monitor × List Effect :=
  let (m1, e1) := execute_treasure_manager o "list".toList none m
  (m1, Effect.print "Monitor: Listing all hunts\n".toList :: e1)

/-- The function `list_treasures(hunt_id)` of the Monitor. -/
def list_treasures (o : MOracle) (hunt_id : List Char) (m : Monitor) :
    Monitor × List Effect :=
  let (m1, e1) := execute_treasure_manager o "show".toList (some hunt_id) m
  (m1, Effect.print ("Monitor: Listing treasures for hunt ".toList ++ hunt_id
          ++ "\n".toList) :: e1)

/-- The function `view_treasure(hunt_id, treasure_id)` of the Monitor. -/
def view_treasure (o : MOracle) (hunt_id treasure_id : List Char) (m : Monitor) :
    Monitor × List Effect :=
  let params := snprintf MAX_CMD_LEN (hunt_id ++ SP :: treasure_id)
  let (m1, e1) := execute_treasure_manager o "view".toList (some params) m
  (m1, Effect.print ("Monitor: Viewing treasure ".toList ++ treasure_id
          ++ " in hunt ".toList ++ hunt_id ++ "\n".toList) :: e1)

/-- What `handle_command` leaves in a zeroed buffer after `fgets` on a freshly opened
file and the removal of the trailing newline. -/
def read_field (content : List Char) : List Char :=
  match fgets MAX_CMD_LEN content with
  | some bytes => trim_newline (cstr bytes)
  | none => []

/-- The read half of `handle_command()`: `none` when the command file cannot be
opened, else the contents of the buffers `command` and `params`. -/
def read_channel (ch : Channel) : Option (List Char × List Char) :=
  match ch.command_file with
  | none => none
  | some c =>
    some (read_field c,
      match ch.param_file with
      | some p => read_field p
      | none => [])

/-- The dispatch half of `handle_command()` on the buffers read. -/
def dispatch (o : MOracle) (command params : List Char) (m : Monitor) :
    Monitor × List Effect :=
  if command = "list_hunts".toList then list_hunts o m
  else if command = "list_treasures".toList then list_treasures o params m
  else if command = "view_treasure".toList then
    let (hunt_id, treasure_id) := sscanf_two params
    view_treasure o hunt_id treasure_id m
  else if command = "stop".toList then
    ({ m with should_exit := 1 },
      [Effect.print "Monitor received stop command. Preparing to exit...\n".toList])
  else
    (m, [Effect.print ("Monitor: Unknown command '".toList ++ command ++ "'\n".toList)])

/-- The function `handle_command()` with the channel files as they are when it runs. -/
def handle_command (o : MOracle) (ch : Channel) (m : Monitor) : Monitor × List Effect :=
  match read_channel ch with
  | none => (m, [Effect.perror "Failed to open command file".toList])
  | some (command, params) => dispatch o command params m

/-- The signal handler `handle_sigusr1()`. -/
def handle_sigusr1 (m : Monitor) : Monitor :=
  { m with received_command := 1 }

/-- One evaluation of the loop condition of `main` followed by the loop body, or, when
the condition fails, by the rest of `main`. -/
def main_turn (o : MOracle) (ch : Channel) (m : Monitor) : Monitor × List Effect :=
  if m.should_exit ≠ 0 then
    ({ m with halted := some (Halt.exit 0) },
      [Effect.print "Monitor: Delaying before exit...\n".toList,
       Effect.usleep DELAY_BEFORE_EXIT,
       Effect.print "Monitor: Exiting now\n".toList])
  else if m.received_command ≠ 0 then
    let (m1, e1) := handle_command o ch m
    if m1.halted.isSome then (m1, e1)
    else ({ m1 with received_command := 0 }, e1 ++ [Effect.usleep 100000])
  else (m, [Effect.usleep 100000])

end Monitor

/-- The steps of the Monitor process. -/
inductive MEvent where
  /-- SIGUSR1 was delivered -/
  | sigusr1
  /-- One turn of the loop of `main`, with the channel files as they are then -/
  | turn (o : MOracle) (ch : Channel)
  deriving DecidableEq, Repr

namespace Monitor

/-- One step of the Monitor; a halted process takes no further step. -/
def step (ev : MEvent) (m : Monitor) : Monitor × List Effect :=
  if m.halted.isSome then (m, [])
  else
    match ev with
    | .sigusr1 => (handle_sigusr1 m, [])
    | .turn o ch => main_turn o ch m

/-- The Monitor after a sequence of steps, with all effects in order. -/
def run : List MEvent → Monitor → Monitor × List Effect
  | [], m => (m, [])
  | ev :: evs, m =>
    let (m1, e1) := step ev m
    let (m2, e2) := run evs m1
    (m2, e1 ++ e2)

end Monitor

/-! ## The worker, `treasure_manager.c` -/

/-- The operation `main` of the worker calls. -/
inductive Op where
  /-- `add_treasure(hunt_id)` -/
  | add_treasure (hunt_id : List Char)
  /-- `list_treasures(hunt_id)` -/
  | list_treasures (hunt_id : List Char)
  /-- `view_treasure(hunt_id, treasure_id)` -/
  | view_treasure (hunt_id : List Char) (treasure_id : Int)
  /-- `remove_treasure(hunt_id, treasure_id)` -/
  | remove_treasure (hunt_id : List Char) (treasure_id : Int)
  /-- `remove_hunt(hunt_id)` -/
  | remove_hunt (hunt_id : List Char)
  deriving DecidableEq, Repr

/-- Value of a run of decimal digits. -/
def digits_value (ds : List Char) : Nat :=
  (ds.takeWhile Char.isDigit).foldl (fun acc c => 10 * acc + (c.toNat - 48)) 0

/-- The C function `atoi`: white space, an optional sign, digits. The result is the value
of the digits, which is what `atoi` returns for every run of digits within the range of
`int`; for a run outside that range C leaves the result undefined, and this value is
then not the one a given libc returns. -/
def atoi (str : List Char) : Int :=
  match str.dropWhile isspace with
  | '-' :: ds => - (digits_value ds : Int)
  | '+' :: ds => digits_value ds
  | ds => digits_value ds

namespace Manager

/-- What `main` of the worker does up to the operation it calls. -/
structure Outcome where
  /-- The operation called, if any -/
  op : Option Op
  /-- The text `main` itself prints -/
  output : List Char
  /-- The value `main` returns once the operation has returned -/
  code : Int
  deriving DecidableEq, Repr

/-- The function `main(argc, argv)` of the worker, `argc` being the length of `argv`.
The treasure id handed to `view_treasure` and `remove_treasure` is the value of `atoi`,
the `int` of the code for every id text within the range of `int`. -/
def main (argv : List (List Char)) : Outcome :=
  match argv with
  | [] | [_] =>
    ⟨none, "Format: treasure_manager --<command> [hunt_id] [treasure_id]\n".toList, 1⟩
  | _ :: cmd :: args =>
    if cmd = "--add".toList then
      match args with
      | [] => ⟨none, "Format: treasure_manager --add <hunt_id>\n".toList, 1⟩
      | hunt_id :: _ => ⟨some (Op.add_treasure hunt_id), [], 0⟩
    else if cmd = "--list".toList then
      match args with
      | [] => ⟨none, "Format: treasure_manager --list <hunt_id>\n".toList, 1⟩
      | hunt_id :: _ => ⟨some (Op.list_treasures hunt_id), [], 0⟩
    else if cmd = "--view".toList then
      match args with
      | hunt_id :: treasure_id :: _ => ⟨some (Op.view_treasure hunt_id (atoi treasure_id)), [], 0⟩
      | _ => ⟨none, "Format: treasure_manager --view <hunt_id> <treasure_id>\n".toList, 1⟩
    else if cmd = "--remove_treasure".toList then
      match args with
      | hunt_id :: treasure_id :: _ =>
        ⟨some (Op.remove_treasure hunt_id (atoi treasure_id)), [], 0⟩
      | _ => ⟨none,
          "Format: treasure_manager --remove_treasure <hunt_id> <treasure_id>\n".toList, 1⟩
    else if cmd = "--remove_hunt".toList then
      match args with
      | [] => ⟨none, "Format: treasure_manager --remove_hunt <hunt_id>\n".toList, 1⟩
      | hunt_id :: _ => ⟨some (Op.remove_hunt hunt_id), [], 0⟩
    else
      ⟨none, "Unknown command: ".toList ++ cmd ++ "\n".toList, 1⟩

end Manager

/-! ## The score calculator, `score_calculator.c` -/

/-- The comma byte. -/
def COMMA : Char := Char.ofNat 44

/-- Capacity of the item array (`#define MAX_ITEMS 100`). -/
def MAX_ITEMS : Nat := 100

/-- Capacity of the user array (`#define MAX_USERS 100`). -/
def MAX_USERS : Nat := 100

/-- A value as an `int` holds it: reduced to 32 bits, two's complement. -/
def int32 (x : Int) : Int :=
  (x + 2147483648) % 4294967296 - 2147483648

/-- One call of `strtok` with the delimiter set `delim` on the text not yet scanned. -/
def strtok_with (delim : Char) (rest : List Char) : Option (List Char × List Char) :=
  let r := rest.dropWhile (fun c => c == delim)
  if r = [] then none
  else some (r.takeWhile (fun c => c != delim), (r.dropWhile (fun c => c != delim)).drop 1)

/-- The record `Item`. -/
structure Item where
  /-- `char name[128]` -/
  name : List Char
  /-- `int value` -/
  value : Int
  /-- `char owner[128]` -/
  owner : List Char
  deriving DecidableEq, Repr

/-- The record `User`. -/
structure User where
  /-- `char name[128]` -/
  name : List Char
  /-- `int score` -/
  score : Int
  deriving DecidableEq, Repr

namespace Score

/-- The body of the read loop of `calculate_scores` for one buffer that `fgets` has
filled: `none` when the line is skipped by `continue`, else the item stored. A name
or owner is kept whole: the code copies it with `strcpy` into `char[128]`, so this is
the item of the code for fields shorter than 128 bytes only. -/
def parse_item (buf : List Char) : Option Item :=
  let line := (cstr buf).takeWhile (fun c => c != NL)
  if line = [] then none
  else
    match strtok_with COMMA line with
    | none => none
    | some (name, r1) =>
      match strtok_with COMMA r1 with
      | none => none
      | some (value, r2) =>
        match strtok_with COMMA r2 with
        | none => none
        | some (owner, _) => some ⟨name, int32 (atoi value), owner⟩

/-- The part of the loop body that records a new user for the owner of an item. -/
def record_user (users : List User) (owner : List Char) : List User :=
  if users.any (fun u => u.name == owner) || owner == "none".toList then users
  else users ++ [⟨owner, 0⟩]

/-- The read loop of `calculate_scores` over the buffers that successive
`fgets(line, MAX_LINE, stdin)` calls fill, from `item_count = items.length` and
`user_count = users.length`; it ends at end of input or when the item array is full. -/
def read_loop : List (List Char) → List Item → List User → List Item × List User
  | [], items, users => (items, users)
  | buf :: more, items, users =>
    match parse_item buf with
    | none => read_loop more items users
    | some item =>
      if (items ++ [item]).length ≥ MAX_ITEMS then
        (items ++ [item], record_user users item.owner)
      else read_loop more (items ++ [item]) (record_user users item.owner)

/-- The inner loop that adds up the score of one user over all items. -/
def add_scores (items : List Item) (u : User) : User :=
  items.foldl
    (fun u item => if item.owner = u.name then { u with score := int32 (u.score + item.value) }
      else u) u

/-- The function `calculate_scores()`: the lines it prints for the given input. -/
def calculate_scores (input : List (List Char)) : List (List Char) :=
  let (items, users) := read_loop input [] []
  let scored := users.map (add_scores items)
  ["===== USER SCORES =====\n".toList]
    ++ scored.map (fun u => u.name ++ ": ".toList ++ fmt_d u.score ++ " points\n".toList)
    ++ (if scored.length = 0 then ["No users with items found in this hunt.\n".toList]
        else [])

end Score

/-! ## Predicates used in the statements -/

/-- A text that the channel carries unchanged: a C string without newline that fits the
256-byte buffer of the reader. -/
def Sendable (t : List Char) : Prop :=
  NUL ∉ t ∧ NL ∉ t ∧ t.length < MAX_CMD_LEN

instance instDecidableSendable (t : List Char) : Decidable (Sendable t) := by
  unfold Sendable; infer_instance

/-- The params file as the reader of the channel sees it: the buffer it fills. -/
def params_seen (param_file : Option (List Char)) : List Char :=
  match param_file with
  | some old => Monitor.read_field old
  | none => []

/-- An oracle under which every system call succeeds, `fork` returning `pid`. -/
def Oracle.ok (pid : Int) : Oracle :=
  { cmd_open := true, param_open := true, pipe_ok := true, pipe_wr := 4, fork_pid := pid,
    dup2_ok := true, exec_ok := true, drained := [], hunts := none }

/-- The argument vectors of the children a list of effects forks, in order. -/
def spawned : List Effect → List (List (List Char))
  | [] => []
  | Effect.spawn _ argv :: es => argv :: spawned es
  | _ :: es => spawned es

/-- A Monitor call spawns the worker with `argv`: when `fork` succeeds the parent has
forked exactly one child, the one that execs `argv`, and has not been replaced itself;
and the child side of that `fork`, when its `execlp` succeeds, becomes the process
image with `argv`. -/
def SpawnsWorker (o : MOracle) (m : Monitor) (r : Monitor × List Effect)
    (argv : List (List Char)) : Prop :=
  (0 < o.fork_pid → spawned r.2 = [argv] ∧ r.1.halted = m.halted) ∧
  (o.fork_pid = 0 → o.exec_ok = true → r.1.halted = some (Halt.exec argv))

/-- The lifecycle of the Monitor as the Hub records it. -/
inductive Lifecycle where
  /-- No monitor: `monitor_pid <= 0` -/
  | NotRunning
  /-- A monitor that was not told to stop: `monitor_pid > 0`, `monitor_exiting == 0` -/
  | Running
  /-- A monitor that was told to stop: `monitor_pid > 0`, `monitor_exiting` set -/
  | Exiting
  deriving DecidableEq, Repr

/-- The lifecycle state read off the globals of the Hub. -/
def lifecycle (s : Hub) : Lifecycle :=
  if s.monitor_pid ≤ 0 then Lifecycle.NotRunning
  else if s.monitor_exiting = 0 then Lifecycle.Running
  else Lifecycle.Exiting

/-- The tokens that successive `strtok` calls with delimiter `" "` yield, at most
`fuel` of them. -/
def tokens_fuel : Nat → List Char → List (List Char)
  | 0, _ => []
  | fuel + 1, text =>
    match strtok text with
    | none => []
    | some (token, rest) => token :: tokens_fuel fuel rest

/-- All tokens of a text: every token takes at least one byte. -/
def tokens (text : List Char) : List (List Char) :=
  tokens_fuel (text.length + 1) text

/-- The writes to the two channel files among a list of effects. -/
def channel_writes (es : List Effect) : List Effect :=
  es.filter (fun e =>
    match e with
    | Effect.write_command _ => true
    | Effect.write_params _ => true
    | _ => false)

/-- The signals raised among a list of effects. -/
def signals (es : List Effect) : List Effect :=
  es.filter (fun e =>
    match e with
    | Effect.kill _ => true
    | _ => false)

/-- A call that is refused: the state (globals, channel files, process) is exactly as
before and the only effect is the message printed. -/
def Refused (s : Hub) (r : Hub × List Effect) (message : List Char) : Prop :=
  r = (s, [Effect.print message])

/-- The first token of an input line as `process_command` finds it. -/
def first_token (cmd : List Char) : Option (List Char) :=
  (strtok (trim_newline cmd)).map Prod.fst

/-- The Monitor is about to leave, or has left, the loop of `main`: the exit flag is
set, or `main` has returned. -/
def Monitor.Leaving (m : Monitor) : Prop :=
  m.should_exit ≠ 0 ∨ m.halted = some (Halt.exit 0)

/-- A turn of the loop of `main` in which `handle_command` is called and reads `stop`. -/
def StopTurn (ev : MEvent) : Prop :=
  ∃ o ch params, ev = MEvent.turn o ch ∧
    Monitor.read_channel ch = some ("stop".toList, params)

/-- The invariant of the Hub's globals: `monitor_pid` is never 0, and the exiting flag
is set without a monitor only while a child-exit notification is pending. -/
def Hub.Inv (s : Hub) : Prop :=
  s.monitor_pid ≠ 0 ∧ (s.child_exited = 0 → s.monitor_pid ≤ 0 → s.monitor_exiting = 0)

/-- The changes of lifecycle state the Hub makes: by which event, and with which
effects. -/
def AllowedChange (s : Hub) (ev : Event) (r : Hub × List Effect) : Prop :=
  (lifecycle s = Lifecycle.NotRunning ∧ lifecycle r.1 = Lifecycle.Running ∧
    ∃ o cmd, ev = Event.input o (Input.line cmd) ∧
      first_token cmd = some "start_monitor".toList ∧
      0 < o.fork_pid ∧ r.1.monitor_pid = o.fork_pid ∧
      spawned r.2 = [["treasure_monitor".toList, fmt_d o.pipe_wr]]) ∨
  (lifecycle s = Lifecycle.Running ∧ lifecycle r.1 = Lifecycle.Exiting ∧
    ∃ o cmd, ev = Event.input o (Input.line cmd) ∧
      first_token cmd = some "stop_monitor".toList ∧
      r.1.monitor_pid = s.monitor_pid ∧
      channel_writes r.2 =
        (if o.cmd_open then [Effect.write_command "stop".toList] else []) ∧
      signals r.2 = [Effect.kill s.monitor_pid]) ∨
  ((lifecycle s = Lifecycle.Running ∨ lifecycle s = Lifecycle.Exiting) ∧
    lifecycle r.1 = Lifecycle.NotRunning ∧
    ∃ reaped status, ev = Event.sigchld reaped ∧ (s.monitor_pid, status) ∈ reaped)

/-- The four commands to the Monitor are refused in state `s`: each call leaves the
state exactly as it was and only prints the error message of the guard that refuses
it. The four functions are those of one Hub variant. -/
def CommandsRefused (stop_monitor list_hunts : Oracle → Hub → Hub × List Effect)
    (list_treasures : Oracle → List Char → Hub → Hub × List Effect)
    (view_treasure : Oracle → List Char → List Char → Hub → Hub × List Effect)
    (s : Hub) : Prop :=
  ∀ (o : Oracle) (hunt_id treasure_id : List Char),
    (lifecycle s = Lifecycle.NotRunning →
      Refused s (stop_monitor o s) "Error: Monitor is not running\n".toList ∧
      Refused s (list_hunts o s) "Error: Monitor is not running\n".toList ∧
      Refused s (list_treasures o hunt_id s) "Error: Monitor is not running\n".toList ∧
      Refused s (view_treasure o hunt_id treasure_id s)
        "Error: Monitor is not running\n".toList) ∧
    (lifecycle s = Lifecycle.Exiting →
      Refused s (stop_monitor o s)
        "Error: Monitor is already in the process of exiting\n".toList ∧
      Refused s (list_hunts o s) "Error: Monitor is in the process of exiting\n".toList ∧
      Refused s (list_treasures o hunt_id s)
        "Error: Monitor is in the process of exiting\n".toList ∧
      Refused s (view_treasure o hunt_id treasure_id s)
        "Error: Monitor is in the process of exiting\n".toList)

/-- The line by which `execute_treasure_manager` reports a status of the worker. -/
def invoker_report (code : Int) : Effect :=
  Effect.print ("Treasure manager exited with status ".toList ++ fmt_d code ++ "\n".toList)

/-- The exit status that stands for a termination: the exit code of a normal exit,
128 plus the signal number of a termination by signal; `old` when it is neither. -/
def recorded_status (status : WStatus) (old : Int) : Int :=
  match status with
  | WStatus.exited code => code
  | WStatus.signaled sig => 128 + sig
  | WStatus.other => old

/-- The Hub state after the handler has reaped the monitor with `status`. -/
def Hub.reaped (s : Hub) (status : WStatus) : Hub :=
  { s with child_exited := 1, exit_status := recorded_status status s.exit_status,
           monitor_pid := -1 }

/-- The line by which the loop of `main` reports the recorded exit of the monitor. -/
def status_line (exit_status : Int) : Effect :=
  Effect.print ("Monitor has terminated with status ".toList ++ fmt_d exit_status
    ++ "\n".toList)

/-- The message `handle_command` prints when it dispatches `stop`. -/
def stop_message : Effect :=
  Effect.print "Monitor received stop command. Preparing to exit...\n".toList

/-- The effects of `main` of the Monitor after its loop: the grace delay between the
two messages. -/
def exit_sequence : List Effect :=
  [Effect.print "Monitor: Delaying before exit...\n".toList,
   Effect.usleep DELAY_BEFORE_EXIT,
   Effect.print "Monitor: Exiting now\n".toList]

/-- The trace of a Monitor that has been told to stop and, if it has returned from
`main`, has slept the grace delay after the dispatch of `stop`. -/
def GraceKept (m : Monitor) (trace : List Effect) : Prop :=
  (m.should_exit ≠ 0 → stop_message ∈ trace) ∧
  (m.halted = some (Halt.exit 0) →
    ∃ before, trace = before ++ exit_sequence ∧ stop_message ∈ before)

/-- A line as `fgets(cmd, MAX_CMD_LEN, stdin)` delivers it to the Hub: a C string of at
most 255 bytes whose only newline, if any, is the last byte. -/
def InputLine (cmd : List Char) : Prop :=
  NUL ∉ cmd ∧ NL ∉ trim_newline cmd ∧ cmd.length < MAX_CMD_LEN

instance instDecidableInputLine (cmd : List Char) : Decidable (InputLine cmd) := by
  unfold InputLine; infer_instance

/-- A text without white space in the sense of `isspace`. -/
def NoWhite (t : List Char) : Prop :=
  ∀ c ∈ t, isspace c = false

instance instDecidableNoWhite (t : List Char) : Decidable (NoWhite t) := by
  unfold NoWhite; infer_instance

/-- The Monitor's `handle_command` run on the channel files as the Hub's
`process_command` leaves them for the input line `cmd`. -/
def forwarded (o : Oracle) (mo : MOracle) (cmd : List Char) (s : Hub) (m : Monitor) :
    Monitor × List Effect :=
  Monitor.handle_command mo (HubV2.process_command o cmd s).1.chan m

/-- Two results of a call from state `s`, by the Hub without and with result pipe,
agree on orchestration: the same globals, the same channel files, both or neither
ended as this process, the same writes to the channel files, the same signals, as many
processes spawned, and the same refusals. -/
def Agree (s : Hub) (r1 r2 : Hub × List Effect) : Prop :=
  r2.1.monitor_pid = r1.1.monitor_pid ∧
  r2.1.monitor_exiting = r1.1.monitor_exiting ∧
  r2.1.child_exited = r1.1.child_exited ∧
  r2.1.exit_status = r1.1.exit_status ∧
  r2.1.chan = r1.1.chan ∧
  r2.1.halted.isSome = r1.1.halted.isSome ∧
  channel_writes r2.2 = channel_writes r1.2 ∧
  signals r2.2 = signals r1.2 ∧
  (spawned r2.2).length = (spawned r1.2).length ∧
  ∀ message, Refused s r1 message ↔ Refused s r2 message

namespace HubV2

end HubV2

/-- The order in which `main` of the Hub takes its steps: the loop-top check comes
before every read of input, signals arrive anywhere. `checked` tells whether the
check of the current iteration has been made. -/
def scheduled : Bool → List Event → Bool
  | _, [] => true
  | checked, Event.check :: evs => !checked && scheduled true evs
  | checked, Event.input _ _ :: evs => checked && scheduled false evs
  | checked, Event.sigchld _ :: evs => scheduled checked evs

/-- Whether the check of the current iteration has been made after the events. -/
def checked_after : Bool → List Event → Bool
  | checked, [] => checked
  | _, Event.check :: evs => checked_after true evs
  | _, Event.input _ _ :: evs => checked_after false evs
  | checked, Event.sigchld _ :: evs => checked_after checked evs

/-- A step that starts a monitor: none is recorded before it, one after it. -/
def starts_monitor (p : Hub × Event) : Bool :=
  decide (p.1.monitor_pid ≤ 0 ∧ 0 < (HubV2.step p.2 p.1).1.monitor_pid)

/-- A step that sends a stop to the monitor: a `stop_monitor` line whose processing
signals the recorded monitor. -/
def sends_stop (p : Hub × Event) : Bool :=
  match p.2 with
  | Event.input _ (Input.line cmd) =>
    decide (first_token cmd = some "stop_monitor".toList ∧
      Effect.kill p.1.monitor_pid ∈ (HubV2.step p.2 p.1).2)
  | _ => false

/-- The number of stops sent to the monitor that is recorded at the end of the run,
`n` being the number sent to the one recorded at its beginning. -/
def stops_sent : List Event → Hub → Nat → Nat
  | [], _, n => n
  | ev :: evs, s, n =>
    stops_sent evs (HubV2.step ev s).1
      (if starts_monitor (s, ev) then 0 else if sends_stop (s, ev) then n + 1 else n)

/-- The invariant that ties the exiting flag to the stops sent: the flag of a live
monitor is set by a stop sent to it, or is left over from its predecessor while the
notification of that one's exit is pending, which is only between a `start_monitor`
and the next loop-top check. -/
def FlagInv (checked : Bool) (s : Hub) (n : Nat) : Prop :=
  s.monitor_pid ≠ 0 ∧ n ≤ 1 ∧
  (0 < s.monitor_pid → n = 1 → s.monitor_exiting ≠ 0) ∧
  (0 < s.monitor_pid → s.monitor_exiting ≠ 0 → n = 0 → s.child_exited ≠ 0) ∧
  (0 < s.monitor_pid → s.child_exited ≠ 0 →
    checked = false ∧ n = 0 ∧ s.halted = none) ∧
  (s.monitor_pid ≤ 0 → s.monitor_exiting ≠ 0 → s.child_exited ≠ 0)

/-- A field of a line of the score input: not empty, without comma, newline or NUL,
shorter than the 128 bytes of the arrays that store it. -/
def Field (t : List Char) : Prop :=
  t ≠ [] ∧ COMMA ∉ t ∧ NL ∉ t ∧ NUL ∉ t ∧ t.length < 128

instance instDecidableField (t : List Char) : Decidable (Field t) := by
  unfold Field; infer_instance

/-- Fields joined by commas. -/
def join_fields : List (List Char) → List Char
  | [] => []
  | [a] => a
  | a :: b :: rest => a ++ COMMA :: join_fields (b :: rest)

/-- A line of the score input: its comma-separated fields, and whether a newline ends
it (the last line of a stream may lack one). -/
structure ScoreLine where
  /-- The fields of the line -/
  fields : List (List Char)
  /-- Whether the line ends with a newline -/
  newline : Bool
  deriving DecidableEq, Repr

/-- The bytes of the line as `fgets` stores them. -/
def ScoreLine.render (l : ScoreLine) : List Char :=
  join_fields l.fields ++ (if l.newline then [NL] else [])

/-- A line of the form `name,value,owner`, or one with fewer fields. -/
def ScoreLine.Valid (l : ScoreLine) : Prop :=
  l.fields.length ≤ 3 ∧ ∀ f ∈ l.fields, Field f

instance instDecidableScoreLineValid (l : ScoreLine) : Decidable l.Valid := by
  unfold ScoreLine.Valid; infer_instance

/-- The items of the input: one for every line with three fields, its value the
number `atoi` reads from the second field. -/
def entries : List ScoreLine → List Item
  | [] => []
  | l :: ls =>
    match l.fields with
    | [name, value, owner] => ⟨name, atoi value, owner⟩ :: entries ls
    | _ => entries ls

/-- The distinct elements of a list in the order of their first appearance. -/
def first_appearances : List (List Char) → List (List Char)
  | [] => []
  | x :: xs => x :: (first_appearances xs).filter (fun y => y != x)

/-- The distinct owners other than `none`, in the order of their first appearance. -/
def owners_in_order (items : List Item) : List (List Char) :=
  first_appearances ((items.map Item.owner).filter (fun o => o != "none".toList))

/-- The sum of the values of all items of an owner. -/
def total (items : List Item) (owner : List Char) : Int :=
  ((items.filter (fun item => item.owner = owner)).map Item.value).sum

/-- No sum of values leaves the range of `int`: the absolute values add up to less
than 2^31. -/
def NoOverflow (items : List Item) : Prop :=
  (items.map (fun item => item.value.natAbs)).sum < 2147483648

instance instDecidableNoOverflow (items : List Item) : Decidable (NoOverflow items) := by
  unfold NoOverflow; infer_instance

/-- The lines expected from `calculate_scores`: the header, one line for every
distinct owner other than `none` in the order of first appearance, with the sum of the
values of the owner's items, and a notice when there is no such owner. -/
def expected_output (items : List Item) : List (List Char) :=
  ["===== USER SCORES =====\n".toList]
    ++ (owners_in_order items).map
        (fun o => o ++ ": ".toList ++ fmt_d (total items o) ++ " points\n".toList)
    ++ (if owners_in_order items = [] then
          ["No users with items found in this hunt.\n".toList]
        else [])

/-! ## The treasure file of the worker -/

/-- Size of the field `username` (`#define MAX_USERNAME 64`). -/
def MAX_USERNAME : Nat := 64

/-- Size of the field `clue` (`#define MAX_CLUE 256`). -/
def MAX_CLUE : Nat := 256

/-- The record `Treasure`. The two `float` fields are carried as their bits; the text
fields hold the C string stored in them. -/
structure Treasure where
  /-- `int id` -/
  id : Int
  /-- `char username[MAX_USERNAME]` -/
  username : List Char
  /-- `float latitude` -/
  latitude : Nat
  /-- `float longitude` -/
  longitude : Nat
  /-- `char clue[MAX_CLUE]` -/
  clue : List Char
  /-- `int value` -/
  value : Int
  /-- `char is_active`: 1 for active, 0 for deleted -/
  is_active : Nat
  deriving DecidableEq, Repr

/-- What the reads of standard input in `add_treasure` leave in the fields of the new
record. -/
structure Entered where
  /-- Left by `fgets` and the removal of the newline -/
  username : List Char
  /-- Left by the first `scanf("%f")` -/
  latitude : Nat
  /-- Left by the second `scanf("%f")` -/
  longitude : Nat
  /-- Left by `fgets` and the removal of the newline -/
  clue : List Char
  /-- Left by `scanf("%d")` -/
  value : Int
  deriving DecidableEq, Repr

/-- Answers of the system to the calls of one operation of the worker, as far as the
content of the treasure file does not decide them. A `write` of a record stores the
whole record or, when it fails, nothing. -/
structure Sys where
  /-- `mkdir` of the hunt directory fails with an error other than `EEXIST` -/
  mkdir_fails : Bool
  /-- `open` for reading (or reading and writing) fails with an error other than
  `ENOENT` -/
  open_fails : Bool
  /-- `open` with `O_WRONLY | O_CREAT | O_APPEND` fails -/
  append_fails : Bool
  /-- `lseek` back to the record found fails -/
  lseek_fails : Bool
  /-- `write` of the record fails -/
  write_fails : Bool
  deriving DecidableEq, Repr

namespace Manager

/-- What one operation of the worker leaves behind. -/
structure Done where
  /-- The treasure file of the hunt: `none` when absent, else its records in order -/
  file : Option (List Treasure)
  /-- What was printed, on standard output and by `perror` -/
  effects : List Effect
  /-- The hunt and the text handed to `log_operation`, if it was called -/
  logged : Option (List Char × List Char)
  /-- The code of `exit`, if the operation ended the process -/
  exited : Option Int
  deriving DecidableEq, Repr

/-- The loop of `get_next_treasure_id` over the records read, from the current
`max_id`. -/
def max_id_loop (max_id : Int) : List Treasure → Int
  | [] => max_id
  | treasure :: rest =>
    max_id_loop
      (if treasure.is_active ≠ 0 ∧ treasure.id > max_id then treasure.id else max_id) rest

/-- The function `get_next_treasure_id`: `none` when it ends the process with
`exit(1)` after `perror("Failed to open treasure file")`. The sum `max_id + 1` is an
`int`. -/
def get_next_treasure_id (sys : Sys) (file : Option (List Treasure)) : Option Int :=
  if sys.open_fails then none
  else
    match file with
    | none => some 1
    | some records => some (int32 (max_id_loop 0 records + 1))

/-- The function `add_treasure(hunt_id)`. -/
def add_treasure (sys : Sys) (hunt_id : List Char) (entered : Entered)
    (file : Option (List Treasure)) : Done :=
  if sys.mkdir_fails then
    ⟨file, [Effect.perror "Failed to create hunt directory".toList], none, some 1⟩
  else
    match get_next_treasure_id sys file with
    | none => ⟨file, [Effect.perror "Failed to open treasure file".toList], none, some 1⟩
    | some id =>
      let new_treasure : Treasure :=
        ⟨id, entered.username, entered.latitude, entered.longitude, entered.clue,
          entered.value, 1⟩
      let prompts :=
        [Effect.print ("Enter username (max ".toList ++ fmt_d ((MAX_USERNAME : Int) - 1)
            ++ " chars): ".toList),
          Effect.print "Enter latitude: ".toList,
          Effect.print "Enter longitude: ".toList,
          Effect.print ("Enter clue (max ".toList ++ fmt_d ((MAX_CLUE : Int) - 1)
            ++ " chars): ".toList),
          Effect.print "Enter value: ".toList]
      if sys.append_fails then
        ⟨file, prompts ++ [Effect.perror "Failed to open treasure file".toList], none, some 1⟩
      else if sys.write_fails then
        ⟨some (file.getD []), prompts ++ [Effect.perror "Failed to write treasure".toList],
          none, some 1⟩
      else
        ⟨some (file.getD [] ++ [new_treasure]),
          prompts ++ [Effect.print ("Treasure added successfully with ID ".toList
            ++ fmt_d new_treasure.id ++ "\n".toList)],
          some (hunt_id, "Added treasure ID ".toList ++ fmt_d new_treasure.id
            ++ " by ".toList ++ new_treasure.username),
          none⟩

/-- The search loop of `remove_treasure` from the record at `position`: the position
and the content of the first record read that is active and has the id. -/
def find_treasure (treasure_id : Int) : List Treasure → Nat → Option (Nat × Treasure)
  | [], _ => none
  | treasure :: rest, position =>
    if treasure.is_active ≠ 0 ∧ treasure.id = treasure_id then some (position, treasure)
    else find_treasure treasure_id rest (position + 1)

/-- The function `remove_treasure(hunt_id, treasure_id)`. -/
def remove_treasure (sys : Sys) (hunt_id : List Char) (treasure_id : Int)
    (file : Option (List Treasure)) : Done :=
  if sys.open_fails then
    ⟨file, [Effect.perror "Failed to open treasure file".toList], none, some 1⟩
  else
    match file with
    | none =>
      ⟨none, [Effect.print ("Hunt '".toList ++ hunt_id
        ++ "' has no treasures or does not exist.\n".toList)], none, none⟩
    | some records =>
      match find_treasure treasure_id records 0 with
      | some (position, treasure) =>
        if sys.lseek_fails then
          ⟨file, [Effect.perror "Failed to seek in file".toList], none, some 1⟩
        else if sys.write_fails then
          ⟨file, [Effect.perror "Failed to update treasure".toList], none, some 1⟩
        else
          ⟨some (records.set position { treasure with is_active := 0 }),
            [Effect.print ("Treasure with ID ".toList ++ fmt_d treasure_id
              ++ " removed successfully.\n".toList)],
            some (hunt_id, "Removed treasure ID ".toList ++ fmt_d treasure_id
              ++ " from hunt '".toList ++ hunt_id ++ "'".toList),
            none⟩
      | none =>
        ⟨file, [Effect.print ("Treasure with ID ".toList ++ fmt_d treasure_id
          ++ " not found in hunt '".toList ++ hunt_id ++ "'.\n".toList)], none, none⟩

end Manager

/-- One run of the worker on the treasure file of a hunt, with what it is given. -/
inductive FileOp where
  /-- A run of `--add` -/
  | add (sys : Sys) (entered : Entered)
  /-- A run of `--remove_treasure` -/
  | remove (sys : Sys) (treasure_id : Int)
  deriving DecidableEq, Repr

/-- The treasure file after one run of the worker. -/
def apply_op (hunt_id : List Char) (file : Option (List Treasure)) :
    FileOp → Option (List Treasure)
  | .add sys entered => (Manager.add_treasure sys hunt_id entered file).file
  | .remove sys treasure_id => (Manager.remove_treasure sys hunt_id treasure_id file).file

/-- The treasure file after a sequence of runs of the worker, one after the other. -/
def run_ops (hunt_id : List Char) (file : Option (List Treasure)) (ops : List FileOp) :
    Option (List Treasure) :=
  ops.foldl (apply_op hunt_id) file

/-- Whether a record counts as active: `treasure.is_active` is not zero. -/
def Treasure.active (treasure : Treasure) : Bool :=
  treasure.is_active != 0

/-- The ids of the active records of a file, in the order of the file. -/
def active_ids (file : Option (List Treasure)) : List Int :=
  ((file.getD []).filter Treasure.active).map Treasure.id

/-- No two active records of the file share an id. -/
def DistinctActive (file : Option (List Treasure)) : Prop :=
  (active_ids file).Nodup

instance (file : Option (List Treasure)) : Decidable (DistinctActive file) := by
  unfold DistinctActive; infer_instance

/-- Number of runs of `--add` in a sequence. -/
def adds (ops : List FileOp) : Nat :=
  ops.countP (fun op => match op with | .add _ _ => true | .remove _ _ => false)

/-- A system on which no call fails. -/
def Sys.fine : Sys := ⟨false, false, false, false, false⟩

/-- The file that `n` runs of `--add` with the same entries and no failure build from
an empty file, while the ids fit an `int`: ids 1 to `n`, all active. -/
def added_file (entered : Entered) : Nat → List Treasure
  | 0 => []
  | n + 1 =>
    added_file entered n ++ [⟨(n : Int) + 1, entered.username, entered.latitude,
      entered.longitude, entered.clue, entered.value, 1⟩]

/-- The invariant of the treasure file after `n` runs of `--add`: the ids of the active
records are distinct and lie between 1 and `n`. -/
def FileInv (n : Nat) (file : Option (List Treasure)) : Prop :=
  DistinctActive file ∧ ∀ i ∈ active_ids file, 1 ≤ i ∧ i ≤ (n : Int)

/-! ## Theorems -/

/-! ### The channel -/

theorem fgets_bytes_of_no_newline (k : Nat) (t : List Char) (hnl : NL ∉ t)
    (hlen : t.length ≤ k) : fgets_bytes k t = t := by
  induction t generalizing k with
  | nil => cases k <;> rfl
  | cons c cs ih =>
    cases k with
    | zero => simp at hlen
    | succ k =>
      have hc : c ≠ NL := fun h => hnl (by simp [h])
      have hcs : NL ∉ cs := fun h => hnl (by simp [h])
      simp only [fgets_bytes, hc, if_false]
      rw [ih k hcs (by simpa using hlen)]

theorem cstr_of_no_nul (t : List Char) (h : NUL ∉ t) : cstr t = t := by
  unfold cstr
  rw [List.takeWhile_eq_self_iff]
  intro c hc
  have : c ≠ NUL := fun e => h (e ▸ hc)
  simpa using this

theorem trim_newline_of_no_newline (t : List Char) (h : NL ∉ t) : trim_newline t = t := by
  unfold trim_newline
  split
  · rename_i hl
    exact absurd (List.mem_of_getLast?_eq_some hl) h
  · rfl

theorem read_field_of_sendable (t : List Char) (h : Sendable t) :
    Monitor.read_field t = t := by
  obtain ⟨hnul, hnl, hlen⟩ := h
  unfold Monitor.read_field fgets
  by_cases ht : t = []
  · simp [ht]
  · simp only [ht, if_false]
    rw [fgets_bytes_of_no_newline _ _ hnl (by unfold MAX_CMD_LEN at *; omega),
      cstr_of_no_nul _ hnul, trim_newline_of_no_newline _ hnl]

theorem send_chan (o : Oracle) (name : List Char) (params : Option (List Char)) (s : Hub)
    (hc : o.cmd_open = true) (hp : o.param_open = true) :
    (HubV2.send_command_to_monitor o name params s).1.chan =
      { command_file := some name,
        param_file := match params with
          | some p => some p
          | none => s.chan.param_file } := by
  cases params <;> simp [HubV2.send_command_to_monitor, hc, hp]

theorem read_after_send (o : Oracle) (s : Hub) (name : List Char)
    (params : Option (List Char)) (hc : o.cmd_open = true) (hp : o.param_open = true)
    (hname : Sendable name) (hparams : Sendable (params.getD [])) :
    Monitor.read_channel (HubV2.send_command_to_monitor o name params s).1.chan =
      some (name,
        match params with
        | some p => p
        | none => params_seen s.chan.param_file) := by
  rw [send_chan o name params s hc hp]
  cases params with
  | none => simp [Monitor.read_channel, read_field_of_sendable name hname, params_seen]
  | some p =>
    simp [Monitor.read_channel, read_field_of_sendable name hname,
      read_field_of_sendable p (by simpa using hparams)]

/-- C1, as stated, fails: with the params file holding `pirates42` from before, the
send of `list_hunts` without params is read back as `list_hunts` with params
`pirates42`, not with no params. -/
theorem channel_round_trip_stale_params :
    Monitor.read_channel (HubV2.send_command_to_monitor (Oracle.ok 7) "list_hunts".toList none
        (Hub.init ⟨none, some "pirates42".toList⟩)).1.chan
      = some ("list_hunts".toList, "pirates42".toList)
    ∧ Monitor.read_channel (HubV2.send_command_to_monitor (Oracle.ok 7) "list_hunts".toList
        none (Hub.init ⟨none, some "pirates42".toList⟩)).1.chan
      ≠ some ("list_hunts".toList, []) := by
  decide

/-- C1 (amended): for every command name and optional params string that are C strings
without newline shorter than 256 bytes, and every prior content of the two channel
files, the read half of `handle_command` right after one successful
`send_command_to_monitor(name, params)` yields exactly `name`, and yields exactly
`params` when the send carried params; when it carried none, the params file is left
as it was and the read yields what that file held before (nothing if it is absent). -/
theorem channel_round_trip (o : Oracle) (s : Hub) (name : List Char)
    (params : Option (List Char)) (hc : o.cmd_open = true) (hp : o.param_open = true)
    (hname : Sendable name) (hparams : Sendable (params.getD [])) :
    Monitor.read_channel (HubV2.send_command_to_monitor o name params s).1.chan =
      some (name,
        match params with
        | some p => p
        | none => params_seen s.chan.param_file) :=
  read_after_send o s name params hc hp hname hparams

/-- Witness for C1: `list_treasures pirates42` sent over a channel holding an old
message is read back unchanged. -/
theorem channel_round_trip_witness :
    Monitor.read_channel (HubV2.send_command_to_monitor (Oracle.ok 7)
        "list_treasures".toList (some "pirates42".toList)
        (Hub.init ⟨some "stop".toList, some "old".toList⟩)).1.chan
      = some ("list_treasures".toList, "pirates42".toList) :=
  channel_round_trip (Oracle.ok 7) (Hub.init ⟨some "stop".toList, some "old".toList⟩)
    "list_treasures".toList (some "pirates42".toList) rfl rfl (by decide) (by decide)

/-- C2, as stated, fails: after `list_treasures pirates42` and then `list_hunts`
without params, the Monitor reads `list_hunts` together with the params `pirates42`
of the first message. -/
theorem last_writer_wins_first_params_visible :
    Monitor.read_channel
        (HubV2.send_command_to_monitor (Oracle.ok 7) "list_hunts".toList none
          (HubV2.send_command_to_monitor (Oracle.ok 7) "list_treasures".toList
            (some "pirates42".toList) (Hub.init ⟨none, none⟩)).1).1.chan
      = some ("list_hunts".toList, "pirates42".toList) := by
  decide

/-- C2 (amended): when `send_command_to_monitor` is called successfully with
`(name1, params1)` and then with `(name2, params2)` before the Monitor reads, the
command read is `name2`; the params read are `params2` when the second message
carries params; when it carries none the params file is not rewritten and the params
read are those of the first message, or, if that carried none either, what the params
file held before. -/
theorem last_writer_wins (o1 o2 : Oracle) (s : Hub) (name1 name2 : List Char)
    (params1 params2 : Option (List Char))
    (hc1 : o1.cmd_open = true) (hp1 : o1.param_open = true)
    (hc2 : o2.cmd_open = true) (hp2 : o2.param_open = true)
    (hname : Sendable name2) (hparams1 : Sendable (params1.getD []))
    (hparams2 : Sendable (params2.getD [])) :
    Monitor.read_channel
        (HubV2.send_command_to_monitor o2 name2 params2
          (HubV2.send_command_to_monitor o1 name1 params1 s).1).1.chan =
      some (name2,
        match params2 with
        | some p2 => p2
        | none =>
          match params1 with
          | some p1 => p1
          | none => params_seen s.chan.param_file) := by
  rw [read_after_send o2 _ name2 params2 hc2 hp2 hname hparams2,
    send_chan o1 name1 params1 s hc1 hp1]
  cases params2 with
  | some p2 => rfl
  | none =>
    cases params1 with
    | none => rfl
    | some p1 =>
      simp [params_seen, read_field_of_sendable p1 (by simpa using hparams1)]

/-- Witness for C2: `list_treasures h2` sent after `view_treasure h1 3` is the only
message read. -/
theorem last_writer_wins_witness :
    Monitor.read_channel
        (HubV2.send_command_to_monitor (Oracle.ok 7) "list_treasures".toList
          (some "h2".toList)
          (HubV2.send_command_to_monitor (Oracle.ok 7) "view_treasure".toList
            (some "h1 3".toList) (Hub.init ⟨none, none⟩)).1).1.chan
      = some ("list_treasures".toList, "h2".toList) :=
  last_writer_wins (Oracle.ok 7) (Oracle.ok 7) (Hub.init ⟨none, none⟩)
    "view_treasure".toList "list_treasures".toList (some "h1 3".toList) (some "h2".toList)
    rfl rfl rfl rfl (by decide) (by decide) (by decide)

/-! ### Dispatch in the Monitor -/

theorem fgets_bytes_length (k : Nat) (t : List Char) : (fgets_bytes k t).length ≤ k := by
  induction t generalizing k with
  | nil => cases k <;> simp [fgets_bytes]
  | cons c cs ih =>
    cases k with
    | zero => simp [fgets_bytes]
    | succ k =>
      simp only [fgets_bytes]
      split
      · simp
      · simpa using ih k

theorem read_field_length (content : List Char) :
    (Monitor.read_field content).length < MAX_CMD_LEN := by
  unfold Monitor.read_field fgets
  split
  · rename_i bytes h
    split at h
    · cases h
    · cases h
      have h1 := fgets_bytes_length (MAX_CMD_LEN - 1) content
      have h2 : (cstr (fgets_bytes (MAX_CMD_LEN - 1) content)).length
          ≤ (fgets_bytes (MAX_CMD_LEN - 1) content).length :=
        (List.takeWhile_sublist _).length_le
      have h3 : (trim_newline (cstr (fgets_bytes (MAX_CMD_LEN - 1) content))).length
          ≤ (cstr (fgets_bytes (MAX_CMD_LEN - 1) content)).length := by
        unfold trim_newline
        split
        · simp
        · exact le_refl _
      unfold MAX_CMD_LEN at *
      omega
  · simp [MAX_CMD_LEN]

theorem read_channel_params_length (ch : Channel) (command params : List Char)
    (h : Monitor.read_channel ch = some (command, params)) :
    params.length < MAX_CMD_LEN := by
  unfold Monitor.read_channel at h
  cases hc : ch.command_file with
  | none => simp [hc] at h
  | some c =>
    simp only [hc, Option.some.injEq, Prod.mk.injEq] at h
    obtain ⟨-, hp⟩ := h
    subst hp
    cases ch.param_file with
    | none => simp [MAX_CMD_LEN]
    | some p => exact read_field_length p

theorem takeWhile_length_add_dropWhile (p : Char → Bool) (l : List Char) :
    (l.takeWhile p).length + (l.dropWhile p).length = l.length := by
  have h := congrArg List.length (List.takeWhile_append_dropWhile p l)
  rw [List.length_append] at h
  exact h

theorem scan_word_length (input : List Char) :
    (scan_word input).1.length + (scan_word input).2.length ≤ input.length := by
  unfold scan_word
  simp only
  have h1 := takeWhile_length_add_dropWhile (fun c => !isspace c) (input.dropWhile isspace)
  have h2 : (input.dropWhile isspace).length ≤ input.length :=
    (List.dropWhile_sublist _).length_le
  omega

theorem scan_word_after_space (rest : List Char) (c : Char) (hc : isspace c = true)
    (cs : List Char) (h : rest = c :: cs) :
    (scan_word rest).1.length + 1 ≤ rest.length := by
  subst h
  have h1 : (scan_word (c :: cs)) = scan_word cs := by
    unfold scan_word
    simp [List.dropWhile_cons, hc]
  rw [h1]
  have := scan_word_length cs
  simp
  omega

theorem sscanf_two_fits (params : List Char) (h : (sscanf_two params).2 ≠ []) :
    ((sscanf_two params).1 ++ SP :: (sscanf_two params).2).length ≤ params.length := by
  unfold sscanf_two at h ⊢
  dsimp only at h ⊢
  split at h
  · simp at h
  · rename_i hne
    simp only [hne, if_false]
    have h0 := scan_word_length params
    -- the text left after the first word is empty or starts with white space
    cases hrest : (scan_word params).2 with
    | nil =>
      rw [hrest] at h
      simp [scan_word] at h
    | cons c cs =>
      have hc : isspace c = true := by
        have : c :: cs = (params.dropWhile isspace).dropWhile (fun c => !isspace c) := by
          rw [← hrest]; rfl
        have hh := List.head_dropWhile_not (fun c => !isspace c)
          (params.dropWhile isspace) (by rw [← this]; simp)
        simp only [← this, List.head_cons] at hh
        simpa using hh
      have h2 := scan_word_after_space (c :: cs) c hc cs rfl
      rw [hrest] at h0
      simp only [List.length_append, List.length_cons] at *
      omega

theorem sscanf_two_fst_length (params : List Char) :
    (sscanf_two params).1.length ≤ params.length := by
  unfold sscanf_two
  simp only
  have := scan_word_length params
  split
  · simp
  · simp only; omega

theorem execute_spawns (o : MOracle) (action : List Char) (params : Option (List Char))
    (m : Monitor) (text : List Char) :
    SpawnsWorker o m
      ((Monitor.execute_treasure_manager o action params m).1,
        Effect.print text :: (Monitor.execute_treasure_manager o action params m).2)
      (Monitor.worker_argv action params) := by
  unfold SpawnsWorker Monitor.execute_treasure_manager
  constructor
  · intro hpos
    have h1 : ¬ o.fork_pid < 0 := by omega
    have h2 : ¬ o.fork_pid = 0 := by omega
    simp only [h1, h2, if_false]
    refine ⟨?_, trivial⟩
    split <;> simp [spawned]
  · intro hz hex
    simp [hz, hex]

/-- C3: for every content of the channel files, with `(command, params)` what
`handle_command` reads from them: `list_hunts` spawns the worker with argv
`[treasure_manager, list]` and no params; `list_treasures` spawns it with
`[treasure_manager, show, params]`; `view_treasure` spawns it with
`[treasure_manager, view, text]`, where `text` is the hunt id, one space and the
treasure id that `sscanf` finds in `params`, formatted into the 256-byte buffer, which
is exactly `<hunt id> <treasure id>` whenever a treasure id is present or `params` is
shorter than 255 bytes; `stop` and every other command spawn no worker, whatever
`fork` would return. -/
theorem monitor_dispatch_table (o : MOracle) (ch : Channel) (m : Monitor)
    (command params : List Char)
    (hread : Monitor.read_channel ch = some (command, params)) :
    (command = "list_hunts".toList →
      SpawnsWorker o m (Monitor.handle_command o ch m)
        ["treasure_manager".toList, "list".toList]) ∧
    (command = "list_treasures".toList →
      SpawnsWorker o m (Monitor.handle_command o ch m)
        ["treasure_manager".toList, "show".toList, params]) ∧
    (command = "view_treasure".toList →
      SpawnsWorker o m (Monitor.handle_command o ch m)
        ["treasure_manager".toList, "view".toList,
          snprintf MAX_CMD_LEN ((sscanf_two params).1 ++ SP :: (sscanf_two params).2)] ∧
      ((sscanf_two params).2 ≠ [] ∨ params.length < 255 →
        snprintf MAX_CMD_LEN ((sscanf_two params).1 ++ SP :: (sscanf_two params).2)
          = (sscanf_two params).1 ++ SP :: (sscanf_two params).2)) ∧
    (command ≠ "list_hunts".toList → command ≠ "list_treasures".toList →
      command ≠ "view_treasure".toList →
      spawned (Monitor.handle_command o ch m).2 = [] ∧
      (Monitor.handle_command o ch m).1.halted = m.halted) := by
  have hlen := read_channel_params_length ch command params hread
  unfold Monitor.handle_command
  rw [hread]
  refine ⟨?_, ?_, ?_, ?_⟩
  · intro hc
    subst hc
    simp only [Monitor.dispatch, if_true, Monitor.list_hunts]
    exact execute_spawns o _ none m _
  · intro hc
    subst hc
    have hne : "list_treasures".toList ≠ "list_hunts".toList := by decide
    simp only [Monitor.dispatch, hne, if_false, if_true, Monitor.list_treasures]
    exact execute_spawns o _ (some params) m _
  · intro hc
    subst hc
    have hne1 : "view_treasure".toList ≠ "list_hunts".toList := by decide
    have hne2 : "view_treasure".toList ≠ "list_treasures".toList := by decide
    refine ⟨?_, ?_⟩
    · simp only [Monitor.dispatch, hne1, hne2, if_false, if_true, Monitor.view_treasure]
      exact execute_spawns o _ _ m _
    · intro h
      unfold snprintf
      apply List.take_of_length_le
      unfold MAX_CMD_LEN at *
      rcases h with h | h
      · have := sscanf_two_fits params h
        omega
      · have := sscanf_two_fst_length params
        by_cases h2 : (sscanf_two params).2 = []
        · simp only [h2, List.length_append, List.length_cons, List.length_nil]
          omega
        · have := sscanf_two_fits params h2
          omega
  · intro h1 h2 h3
    simp only [Monitor.dispatch, h1, h2, h3, if_false]
    split <;> simp [spawned]

/-- Witness for C3: the files holding `list_treasures` and `pirates42` make the
Monitor spawn the worker with argv `[treasure_manager, show, pirates42]`. -/
theorem monitor_dispatch_table_witness :
    spawned (Monitor.handle_command ⟨23, true, WStatus.exited 0⟩
        ⟨some "list_treasures\n".toList, some "pirates42".toList⟩ Monitor.init).2
      = [["treasure_manager".toList, "show".toList, "pirates42".toList]] :=
  (((monitor_dispatch_table ⟨23, true, WStatus.exited 0⟩
      ⟨some "list_treasures\n".toList, some "pirates42".toList⟩ Monitor.init
      "list_treasures".toList "pirates42".toList (by decide)).2.1 rfl).1 (by decide)).1

/-! ### Guards of the Hub -/

theorem refused_frame (s : Hub) (r : Hub × List Effect) (message : List Char)
    (h : Refused s r message) :
    r.1.monitor_pid = s.monitor_pid ∧ r.1.monitor_exiting = s.monitor_exiting ∧
    r.1.child_exited = s.child_exited ∧ r.1.chan = s.chan ∧ r.1.halted = s.halted ∧
    channel_writes r.2 = [] ∧ signals r.2 = [] ∧ spawned r.2 = [] ∧
    Effect.pipe ∉ r.2 := by
  unfold Refused at h
  subst h
  simp [channel_writes, signals, spawned]

/-- C6: in every Hub state with `monitor_pid > 0`, `start_monitor` (of both Hub
variants) is refused with the already-running message: the state, with `monitor_pid`,
`monitor_exiting` and `child_exited`, is unchanged, no pipe is created and no process
is spawned. -/
theorem start_refused_while_running (o : Oracle) (s : Hub) (h : 0 < s.monitor_pid) :
    (Refused s (HubV2.start_monitor o s)
        ("Monitor is already running (PID: ".toList ++ fmt_d s.monitor_pid ++ ")\n".toList)
      ∧ Effect.pipe ∉ (HubV2.start_monitor o s).2
      ∧ spawned (HubV2.start_monitor o s).2 = []
      ∧ (HubV2.start_monitor o s).1.monitor_pid = s.monitor_pid
      ∧ (HubV2.start_monitor o s).1.monitor_exiting = s.monitor_exiting
      ∧ (HubV2.start_monitor o s).1.child_exited = s.child_exited) ∧
    (Refused s (HubV1.start_monitor o s)
        ("Monitor is already running (PID: ".toList ++ fmt_d s.monitor_pid ++ ")\n".toList)
      ∧ spawned (HubV1.start_monitor o s).2 = []
      ∧ (HubV1.start_monitor o s).1.monitor_pid = s.monitor_pid
      ∧ (HubV1.start_monitor o s).1.monitor_exiting = s.monitor_exiting
      ∧ (HubV1.start_monitor o s).1.child_exited = s.child_exited) := by
  have h2 : Refused s (HubV2.start_monitor o s)
      ("Monitor is already running (PID: ".toList ++ fmt_d s.monitor_pid ++ ")\n".toList) := by
    simp [Refused, HubV2.start_monitor, h]
  have h1 : Refused s (HubV1.start_monitor o s)
      ("Monitor is already running (PID: ".toList ++ fmt_d s.monitor_pid ++ ")\n".toList) := by
    simp [Refused, HubV1.start_monitor, h]
  have f2 := refused_frame _ _ _ h2
  have f1 := refused_frame _ _ _ h1
  exact ⟨⟨h2, f2.2.2.2.2.2.2.2.2, f2.2.2.2.2.2.2.2.1, f2.1, f2.2.1, f2.2.2.1⟩,
    ⟨h1, f1.2.2.2.2.2.2.2.1, f1.1, f1.2.1, f1.2.2.1⟩⟩

/-- Witness for C6: a second `start_monitor` while monitor 7 runs. -/
theorem start_refused_while_running_witness :
    Refused ⟨7, 0, 0, 0, ⟨none, none⟩, none⟩
      (HubV2.start_monitor (Oracle.ok 9) ⟨7, 0, 0, 0, ⟨none, none⟩, none⟩)
      "Monitor is already running (PID: 7)\n".toList :=
  (start_refused_while_running (Oracle.ok 9) ⟨7, 0, 0, 0, ⟨none, none⟩, none⟩
    (by decide)).1.1

theorem strtok_rest_length (text token rest : List Char)
    (h : strtok text = some (token, rest)) : rest.length < text.length := by
  unfold strtok at h
  simp only at h
  split at h
  · cases h
  · rename_i hne
    simp only [Option.some.injEq, Prod.mk.injEq] at h
    obtain ⟨-, hr⟩ := h
    subst hr
    have h1 : (text.dropWhile (fun c => c == SP)).length ≤ text.length :=
      (List.dropWhile_sublist _).length_le
    cases hr : text.dropWhile (fun c => c == SP) with
    | nil => exact absurd hr hne
    | cons c cs =>
      have hc : (c == SP) = false := by
        have hh := List.head_dropWhile_not (fun c => c == SP) text (by rw [hr]; simp)
        simp only [hr, List.head_cons] at hh
        simpa using hh
      have h2 : ((c :: cs).dropWhile (fun c => c != SP)).length ≤ cs.length := by
        have : (c != SP) = true := by simp [bne, hc]
        rw [List.dropWhile_cons, if_pos this]
        exact (List.dropWhile_sublist _).length_le
      rw [hr] at h1
      simp only [List.length_drop, List.length_cons] at *
      omega

theorem tokens_fuel_enough (n : Nat) (text : List Char) (h : text.length < n) :
    tokens_fuel n text = tokens text := by
  unfold tokens
  induction n using Nat.strong_induction_on generalizing text with
  | _ n ih =>
    cases n with
    | zero => omega
    | succ n =>
      simp only [tokens_fuel]
      cases hs : strtok text with
      | none => rfl
      | some tr =>
        obtain ⟨token, rest⟩ := tr
        have hlt := strtok_rest_length text token rest hs
        simp only
        rw [ih n (by omega) rest (by omega), ih text.length (by omega) rest hlt]

theorem tokens_of_strtok_none (text : List Char) (h : strtok text = none) :
    tokens text = [] := by
  simp [tokens, tokens_fuel, h]

theorem tokens_of_strtok_some (text token rest : List Char)
    (h : strtok text = some (token, rest)) : tokens text = token :: tokens rest := by
  have hlt := strtok_rest_length text token rest h
  unfold tokens
  simp only [tokens_fuel, h]
  rw [tokens_fuel_enough text.length rest hlt]
  rfl

theorem strtok_of_tokens_nil (text : List Char) (h : tokens text = []) :
    strtok text = none := by
  cases hs : strtok text with
  | none => rfl
  | some tr =>
    obtain ⟨token, rest⟩ := tr
    rw [tokens_of_strtok_some text token rest hs] at h
    cases h

theorem strtok_of_tokens_cons (text token : List Char) (more : List (List Char))
    (h : tokens text = token :: more) :
    ∃ rest, strtok text = some (token, rest) ∧ tokens rest = more := by
  cases hs : strtok text with
  | none => rw [tokens_of_strtok_none text hs] at h; cases h
  | some tr =>
    obtain ⟨token2, rest⟩ := tr
    rw [tokens_of_strtok_some text token2 rest hs] at h
    simp only [List.cons.injEq] at h
    exact ⟨rest, by rw [h.1], h.2⟩

/-- C7: for every Hub state and every input line whose first token is `exit` (in both
Hub variants): with `monitor_pid > 0`, that is Running or Exiting, the line is refused,
the Hub does not terminate, sends nothing and its state is unchanged; with
`monitor_pid <= 0`, that is NotRunning, the Hub terminates with status 0. So the Hub
terminates on `exit` exactly when the state is NotRunning. -/
theorem exit_refused_while_monitor_alive (o : Oracle) (s : Hub) (cmd : List Char)
    (hcmd : first_token cmd = some "exit".toList) :
    (0 < s.monitor_pid →
      Refused s (HubV2.process_command o cmd s)
        "Error: Monitor is still running. Stop it first with 'stop_monitor'\n".toList ∧
      Refused s (HubV1.process_command o cmd s)
        "Error: Monitor is still running. Stop it first with 'stop_monitor'\n".toList) ∧
    (s.monitor_pid ≤ 0 →
      HubV2.process_command o cmd s =
        ({ s with halted := some (Halt.exit 0) },
          [Effect.print "Exiting treasure_hub\n".toList]) ∧
      HubV1.process_command o cmd s =
        ({ s with halted := some (Halt.exit 0) },
          [Effect.print "Exiting treasure_hub\n".toList])) ∧
    (s.halted = none →
      (((HubV2.process_command o cmd s).1.halted ≠ none ↔
          lifecycle s = Lifecycle.NotRunning) ∧
       ((HubV1.process_command o cmd s).1.halted ≠ none ↔
          lifecycle s = Lifecycle.NotRunning))) := by
  unfold first_token at hcmd
  cases hs : strtok (trim_newline cmd) with
  | none => simp [hs] at hcmd
  | some tr =>
    obtain ⟨token, rest⟩ := tr
    simp only [hs, Option.map_some', Option.some.injEq] at hcmd
    subst hcmd
    have e1 : "exit".toList ≠ "start_monitor".toList := by decide
    have e2 : "exit".toList ≠ "list_hunts".toList := by decide
    have e3 : "exit".toList ≠ "list_treasures".toList := by decide
    have e4 : "exit".toList ≠ "view_treasure".toList := by decide
    have e5 : "exit".toList ≠ "calculate_score".toList := by decide
    have e6 : "exit".toList ≠ "stop_monitor".toList := by decide
    have p2 : HubV2.process_command o cmd s =
        if s.monitor_pid > 0 then
          (s, [Effect.print
            "Error: Monitor is still running. Stop it first with 'stop_monitor'\n".toList])
        else
          ({ s with halted := some (Halt.exit 0) },
            [Effect.print "Exiting treasure_hub\n".toList]) := by
      simp only [HubV2.process_command, hs, e1, e2, e3, e4, e5, e6, if_false, if_true]
    have p1 : HubV1.process_command o cmd s =
        if s.monitor_pid > 0 then
          (s, [Effect.print
            "Error: Monitor is still running. Stop it first with 'stop_monitor'\n".toList])
        else
          ({ s with halted := some (Halt.exit 0) },
            [Effect.print "Exiting treasure_hub\n".toList]) := by
      simp only [HubV1.process_command, hs, e1, e2, e3, e4, e6, if_false, if_true]
    rw [p1, p2]
    refine ⟨?_, ?_, ?_⟩
    · intro h
      simp [Refused, h]
    · intro h
      have : ¬ s.monitor_pid > 0 := by omega
      simp [this]
    · intro hh
      unfold lifecycle
      by_cases h : s.monitor_pid > 0
      · have h' : ¬ s.monitor_pid ≤ 0 := by omega
        simp only [h, h', if_true, if_false, hh]
        constructor <;> constructor
        · intro c; exact absurd rfl c
        · intro c; split at c <;> cases c
        · intro c; exact absurd rfl c
        · intro c; split at c <;> cases c
      · have h' : s.monitor_pid ≤ 0 := by omega
        simp [h, h']

/-- Witness for C7: the line `exit` while monitor 7 runs. -/
theorem exit_refused_while_monitor_alive_witness :
    Refused ⟨7, 0, 0, 0, ⟨none, none⟩, none⟩
      (HubV2.process_command (Oracle.ok 9) "exit\n".toList ⟨7, 0, 0, 0, ⟨none, none⟩, none⟩)
      "Error: Monitor is still running. Stop it first with 'stop_monitor'\n".toList :=
  ((exit_refused_while_monitor_alive (Oracle.ok 9) ⟨7, 0, 0, 0, ⟨none, none⟩, none⟩
    "exit\n".toList (by decide)).1 (by decide)).1

/-- C8: for every Hub state and every input line whose tokens are `view_treasure`
alone or with one further token, or `list_treasures` alone, `process_command` (of both
Hub variants) only prints the usage error: the state is unchanged, so the lifecycle
state is, and neither channel file is written nor a signal raised. -/
theorem missing_arguments_rejected (o : Oracle) (s : Hub) (cmd : List Char) :
    ((tokens (trim_newline cmd) = ["view_treasure".toList] ∨
        ∃ hunt_id, tokens (trim_newline cmd) = ["view_treasure".toList, hunt_id]) →
      Refused s (HubV2.process_command o cmd s)
        "Error: Missing hunt ID or treasure ID\n".toList ∧
      Refused s (HubV1.process_command o cmd s)
        "Error: Missing hunt ID or treasure ID\n".toList) ∧
    (tokens (trim_newline cmd) = ["list_treasures".toList] →
      Refused s (HubV2.process_command o cmd s) "Error: Missing hunt ID\n".toList ∧
      Refused s (HubV1.process_command o cmd s) "Error: Missing hunt ID\n".toList) ∧
    ((tokens (trim_newline cmd) = ["view_treasure".toList] ∨
        (∃ hunt_id, tokens (trim_newline cmd) = ["view_treasure".toList, hunt_id]) ∨
        tokens (trim_newline cmd) = ["list_treasures".toList]) →
      channel_writes (HubV2.process_command o cmd s).2 = [] ∧
      signals (HubV2.process_command o cmd s).2 = [] ∧
      lifecycle (HubV2.process_command o cmd s).1 = lifecycle s ∧
      channel_writes (HubV1.process_command o cmd s).2 = [] ∧
      signals (HubV1.process_command o cmd s).2 = [] ∧
      lifecycle (HubV1.process_command o cmd s).1 = lifecycle s) := by
  have v1 : "view_treasure".toList ≠ "start_monitor".toList := by decide
  have v2 : "view_treasure".toList ≠ "list_hunts".toList := by decide
  have v3 : "view_treasure".toList ≠ "list_treasures".toList := by decide
  have l1 : "list_treasures".toList ≠ "start_monitor".toList := by decide
  have l2 : "list_treasures".toList ≠ "list_hunts".toList := by decide
  have hview : (tokens (trim_newline cmd) = ["view_treasure".toList] ∨
        ∃ hunt_id, tokens (trim_newline cmd) = ["view_treasure".toList, hunt_id]) →
      Refused s (HubV2.process_command o cmd s)
        "Error: Missing hunt ID or treasure ID\n".toList ∧
      Refused s (HubV1.process_command o cmd s)
        "Error: Missing hunt ID or treasure ID\n".toList := by
    rintro (h | ⟨hunt_id, h⟩)
    · obtain ⟨rest, hs, hrest⟩ := strtok_of_tokens_cons _ _ _ h
      have hn := strtok_of_tokens_nil rest hrest
      simp [Refused, HubV2.process_command, HubV1.process_command, hs, hn, v1, v2, v3]
    · obtain ⟨rest, hs, hrest⟩ := strtok_of_tokens_cons _ _ _ h
      obtain ⟨rest2, hs2, hrest2⟩ := strtok_of_tokens_cons _ _ _ hrest
      have hn := strtok_of_tokens_nil rest2 hrest2
      simp [Refused, HubV2.process_command, HubV1.process_command, hs, hs2, hn, v1, v2, v3]
  have hlist : tokens (trim_newline cmd) = ["list_treasures".toList] →
      Refused s (HubV2.process_command o cmd s) "Error: Missing hunt ID\n".toList ∧
      Refused s (HubV1.process_command o cmd s) "Error: Missing hunt ID\n".toList := by
    intro h
    obtain ⟨rest, hs, hrest⟩ := strtok_of_tokens_cons _ _ _ h
    have hn := strtok_of_tokens_nil rest hrest
    simp [Refused, HubV2.process_command, HubV1.process_command, hs, hn, l1, l2]
  refine ⟨hview, hlist, ?_⟩
  intro h
  have key : ∃ message, Refused s (HubV2.process_command o cmd s) message ∧
      Refused s (HubV1.process_command o cmd s) message := by
    rcases h with h | h | h
    · exact ⟨_, hview (Or.inl h)⟩
    · exact ⟨_, hview (Or.inr h)⟩
    · exact ⟨_, hlist h⟩
  obtain ⟨message, r2, r1⟩ := key
  have f2 := refused_frame _ _ _ r2
  have f1 := refused_frame _ _ _ r1
  unfold Refused at r1 r2
  refine ⟨f2.2.2.2.2.2.1, f2.2.2.2.2.2.2.1, ?_, f1.2.2.2.2.2.1, f1.2.2.2.2.2.2.1, ?_⟩
  · rw [r2]
  · rw [r1]

/-- Witness for C8: the line `view_treasure onlyhuntid` only prints the usage error. -/
theorem missing_arguments_rejected_witness :
    Refused ⟨7, 0, 0, 0, ⟨none, none⟩, none⟩
      (HubV2.process_command (Oracle.ok 9) "view_treasure onlyhuntid\n".toList
        ⟨7, 0, 0, 0, ⟨none, none⟩, none⟩)
      "Error: Missing hunt ID or treasure ID\n".toList :=
  ((missing_arguments_rejected (Oracle.ok 9) ⟨7, 0, 0, 0, ⟨none, none⟩, none⟩
    "view_treasure onlyhuntid\n".toList).1
    (Or.inr ⟨"onlyhuntid".toList, by decide⟩)).1

/-! ### The exit flag of the Monitor -/

theorem execute_keeps_flag (o : MOracle) (action : List Char) (params : Option (List Char))
    (m : Monitor) :
    (Monitor.execute_treasure_manager o action params m).1.should_exit = m.should_exit ∧
    ((Monitor.execute_treasure_manager o action params m).1.halted = some (Halt.exit 0) →
      m.halted = some (Halt.exit 0)) := by
  unfold Monitor.execute_treasure_manager
  split
  · simp
  · split
    · split <;> simp
    · simp

theorem dispatch_flag (o : MOracle) (command params : List Char) (m : Monitor) :
    (Monitor.dispatch o command params m).1.should_exit =
        (if command = "stop".toList then 1 else m.should_exit) ∧
    ((Monitor.dispatch o command params m).1.halted = some (Halt.exit 0) →
      m.halted = some (Halt.exit 0)) := by
  have s1 : "list_hunts".toList ≠ "stop".toList := by decide
  have s2 : "list_treasures".toList ≠ "stop".toList := by decide
  have s3 : "view_treasure".toList ≠ "stop".toList := by decide
  unfold Monitor.dispatch
  split
  · rename_i h
    subst h
    simp only [s1, if_false, Monitor.list_hunts]
    exact execute_keeps_flag o _ _ m
  · split
    · rename_i h
      subst h
      simp only [s2, if_false, Monitor.list_treasures]
      exact execute_keeps_flag o _ _ m
    · split
      · rename_i h
        subst h
        simp only [s3, if_false, Monitor.view_treasure]
        exact execute_keeps_flag o _ _ m
      · split
        · rename_i h
          simp [h]
        · rename_i h
          simp [h]

theorem handle_command_flag (o : MOracle) (ch : Channel) (m : Monitor) :
    (∀ command params, Monitor.read_channel ch = some (command, params) →
      (Monitor.handle_command o ch m).1.should_exit =
        (if command = "stop".toList then 1 else m.should_exit)) ∧
    (Monitor.read_channel ch = none →
      (Monitor.handle_command o ch m).1.should_exit = m.should_exit) ∧
    ((Monitor.handle_command o ch m).1.halted = some (Halt.exit 0) →
      m.halted = some (Halt.exit 0)) := by
  unfold Monitor.handle_command
  refine ⟨?_, ?_, ?_⟩
  · intro command params h
    rw [h]
    exact (dispatch_flag o command params m).1
  · intro h
    rw [h]
  · cases h : Monitor.read_channel ch with
    | none => simp
    | some cp => exact (dispatch_flag o cp.1 cp.2 m).2

theorem step_leaving (ev : MEvent) (m : Monitor)
    (h : Monitor.Leaving (Monitor.step ev m).1) : Monitor.Leaving m ∨ StopTurn ev := by
  unfold Monitor.step at h
  split at h
  · exact Or.inl h
  · cases ev with
    | sigusr1 => exact Or.inl h
    | turn o ch =>
      simp only [Monitor.main_turn] at h
      by_cases hx : m.should_exit ≠ 0
      · exact Or.inl (Or.inl hx)
      · rw [if_neg hx] at h
        have hx0 : m.should_exit = 0 := by simpa using hx
        by_cases hr : m.received_command ≠ 0
        · rw [if_pos hr] at h
          have hf := handle_command_flag o ch m
          have hl : Monitor.Leaving (Monitor.handle_command o ch m).1 := by
            split at h
            · exact h
            · rcases h with h | h
              · exact Or.inl h
              · exact Or.inr h
          rcases hl with hl | hl
          · cases hread : Monitor.read_channel ch with
            | none => exact absurd (hf.2.1 hread ▸ hx0) hl
            | some cp =>
              obtain ⟨command, params⟩ := cp
              have := hf.1 command params hread
              by_cases hc : command = "stop".toList
              · subst hc
                exact Or.inr ⟨o, ch, params, rfl, hread⟩
              · rw [this, if_neg hc] at hl
                exact absurd hx0 hl
          · exact Or.inl (Or.inr (hf.2.2 hl))
        · rw [if_neg hr] at h
          exact Or.inl h

theorem run_leaving (evs : List MEvent) (m : Monitor)
    (h : Monitor.Leaving (Monitor.run evs m).1) :
    Monitor.Leaving m ∨ ∃ ev ∈ evs, StopTurn ev := by
  induction evs generalizing m with
  | nil => exact Or.inl h
  | cons ev evs ih =>
    simp only [Monitor.run] at h
    rcases ih _ h with h1 | ⟨ev2, hmem, hst⟩
    · rcases step_leaving ev m h1 with h2 | h2
      · exact Or.inl h2
      · exact Or.inr ⟨ev, by simp, h2⟩
    · exact Or.inr ⟨ev2, by simp [hmem], hst⟩

/-- C9: for every content of the channel files, `handle_command` leaves `should_exit`
at 1 when the command it reads is exactly `stop` and leaves it unchanged for every
other command, recognised or not, and when the command file cannot be read; and in
every run of the Monitor from its start, the exit flag is set or `main` has returned
only if some turn of the loop read the command `stop`. -/
theorem stop_only_sets_should_exit :
    (∀ (o : MOracle) (ch : Channel) (m : Monitor) (command params : List Char),
      Monitor.read_channel ch = some (command, params) →
      (Monitor.handle_command o ch m).1.should_exit =
        (if command = "stop".toList then 1 else m.should_exit)) ∧
    (∀ (o : MOracle) (ch : Channel) (m : Monitor), Monitor.read_channel ch = none →
      (Monitor.handle_command o ch m).1.should_exit = m.should_exit) ∧
    (∀ (evs : List MEvent), Monitor.Leaving (Monitor.run evs Monitor.init).1 →
      ∃ ev ∈ evs, StopTurn ev) := by
  refine ⟨fun o ch m => (handle_command_flag o ch m).1,
    fun o ch m => (handle_command_flag o ch m).2.1, ?_⟩
  intro evs h
  rcases run_leaving evs Monitor.init h with h1 | h1
  · rcases h1 with h1 | h1
    · exact absurd rfl h1
    · cases h1
  · exact h1

/-- Witness for C9: an unknown command leaves the flag at 0, `stop` sets it. -/
theorem stop_only_sets_should_exit_witness :
    (Monitor.handle_command ⟨23, true, WStatus.exited 0⟩
        ⟨some "dance".toList, none⟩ Monitor.init).1.should_exit = 0 ∧
    (Monitor.handle_command ⟨23, true, WStatus.exited 0⟩
        ⟨some "stop".toList, none⟩ Monitor.init).1.should_exit = 1 :=
  ⟨stop_only_sets_should_exit.1 ⟨23, true, WStatus.exited 0⟩ ⟨some "dance".toList, none⟩
      Monitor.init "dance".toList [] (by decide),
   stop_only_sets_should_exit.1 ⟨23, true, WStatus.exited 0⟩ ⟨some "stop".toList, none⟩
      Monitor.init "stop".toList [] (by decide)⟩

/-! ### The worker -/

/-- C10 fails on the code: the argument vectors the Monitor dispatches, with the
actions `list`, `show` and `view`, are all answered by `main` of the worker with
`Unknown command` and return value 1, without any operation being run; and so is every
action of the stated contract, since `main` only knows the names that start `--`. -/
theorem worker_rejects_monitor_actions :
    (Manager.main (Monitor.worker_argv "list".toList none)
      = ⟨none, "Unknown command: list\n".toList, 1⟩) ∧
    (∀ params, Manager.main (Monitor.worker_argv "show".toList (some params))
      = ⟨none, "Unknown command: show\n".toList, 1⟩) ∧
    (∀ params, Manager.main (Monitor.worker_argv "view".toList (some params))
      = ⟨none, "Unknown command: view\n".toList, 1⟩) ∧
    (∀ args, Manager.main ("treasure_manager".toList :: "add".toList :: args)
      = ⟨none, "Unknown command: add\n".toList, 1⟩) ∧
    (∀ args, Manager.main ("treasure_manager".toList :: "remove_treasure".toList :: args)
      = ⟨none, "Unknown command: remove_treasure\n".toList, 1⟩) ∧
    (∀ args, Manager.main ("treasure_manager".toList :: "remove_hunt".toList :: args)
      = ⟨none, "Unknown command: remove_hunt\n".toList, 1⟩) := by
  refine ⟨by decide, ?_, ?_, ?_, ?_, ?_⟩ <;> intro x <;>
    simp [Manager.main, Monitor.worker_argv]

/-- The names `main` of the worker does know: each runs its operation and returns 0. -/
theorem worker_accepts_dashed_actions (hunt_id treasure_id : List Char) :
    (Manager.main ["treasure_manager".toList, "--list".toList, hunt_id]).op
      = some (Op.list_treasures hunt_id) ∧
    (Manager.main ["treasure_manager".toList, "--view".toList, hunt_id, treasure_id]).op
      = some (Op.view_treasure hunt_id (atoi treasure_id)) ∧
    (Manager.main ["treasure_manager".toList, "--add".toList, hunt_id]).op
      = some (Op.add_treasure hunt_id) ∧
    (Manager.main ["treasure_manager".toList, "--remove_treasure".toList, hunt_id,
        treasure_id]).op = some (Op.remove_treasure hunt_id (atoi treasure_id)) ∧
    (Manager.main ["treasure_manager".toList, "--remove_hunt".toList, hunt_id]).op
      = some (Op.remove_hunt hunt_id) := by
  simp [Manager.main]

/-! ### The lifecycle of the Monitor in the Hub -/

theorem v2_send_fields (o : Oracle) (command : List Char) (params : Option (List Char))
    (s : Hub) :
    (HubV2.send_command_to_monitor o command params s).1.monitor_pid = s.monitor_pid ∧
    (HubV2.send_command_to_monitor o command params s).1.monitor_exiting
      = s.monitor_exiting ∧
    (HubV2.send_command_to_monitor o command params s).1.child_exited = s.child_exited ∧
    (HubV2.send_command_to_monitor o command params s).1.halted = s.halted := by
  simp [HubV2.send_command_to_monitor]

theorem channel_writes_append (a b : List Effect) :
    channel_writes (a ++ b) = channel_writes a ++ channel_writes b := by
  simp [channel_writes]

theorem signals_append (a b : List Effect) : signals (a ++ b) = signals a ++ signals b := by
  simp [signals]

theorem v2_read_monitor_output_quiet (o : Oracle) :
    channel_writes (HubV2.read_monitor_output o) = [] ∧
    signals (HubV2.read_monitor_output o) = [] := by
  unfold HubV2.read_monitor_output
  constructor
  · simp only [channel_writes, List.filter_cons, List.filter_eq_nil_iff]
    simp
  · simp only [signals, List.filter_cons, List.filter_eq_nil_iff]
    simp

theorem v2_stop_accepted (o : Oracle) (s : Hub) (hp : 0 < s.monitor_pid)
    (he : s.monitor_exiting = 0) :
    (HubV2.stop_monitor o s).1.monitor_pid = s.monitor_pid ∧
    (HubV2.stop_monitor o s).1.monitor_exiting = 1 ∧
    (HubV2.stop_monitor o s).1.child_exited = s.child_exited ∧
    channel_writes (HubV2.stop_monitor o s).2 =
      (if o.cmd_open then [Effect.write_command "stop".toList] else []) ∧
    signals (HubV2.stop_monitor o s).2 = [Effect.kill s.monitor_pid] := by
  have h1 : ¬ s.monitor_pid < 0 := by omega
  have q := v2_read_monitor_output_quiet o
  unfold HubV2.stop_monitor
  simp only [h1, he, if_false, ne_eq, not_true_eq_false]
  refine ⟨?_, ?_, ?_, ?_, ?_⟩
  · simp [HubV2.send_command_to_monitor]
  · simp [HubV2.send_command_to_monitor]
  · simp [HubV2.send_command_to_monitor]
  · simp only [channel_writes_append, q.1, HubV2.send_command_to_monitor]
    cases o.cmd_open <;> simp [channel_writes, hp]
  · simp only [signals_append, q.2, HubV2.send_command_to_monitor]
    cases o.cmd_open <;> simp [signals, hp]

/-- The three globals that the lifecycle claims speak about are unchanged. -/
theorem v2_list_hunts_fields (o : Oracle) (s : Hub) :
    (HubV2.list_hunts o s).1.monitor_pid = s.monitor_pid ∧
    (HubV2.list_hunts o s).1.monitor_exiting = s.monitor_exiting ∧
    (HubV2.list_hunts o s).1.child_exited = s.child_exited := by
  unfold HubV2.list_hunts
  split
  · simp
  · split
    · simp
    · simp [HubV2.send_command_to_monitor]

theorem v2_list_treasures_fields (o : Oracle) (hunt_id : List Char) (s : Hub) :
    (HubV2.list_treasures o hunt_id s).1.monitor_pid = s.monitor_pid ∧
    (HubV2.list_treasures o hunt_id s).1.monitor_exiting = s.monitor_exiting ∧
    (HubV2.list_treasures o hunt_id s).1.child_exited = s.child_exited := by
  unfold HubV2.list_treasures
  split
  · simp
  · split
    · simp
    · simp [HubV2.send_command_to_monitor]

theorem v2_view_treasure_fields (o : Oracle) (hunt_id treasure_id : List Char) (s : Hub) :
    (HubV2.view_treasure o hunt_id treasure_id s).1.monitor_pid = s.monitor_pid ∧
    (HubV2.view_treasure o hunt_id treasure_id s).1.monitor_exiting = s.monitor_exiting ∧
    (HubV2.view_treasure o hunt_id treasure_id s).1.child_exited = s.child_exited := by
  unfold HubV2.view_treasure
  split
  · simp
  · split
    · simp
    · simp [HubV2.send_command_to_monitor]

theorem v2_launch_fields (r : ScoreRun) (hunt_id : List Char) (s : Hub) :
    (HubV2.launch_score_calculator r hunt_id s).1.monitor_pid = s.monitor_pid ∧
    (HubV2.launch_score_calculator r hunt_id s).1.monitor_exiting = s.monitor_exiting ∧
    (HubV2.launch_score_calculator r hunt_id s).1.child_exited = s.child_exited := by
  unfold HubV2.launch_score_calculator
  split
  · simp
  · split
    · simp
    · split
      · split
        · simp
        · split <;> simp
      · simp

theorem v2_score_loop_fields (rs : List ScoreRun) (s : Hub) :
    (HubV2.score_loop rs s).1.monitor_pid = s.monitor_pid ∧
    (HubV2.score_loop rs s).1.monitor_exiting = s.monitor_exiting ∧
    (HubV2.score_loop rs s).1.child_exited = s.child_exited := by
  induction rs generalizing s with
  | nil => simp [HubV2.score_loop]
  | cons r rs ih =>
    unfold HubV2.score_loop
    split
    · exact ih s
    · have h1 := v2_launch_fields r r.d_name s
      have h2 := ih (HubV2.launch_score_calculator r r.d_name s).1
      simp only
      split
      · exact h1
      · exact ⟨h2.1.trans h1.1, h2.2.1.trans h1.2.1, h2.2.2.trans h1.2.2⟩

theorem v2_calculate_score_fields (o : Oracle) (s : Hub) :
    (HubV2.calculate_score o s).1.monitor_pid = s.monitor_pid ∧
    (HubV2.calculate_score o s).1.monitor_exiting = s.monitor_exiting ∧
    (HubV2.calculate_score o s).1.child_exited = s.child_exited := by
  unfold HubV2.calculate_score
  split
  · simp
  · rename_i entries _
    have h := v2_score_loop_fields entries s
    simp only
    split <;> exact h

/-- What `start_monitor` does to the three globals: nothing, or, when it is accepted
and `fork` succeeds, it records the new pid and has forked the monitor. -/
theorem v2_start_cases (o : Oracle) (s : Hub) :
    ((HubV2.start_monitor o s).1.monitor_pid = s.monitor_pid ∨
      (s.monitor_pid ≤ 0 ∧ 0 < o.fork_pid ∧
        (HubV2.start_monitor o s).1.monitor_pid = o.fork_pid ∧
        spawned (HubV2.start_monitor o s).2
          = [["treasure_monitor".toList, fmt_d o.pipe_wr]])) ∧
    (HubV2.start_monitor o s).1.monitor_exiting = s.monitor_exiting ∧
    (HubV2.start_monitor o s).1.child_exited = s.child_exited := by
  unfold HubV2.start_monitor
  split
  · simp
  · rename_i hp
    split
    · simp
    · split
      · simp
      · rename_i hf
        split
        · split
          · simp
          · split <;> simp
        · rename_i hz
          refine ⟨Or.inr ⟨by omega, by omega, rfl, by simp [spawned]⟩, rfl, rfl⟩

/-- What `stop_monitor` does to the three globals. -/
theorem v2_stop_cases (o : Oracle) (s : Hub) :
    (Refused s (HubV2.stop_monitor o s) "Error: Monitor is not running\n".toList ∧
      s.monitor_pid < 0) ∨
    (Refused s (HubV2.stop_monitor o s)
        "Error: Monitor is already in the process of exiting\n".toList ∧
      s.monitor_exiting ≠ 0) ∨
    (0 ≤ s.monitor_pid ∧ s.monitor_exiting = 0 ∧
      (HubV2.stop_monitor o s).1.monitor_pid = s.monitor_pid ∧
      (HubV2.stop_monitor o s).1.monitor_exiting = 1 ∧
      (HubV2.stop_monitor o s).1.child_exited = s.child_exited) := by
  by_cases h1 : s.monitor_pid < 0
  · left
    simp [Refused, HubV2.stop_monitor, h1]
  · by_cases h2 : s.monitor_exiting ≠ 0
    · right; left
      refine ⟨?_, h2⟩
      unfold Refused HubV2.stop_monitor
      rw [if_neg h1, if_pos h2]
    · right; right
      have h2' : s.monitor_exiting = 0 := by simpa using h2
      refine ⟨by omega, h2', ?_, ?_, ?_⟩ <;>
        simp [HubV2.stop_monitor, h1, h2', HubV2.send_command_to_monitor]

/-- What one input line does to the three globals: nothing, an accepted
`start_monitor`, or an accepted `stop_monitor`. -/
theorem v2_process_command_cases (o : Oracle) (cmd : List Char) (s : Hub) :
    (HubV2.process_command o cmd s).1.child_exited = s.child_exited ∧
    (((HubV2.process_command o cmd s).1.monitor_pid = s.monitor_pid ∧
        (HubV2.process_command o cmd s).1.monitor_exiting = s.monitor_exiting) ∨
      (first_token cmd = some "start_monitor".toList ∧ s.monitor_pid ≤ 0 ∧
        0 < o.fork_pid ∧
        (HubV2.process_command o cmd s).1.monitor_pid = o.fork_pid ∧
        (HubV2.process_command o cmd s).1.monitor_exiting = s.monitor_exiting ∧
        spawned (HubV2.process_command o cmd s).2
          = [["treasure_monitor".toList, fmt_d o.pipe_wr]]) ∨
      (first_token cmd = some "stop_monitor".toList ∧ 0 ≤ s.monitor_pid ∧
        s.monitor_exiting = 0 ∧
        HubV2.process_command o cmd s = HubV2.stop_monitor o s ∧
        (HubV2.process_command o cmd s).1.monitor_pid = s.monitor_pid ∧
        (HubV2.process_command o cmd s).1.monitor_exiting = 1)) := by
  unfold first_token HubV2.process_command
  cases hs : strtok (trim_newline cmd) with
  | none => simp
  | some tr =>
    obtain ⟨token, rest⟩ := tr
    simp only [Option.map_some']
    split
    · rename_i ht
      subst ht
      have h := v2_start_cases o s
      refine ⟨h.2.2, ?_⟩
      rcases h.1 with h1 | h1
      · exact Or.inl ⟨h1, h.2.1⟩
      · exact Or.inr (Or.inl ⟨rfl, h1.1, h1.2.1, h1.2.2.1, h.2.1, h1.2.2.2⟩)
    · split
      · have h := v2_list_hunts_fields o s
        exact ⟨h.2.2, Or.inl ⟨h.1, h.2.1⟩⟩
      · split
        · split
          · exact ⟨(v2_list_treasures_fields o _ s).2.2,
              Or.inl ⟨(v2_list_treasures_fields o _ s).1,
                (v2_list_treasures_fields o _ s).2.1⟩⟩
          · simp
        · split
          · split
            · split
              · exact ⟨(v2_view_treasure_fields o _ _ s).2.2,
                  Or.inl ⟨(v2_view_treasure_fields o _ _ s).1,
                    (v2_view_treasure_fields o _ _ s).2.1⟩⟩
              · simp
            · simp
          · split
            · have h := v2_calculate_score_fields o s
              exact ⟨h.2.2, Or.inl ⟨h.1, h.2.1⟩⟩
            · split
              · rename_i ht
                subst ht
                rcases v2_stop_cases o s with h | h | h
                · have := h.1
                  unfold Refused at this
                  rw [this]
                  simp
                · have := h.1
                  unfold Refused at this
                  rw [this]
                  simp
                · exact ⟨h.2.2.2.2, Or.inr (Or.inr ⟨rfl, h.1, h.2.1, rfl, h.2.2.1, h.2.2.2.1⟩)⟩
              · split
                · split <;> simp
                · simp

/-- What the signal handler does to the three globals: nothing, or, when the monitor
is among the reaped children, it records the exit and forgets the pid. -/
theorem v2_handle_sigchld_cases (reaped : List (Int × WStatus)) (s : Hub)
    (hp : s.monitor_pid ≠ 0) :
    (HubV2.handle_sigchld reaped s).1.monitor_exiting = s.monitor_exiting ∧
    (((HubV2.handle_sigchld reaped s).1.monitor_pid = s.monitor_pid ∧
        (HubV2.handle_sigchld reaped s).1.child_exited = s.child_exited) ∨
      (0 < s.monitor_pid ∧ (∃ status, (s.monitor_pid, status) ∈ reaped) ∧
        (HubV2.handle_sigchld reaped s).1.monitor_pid = -1 ∧
        (HubV2.handle_sigchld reaped s).1.child_exited = 1)) := by
  induction reaped generalizing s with
  | nil => simp [HubV2.handle_sigchld]
  | cons ps more ih =>
    obtain ⟨pid, status⟩ := ps
    unfold HubV2.handle_sigchld
    split
    · rename_i hpos
      by_cases hm : pid = s.monitor_pid
      · -- the monitor is reaped: afterwards no positive pid matches -1
        have hr : HubV2.reap_one pid status s =
            ({ s with child_exited := 1,
                      exit_status :=
                        if WIFEXITED status then WEXITSTATUS status
                        else if WIFSIGNALED status then 128 + WTERMSIG status
                        else s.exit_status,
                      monitor_pid := -1 }, [Effect.close 0]) := by
          simp [HubV2.reap_one, hm]
        have h := ih (HubV2.reap_one pid status s).1 (by rw [hr]; simp)
        simp only
        refine ⟨by rw [h.1, hr], Or.inr ⟨by omega, ⟨status, by simp [hm]⟩, ?_, ?_⟩⟩
        · rcases h.2 with h2 | h2
          · rw [h2.1, hr]
          · exact h2.2.2.1
        · rcases h.2 with h2 | h2
          · rw [h2.2, hr]
          · exact h2.2.2.2
      · have hr : HubV2.reap_one pid status s = (s, []) := by
          simp [HubV2.reap_one, hm]
        have h := ih s hp
        simp only [hr]
        refine ⟨h.1, ?_⟩
        rcases h.2 with h2 | h2
        · exact Or.inl h2
        · obtain ⟨h2a, ⟨st, hst⟩, h2b, h2c⟩ := h2
          exact Or.inr ⟨h2a, ⟨st, by simp [hst]⟩, h2b, h2c⟩
    · simp

theorem v2_step_inv (ev : Event) (s : Hub) (h : s.Inv) : (HubV2.step ev s).1.Inv := by
  unfold HubV2.step
  split
  · exact h
  · obtain ⟨hp, hf⟩ := h
    cases ev with
    | check =>
      simp only [HubV2.loop_top]
      split
      · exact ⟨hp, fun _ _ => rfl⟩
      · exact ⟨hp, hf⟩
    | input o i =>
      cases i with
      | line cmd =>
        simp only
        have h := v2_process_command_cases o cmd s
        rcases h.2 with h2 | h2 | h2
        · refine ⟨by rw [h2.1]; exact hp, ?_⟩
          rw [h.1, h2.1, h2.2]
          exact hf
        · refine ⟨by rw [h2.2.2.2.1]; omega, ?_⟩
          intro _ hle
          rw [h2.2.2.2.1] at hle
          omega
        · have hpos : 0 < s.monitor_pid := by omega
          refine ⟨by rw [h2.2.2.2.2.1]; exact hp, ?_⟩
          intro _ hle
          rw [h2.2.2.2.2.1] at hle
          omega
      | eof => exact ⟨hp, hf⟩
      | error => exact ⟨hp, hf⟩
    | sigchld reaped =>
      simp only
      have h := v2_handle_sigchld_cases reaped s hp
      rcases h.2 with h2 | h2
      · refine ⟨by rw [h2.1]; exact hp, ?_⟩
        rw [h2.1, h2.2, h.1]
        exact hf
      · refine ⟨by rw [h2.2.2.1]; decide, ?_⟩
        intro hc
        rw [h2.2.2.2] at hc
        exact absurd hc (by decide)

theorem v2_run_inv (evs : List Event) (s : Hub) (h : s.Inv) : (HubV2.run evs s).1.Inv := by
  induction evs generalizing s with
  | nil => exact h
  | cons ev evs ih =>
    simp only [HubV2.run]
    exact ih _ (v2_step_inv ev s h)

theorem init_inv (chan : Channel) : (Hub.init chan).Inv := by
  unfold Hub.Inv Hub.init
  simp

theorem lifecycle_eq_of_fields (s t : Hub) (hp : t.monitor_pid = s.monitor_pid)
    (he : t.monitor_exiting = s.monitor_exiting) : lifecycle t = lifecycle s := by
  unfold lifecycle
  rw [hp, he]

/-- One step from a state that satisfies the invariant and has no child-exit
notification pending changes the lifecycle only along the allowed edges. -/
theorem v2_step_edges (ev : Event) (s : Hub) (hinv : s.Inv) (hce : s.child_exited = 0)
    (hchg : lifecycle (HubV2.step ev s).1 ≠ lifecycle s) :
    AllowedChange s ev (HubV2.step ev s) := by
  obtain ⟨hp, hf⟩ := hinv
  have hflag := hf hce
  unfold HubV2.step at hchg ⊢
  split at hchg
  · exact absurd rfl hchg
  · rename_i hh
    rw [if_neg hh]
    cases ev with
    | check =>
      simp only [HubV2.loop_top, hce, ne_eq, not_true_eq_false, if_false] at hchg
    | input o i =>
      cases i with
      | line cmd =>
        simp only at hchg ⊢
        have h := v2_process_command_cases o cmd s
        rcases h.2 with h2 | h2 | h2
        · exact absurd (lifecycle_eq_of_fields _ _ h2.1 h2.2) hchg
        · obtain ⟨htok, hle, hfork, hpid, hex, hsp⟩ := h2
          left
          refine ⟨by simp [lifecycle, hle], ?_, o, cmd, rfl, htok, hfork, hpid, hsp⟩
          have : ¬ o.fork_pid ≤ 0 := by omega
          simp [lifecycle, hpid, hex, hflag hle, this]
        · obtain ⟨htok, hge, he0, hstop, hpid, hex⟩ := h2
          have hpos : 0 < s.monitor_pid := by omega
          have hn : ¬ s.monitor_pid ≤ 0 := by omega
          right; left
          have hacc := v2_stop_accepted o s hpos he0
          refine ⟨by simp [lifecycle, hn, he0], by simp [lifecycle, hpid, hex, hn],
            o, cmd, rfl, htok, hpid, ?_, ?_⟩
          · rw [hstop]; exact hacc.2.2.2.1
          · rw [hstop]; exact hacc.2.2.2.2
      | eof => exact absurd rfl hchg
      | error => exact absurd rfl hchg
    | sigchld reaped =>
      simp only at hchg ⊢
      have h := v2_handle_sigchld_cases reaped s hp
      rcases h.2 with h2 | h2
      · exact absurd (lifecycle_eq_of_fields _ _ h2.1 h.1) hchg
      · obtain ⟨hpos, ⟨status, hmem⟩, hpid, -⟩ := h2
        have hn : ¬ s.monitor_pid ≤ 0 := by omega
        right; right
        refine ⟨?_, by simp [lifecycle, hpid], reaped, status, rfl, hmem⟩
        by_cases he : s.monitor_exiting = 0
        · left; simp [lifecycle, hn, he]
        · right; simp [lifecycle, hn, he]

/-- C4, as stated, fails: started from the initial state, the Hub goes from Running to
NotRunning when monitor 7, never told to stop, exits on its own; the stated machine
has no edge from Running to NotRunning. -/
theorem lifecycle_running_to_not_running :
    lifecycle (HubV2.run
        [Event.check, Event.input (Oracle.ok 7) (Input.line "start_monitor\n".toList),
         Event.check] (Hub.init ⟨none, none⟩)).1 = Lifecycle.Running ∧
    lifecycle (HubV2.run
        [Event.check, Event.input (Oracle.ok 7) (Input.line "start_monitor\n".toList),
         Event.check, Event.sigchld [(7, WStatus.exited 1)]]
        (Hub.init ⟨none, none⟩)).1 = Lifecycle.NotRunning := by
  decide

/-- C4 (amended): in every run of the Hub from its initial state (any sequence of
loop-top checks, input lines and child-exit notifications), a step taken while no
child-exit notification is pending changes the lifecycle state only along these
edges: NotRunning to Running by an accepted `start_monitor`; Running to Exiting by an
accepted `stop_monitor`, which writes exactly the command `stop`, no params, and
signals the monitor; Running or Exiting to NotRunning on the child-exit notification
of the monitor. -/
theorem lifecycle_edges (chan : Channel) (evs : List Event) (ev : Event)
    (hce : (HubV2.run evs (Hub.init chan)).1.child_exited = 0)
    (hchg : lifecycle (HubV2.step ev (HubV2.run evs (Hub.init chan)).1).1
      ≠ lifecycle (HubV2.run evs (Hub.init chan)).1) :
    AllowedChange (HubV2.run evs (Hub.init chan)).1 ev
      (HubV2.step ev (HubV2.run evs (Hub.init chan)).1) :=
  v2_step_edges ev _ (v2_run_inv evs _ (init_inv chan)) hce hchg

/-- Witness for C4: the accepted `stop_monitor` after `start_monitor`. -/
theorem lifecycle_edges_witness :
    AllowedChange
      (HubV2.run [Event.check,
        Event.input (Oracle.ok 7) (Input.line "start_monitor\n".toList), Event.check]
        (Hub.init ⟨none, none⟩)).1
      (Event.input (Oracle.ok 7) (Input.line "stop_monitor\n".toList))
      (HubV2.step (Event.input (Oracle.ok 7) (Input.line "stop_monitor\n".toList))
        (HubV2.run [Event.check,
          Event.input (Oracle.ok 7) (Input.line "start_monitor\n".toList), Event.check]
          (Hub.init ⟨none, none⟩)).1) :=
  lifecycle_edges ⟨none, none⟩
    [Event.check, Event.input (Oracle.ok 7) (Input.line "start_monitor\n".toList),
      Event.check]
    (Event.input (Oracle.ok 7) (Input.line "stop_monitor\n".toList)) (by decide) (by decide)

/-- Between a child-exit notification and the next loop-top check the exiting flag of
the monitor that has gone is still set: a `start_monitor` accepted in that window
leaves the new monitor with the flag set until the check clears it. -/
theorem stale_flag_window :
    lifecycle (HubV2.run
        [Event.check, Event.input (Oracle.ok 7) (Input.line "start_monitor\n".toList),
         Event.check, Event.input (Oracle.ok 7) (Input.line "stop_monitor\n".toList),
         Event.check, Event.sigchld [(7, WStatus.exited 0)],
         Event.input (Oracle.ok 8) (Input.line "start_monitor\n".toList)]
        (Hub.init ⟨none, none⟩)).1 = Lifecycle.Exiting ∧
    lifecycle (HubV2.run
        [Event.check, Event.input (Oracle.ok 7) (Input.line "start_monitor\n".toList),
         Event.check, Event.input (Oracle.ok 7) (Input.line "stop_monitor\n".toList),
         Event.check, Event.sigchld [(7, WStatus.exited 0)],
         Event.input (Oracle.ok 8) (Input.line "start_monitor\n".toList), Event.check]
        (Hub.init ⟨none, none⟩)).1 = Lifecycle.Running := by
  decide

theorem v1_process_command_pid (o : Oracle) (cmd : List Char) (s : Hub) :
    (HubV1.process_command o cmd s).1.monitor_pid = s.monitor_pid ∨
    0 < (HubV1.process_command o cmd s).1.monitor_pid := by
  unfold HubV1.process_command
  cases hs : strtok (trim_newline cmd) with
  | none => simp
  | some tr =>
    obtain ⟨token, rest⟩ := tr
    simp only
    split
    · unfold HubV1.start_monitor
      split
      · simp
      · split
        · simp
        · split
          · split <;> simp
          · right
            simp only
            omega
    · split
      · unfold HubV1.list_hunts
        split
        · simp
        · split <;> simp [HubV1.send_command_to_monitor]
      · split
        · split
          · unfold HubV1.list_treasures
            split
            · simp
            · split <;> simp [HubV1.send_command_to_monitor]
          · simp
        · split
          · split
            · split
              · unfold HubV1.view_treasure
                split
                · simp
                · split <;> simp [HubV1.send_command_to_monitor]
              · simp
            · simp
          · split
            · unfold HubV1.stop_monitor
              split
              · simp
              · split <;> simp [HubV1.send_command_to_monitor]
            · split
              · split <;> simp
              · simp

theorem v1_handle_sigchld_pid (reaped : List (Int × WStatus)) (s : Hub) :
    (HubV1.handle_sigchld reaped s).1.monitor_pid = s.monitor_pid ∨
    (HubV1.handle_sigchld reaped s).1.monitor_pid = -1 := by
  induction reaped generalizing s with
  | nil => simp [HubV1.handle_sigchld]
  | cons ps more ih =>
    obtain ⟨pid, status⟩ := ps
    unfold HubV1.handle_sigchld
    split
    · simp only
      have h := ih (HubV1.reap_one pid status s).1
      have hr : (HubV1.reap_one pid status s).1.monitor_pid = s.monitor_pid ∨
          (HubV1.reap_one pid status s).1.monitor_pid = -1 := by
        unfold HubV1.reap_one
        split <;> simp
      rcases h with h | h
      · rw [h]; exact hr
      · exact Or.inr h
    · simp

theorem v1_step_pid (ev : Event) (s : Hub) (h : s.monitor_pid ≠ 0) :
    (HubV1.step ev s).1.monitor_pid ≠ 0 := by
  unfold HubV1.step
  split
  · exact h
  · cases ev with
    | check =>
      simp only [HubV1.loop_top]
      split <;> exact h
    | input o i =>
      cases i with
      | line cmd =>
        simp only
        rcases v1_process_command_pid o cmd s with h1 | h1
        · rw [h1]; exact h
        · omega
      | eof => exact h
      | error => exact h
    | sigchld reaped =>
      simp only
      rcases v1_handle_sigchld_pid reaped s with h1 | h1
      · rw [h1]; exact h
      · rw [h1]; decide

theorem v1_run_pid (evs : List Event) (s : Hub) (h : s.monitor_pid ≠ 0) :
    (HubV1.run evs s).1.monitor_pid ≠ 0 := by
  induction evs generalizing s with
  | nil => exact h
  | cons ev evs ih =>
    simp only [HubV1.run]
    exact ih _ (v1_step_pid ev s h)

theorem v2_commands_refused (s : Hub) (hp : s.monitor_pid ≠ 0) :
    CommandsRefused HubV2.stop_monitor HubV2.list_hunts HubV2.list_treasures
      HubV2.view_treasure s := by
  intro o hunt_id treasure_id
  unfold lifecycle
  constructor
  · intro h
    have hneg : s.monitor_pid < 0 := by
      by_cases hle : s.monitor_pid ≤ 0
      · omega
      · simp only [hle, if_false] at h
        split at h <;> cases h
    simp [Refused, HubV2.stop_monitor, HubV2.list_hunts, HubV2.list_treasures,
      HubV2.view_treasure, hneg]
  · intro h
    by_cases hle : s.monitor_pid ≤ 0
    · simp [hle] at h
    · simp only [hle, if_false] at h
      have hex : s.monitor_exiting ≠ 0 := by
        intro h0
        simp [h0] at h
      have hneg : ¬ s.monitor_pid < 0 := by omega
      simp [Refused, HubV2.stop_monitor, HubV2.list_hunts, HubV2.list_treasures,
        HubV2.view_treasure, hneg, hex]

theorem v1_commands_refused (s : Hub) (hp : s.monitor_pid ≠ 0) :
    CommandsRefused HubV1.stop_monitor HubV1.list_hunts HubV1.list_treasures
      HubV1.view_treasure s := by
  intro o hunt_id treasure_id
  unfold lifecycle
  constructor
  · intro h
    have hneg : s.monitor_pid < 0 := by
      by_cases hle : s.monitor_pid ≤ 0
      · omega
      · simp only [hle, if_false] at h
        split at h <;> cases h
    simp [Refused, HubV1.stop_monitor, HubV1.list_hunts, HubV1.list_treasures,
      HubV1.view_treasure, hneg]
  · intro h
    by_cases hle : s.monitor_pid ≤ 0
    · simp [hle] at h
    · simp only [hle, if_false] at h
      have hex : s.monitor_exiting ≠ 0 := by
        intro h0
        simp [h0] at h
      have hneg : ¬ s.monitor_pid < 0 := by omega
      simp [Refused, HubV1.stop_monitor, HubV1.list_hunts, HubV1.list_treasures,
        HubV1.view_treasure, hneg, hex]

theorem v2_line_start (o : Oracle) (s : Hub) :
    HubV2.process_command o "start_monitor\n".toList s = HubV2.start_monitor o s := by
  have h : strtok (trim_newline "start_monitor\n".toList)
      = some ("start_monitor".toList, []) := by decide
  simp only [HubV2.process_command, h, if_true]

theorem v2_line_stop (o : Oracle) (s : Hub) :
    HubV2.process_command o "stop_monitor\n".toList s = HubV2.stop_monitor o s := by
  have h : strtok (trim_newline "stop_monitor\n".toList)
      = some ("stop_monitor".toList, []) := by decide
  have e1 : "stop_monitor".toList ≠ "start_monitor".toList := by decide
  have e2 : "stop_monitor".toList ≠ "list_hunts".toList := by decide
  have e3 : "stop_monitor".toList ≠ "list_treasures".toList := by decide
  have e4 : "stop_monitor".toList ≠ "view_treasure".toList := by decide
  have e5 : "stop_monitor".toList ≠ "calculate_score".toList := by decide
  simp only [HubV2.process_command, h, e1, e2, e3, e4, e5, if_false, if_true]

theorem v1_line_start (o : Oracle) (s : Hub) :
    HubV1.process_command o "start_monitor\n".toList s = HubV1.start_monitor o s := by
  have h : strtok (trim_newline "start_monitor\n".toList)
      = some ("start_monitor".toList, []) := by decide
  simp only [HubV1.process_command, h, if_true]

theorem v1_line_stop (o : Oracle) (s : Hub) :
    HubV1.process_command o "stop_monitor\n".toList s = HubV1.stop_monitor o s := by
  have h : strtok (trim_newline "stop_monitor\n".toList)
      = some ("stop_monitor".toList, []) := by decide
  have e1 : "stop_monitor".toList ≠ "start_monitor".toList := by decide
  have e2 : "stop_monitor".toList ≠ "list_hunts".toList := by decide
  have e3 : "stop_monitor".toList ≠ "list_treasures".toList := by decide
  have e4 : "stop_monitor".toList ≠ "view_treasure".toList := by decide
  simp only [HubV1.process_command, h, e1, e2, e3, e4, if_false, if_true]

theorem v2_stop_halted (o : Oracle) (s : Hub) :
    (HubV2.stop_monitor o s).1.halted = s.halted := by
  unfold HubV2.stop_monitor
  split
  · rfl
  · split <;> simp [HubV2.send_command_to_monitor]

theorem v1_stop_fields (o : Oracle) (s : Hub) (hp : 0 < s.monitor_pid)
    (he : s.monitor_exiting = 0) :
    (HubV1.stop_monitor o s).1.monitor_pid = s.monitor_pid ∧
    (HubV1.stop_monitor o s).1.monitor_exiting = 1 ∧
    (HubV1.stop_monitor o s).1.child_exited = s.child_exited ∧
    (HubV1.stop_monitor o s).1.halted = s.halted := by
  have h1 : ¬ s.monitor_pid < 0 := by omega
  simp [HubV1.stop_monitor, h1, he, HubV1.send_command_to_monitor]

/-- The sequence `start_monitor; stop_monitor` from a state without monitor, and then
a further `stop_monitor`, in the Hub with result pipe. -/
theorem v2_start_stop_stop (chan : Channel) (o1 o2 o3 : Oracle) (hpipe : o1.pipe_ok = true)
    (hfork : 0 < o1.fork_pid) :
    Refused
      (HubV2.run [Event.check,
        Event.input o1 (Input.line "start_monitor\n".toList), Event.check,
        Event.input o2 (Input.line "stop_monitor\n".toList), Event.check]
        (Hub.init chan)).1
      (HubV2.step (Event.input o3 (Input.line "stop_monitor\n".toList))
        (HubV2.run [Event.check,
          Event.input o1 (Input.line "start_monitor\n".toList), Event.check,
          Event.input o2 (Input.line "stop_monitor\n".toList), Event.check]
          (Hub.init chan)).1)
      "Error: Monitor is already in the process of exiting\n".toList := by
  have h1 : ¬ o1.fork_pid < 0 := by omega
  have h2 : ¬ o1.fork_pid = 0 := by omega
  have e1 : (HubV2.step Event.check (Hub.init chan)).1 = Hub.init chan := by
    simp [HubV2.step, HubV2.loop_top, Hub.init]
  have e2 : (HubV2.step (Event.input o1 (Input.line "start_monitor\n".toList))
      (Hub.init chan)).1 = { Hub.init chan with monitor_pid := o1.fork_pid } := by
    have : (Hub.init chan).halted.isSome = false := rfl
    simp only [HubV2.step, this, Bool.false_eq_true, if_false, v2_line_start]
    simp [HubV2.start_monitor, Hub.init, hpipe, h1, h2]
  have e3 : (HubV2.step Event.check { Hub.init chan with monitor_pid := o1.fork_pid }).1
      = { Hub.init chan with monitor_pid := o1.fork_pid } := by
    simp [HubV2.step, HubV2.loop_top, Hub.init]
  have hs := v2_stop_accepted o2 { Hub.init chan with monitor_pid := o1.fork_pid }
    hfork rfl
  have hh := v2_stop_halted o2 { Hub.init chan with monitor_pid := o1.fork_pid }
  have e4 : HubV2.step (Event.input o2 (Input.line "stop_monitor\n".toList))
      { Hub.init chan with monitor_pid := o1.fork_pid }
      = HubV2.stop_monitor o2 { Hub.init chan with monitor_pid := o1.fork_pid } := by
    have : ({ Hub.init chan with monitor_pid := o1.fork_pid } : Hub).halted.isSome
        = false := rfl
    simp only [HubV2.step, this, Bool.false_eq_true, if_false, v2_line_stop]
  generalize hs4 : (HubV2.stop_monitor o2
    { Hub.init chan with monitor_pid := o1.fork_pid }).1 = s4 at hs hh
  have hn : s4.halted.isSome = false := by rw [hh]; rfl
  have hc : s4.child_exited = 0 := by rw [hs.2.2.1]; rfl
  have e5 : (HubV2.step Event.check s4).1 = s4 := by
    simp [HubV2.step, HubV2.loop_top, hn, hc]
  have hrun : (HubV2.run [Event.check,
      Event.input o1 (Input.line "start_monitor\n".toList), Event.check,
      Event.input o2 (Input.line "stop_monitor\n".toList), Event.check]
      (Hub.init chan)).1 = s4 := by
    simp only [HubV2.run, e1, e2, e3, e4, hs4, e5]
  rw [hrun]
  have hp : ¬ s4.monitor_pid < 0 := by
    rw [hs.1]
    show ¬ o1.fork_pid < 0
    exact h1
  have hx : s4.monitor_exiting ≠ 0 := by rw [hs.2.1]; decide
  simp only [HubV2.step, hn, Bool.false_eq_true, if_false, v2_line_stop]
  unfold Refused HubV2.stop_monitor
  rw [if_neg hp, if_pos hx]

/-- The same sequence in the Hub without result pipe. -/
theorem v1_start_stop_stop (chan : Channel) (o1 o2 o3 : Oracle)
    (hfork : 0 < o1.fork_pid) :
    Refused
      (HubV1.run [Event.check,
        Event.input o1 (Input.line "start_monitor\n".toList), Event.check,
        Event.input o2 (Input.line "stop_monitor\n".toList), Event.check]
        (Hub.init chan)).1
      (HubV1.step (Event.input o3 (Input.line "stop_monitor\n".toList))
        (HubV1.run [Event.check,
          Event.input o1 (Input.line "start_monitor\n".toList), Event.check,
          Event.input o2 (Input.line "stop_monitor\n".toList), Event.check]
          (Hub.init chan)).1)
      "Error: Monitor is already in the process of exiting\n".toList := by
  have h1 : ¬ o1.fork_pid < 0 := by omega
  have h2 : ¬ o1.fork_pid = 0 := by omega
  have e1 : (HubV1.step Event.check (Hub.init chan)).1 = Hub.init chan := by
    simp [HubV1.step, HubV1.loop_top, Hub.init]
  have e2 : (HubV1.step (Event.input o1 (Input.line "start_monitor\n".toList))
      (Hub.init chan)).1 = { Hub.init chan with monitor_pid := o1.fork_pid } := by
    have : (Hub.init chan).halted.isSome = false := rfl
    simp only [HubV1.step, this, Bool.false_eq_true, if_false, v1_line_start]
    simp [HubV1.start_monitor, Hub.init, h1, h2]
  have e3 : (HubV1.step Event.check { Hub.init chan with monitor_pid := o1.fork_pid }).1
      = { Hub.init chan with monitor_pid := o1.fork_pid } := by
    simp [HubV1.step, HubV1.loop_top, Hub.init]
  have hs := v1_stop_fields o2 { Hub.init chan with monitor_pid := o1.fork_pid }
    hfork rfl
  have e4 : HubV1.step (Event.input o2 (Input.line "stop_monitor\n".toList))
      { Hub.init chan with monitor_pid := o1.fork_pid }
      = HubV1.stop_monitor o2 { Hub.init chan with monitor_pid := o1.fork_pid } := by
    have : ({ Hub.init chan with monitor_pid := o1.fork_pid } : Hub).halted.isSome
        = false := rfl
    simp only [HubV1.step, this, Bool.false_eq_true, if_false, v1_line_stop]
  generalize hs4 : (HubV1.stop_monitor o2
    { Hub.init chan with monitor_pid := o1.fork_pid }).1 = s4 at hs
  have hn : s4.halted.isSome = false := by rw [hs.2.2.2]; rfl
  have hc : s4.child_exited = 0 := by rw [hs.2.2.1]; rfl
  have e5 : (HubV1.step Event.check s4).1 = s4 := by
    simp [HubV1.step, HubV1.loop_top, hn, hc]
  have hrun : (HubV1.run [Event.check,
      Event.input o1 (Input.line "start_monitor\n".toList), Event.check,
      Event.input o2 (Input.line "stop_monitor\n".toList), Event.check]
      (Hub.init chan)).1 = s4 := by
    simp only [HubV1.run, e1, e2, e3, e4, hs4, e5]
  rw [hrun]
  have hp : ¬ s4.monitor_pid < 0 := by
    rw [hs.1]
    show ¬ o1.fork_pid < 0
    exact h1
  have hx : s4.monitor_exiting ≠ 0 := by rw [hs.2.1]; decide
  simp only [HubV1.step, hn, Bool.false_eq_true, if_false, v1_line_stop]
  unfold Refused HubV1.stop_monitor
  rw [if_neg hp, if_pos hx]

/-- C5: in every state the Hub (either variant) reaches from its initial state, by any
sequence of loop-top checks, input lines and child-exit notifications, that is
NotRunning or Exiting, each of `stop_monitor`, `list_hunts`, `list_treasures` and
`view_treasure` is refused: the state, with both channel files, `monitor_pid`,
`monitor_exiting` and `child_exited`, is unchanged and the only effect is the error
message, so nothing is written and no signal sent. And in the sequence
`start_monitor; stop_monitor; stop_monitor`, once the monitor is started, the second
`stop_monitor` is refused with the already-exiting message. -/
theorem commands_refused_unless_running (chan : Channel) (evs : List Event) :
    CommandsRefused HubV2.stop_monitor HubV2.list_hunts HubV2.list_treasures
      HubV2.view_treasure (HubV2.run evs (Hub.init chan)).1 ∧
    CommandsRefused HubV1.stop_monitor HubV1.list_hunts HubV1.list_treasures
      HubV1.view_treasure (HubV1.run evs (Hub.init chan)).1 ∧
    (∀ o1 o2 o3 : Oracle, o1.pipe_ok = true → 0 < o1.fork_pid →
      Refused
        (HubV2.run [Event.check,
          Event.input o1 (Input.line "start_monitor\n".toList), Event.check,
          Event.input o2 (Input.line "stop_monitor\n".toList), Event.check]
          (Hub.init chan)).1
        (HubV2.step (Event.input o3 (Input.line "stop_monitor\n".toList))
          (HubV2.run [Event.check,
            Event.input o1 (Input.line "start_monitor\n".toList), Event.check,
            Event.input o2 (Input.line "stop_monitor\n".toList), Event.check]
            (Hub.init chan)).1)
        "Error: Monitor is already in the process of exiting\n".toList) ∧
    (∀ o1 o2 o3 : Oracle, 0 < o1.fork_pid →
      Refused
        (HubV1.run [Event.check,
          Event.input o1 (Input.line "start_monitor\n".toList), Event.check,
          Event.input o2 (Input.line "stop_monitor\n".toList), Event.check]
          (Hub.init chan)).1
        (HubV1.step (Event.input o3 (Input.line "stop_monitor\n".toList))
          (HubV1.run [Event.check,
            Event.input o1 (Input.line "start_monitor\n".toList), Event.check,
            Event.input o2 (Input.line "stop_monitor\n".toList), Event.check]
            (Hub.init chan)).1)
        "Error: Monitor is already in the process of exiting\n".toList) :=
  ⟨v2_commands_refused _ (v2_run_inv evs _ (init_inv chan)).1,
   v1_commands_refused _ (v1_run_pid evs _ (by simp [Hub.init])),
   fun o1 o2 o3 hp hf => v2_start_stop_stop chan o1 o2 o3 hp hf,
   fun o1 o2 o3 hf => v1_start_stop_stop chan o1 o2 o3 hf⟩

/-- Witness for C5: before any monitor is started `list_treasures h1` is refused, and
the second `stop_monitor` of the sequence is. -/
theorem commands_refused_unless_running_witness :
    Refused (Hub.init ⟨none, none⟩)
      (HubV2.list_treasures (Oracle.ok 7) "h1".toList (Hub.init ⟨none, none⟩))
      "Error: Monitor is not running\n".toList ∧
    Refused
      (HubV2.run [Event.check,
        Event.input (Oracle.ok 7) (Input.line "start_monitor\n".toList), Event.check,
        Event.input (Oracle.ok 7) (Input.line "stop_monitor\n".toList), Event.check]
        (Hub.init ⟨none, none⟩)).1
      (HubV2.step (Event.input (Oracle.ok 7) (Input.line "stop_monitor\n".toList))
        (HubV2.run [Event.check,
          Event.input (Oracle.ok 7) (Input.line "start_monitor\n".toList), Event.check,
          Event.input (Oracle.ok 7) (Input.line "stop_monitor\n".toList), Event.check]
          (Hub.init ⟨none, none⟩)).1)
      "Error: Monitor is already in the process of exiting\n".toList :=
  ⟨(((commands_refused_unless_running ⟨none, none⟩ []).1 (Oracle.ok 7) "h1".toList
      "3".toList).1 (by decide)).2.2.1,
   (commands_refused_unless_running ⟨none, none⟩ []).2.2.1 (Oracle.ok 7) (Oracle.ok 7)
      (Oracle.ok 7) rfl (by decide)⟩

/-! ### The Worker Invoker -/

/-- C12, as stated, fails: for a worker killed by signal 9 `execute_treasure_manager`
forks, waits and returns; it reports no status at all, in particular not 137, and the
state of the Monitor is as before. A normal exit with code 0 is not reported either. -/
theorem invoker_ignores_signal :
    Monitor.execute_treasure_manager ⟨23, true, WStatus.signaled 9⟩ "list".toList none
        Monitor.init
      = (Monitor.init,
          [Effect.spawn 23 ["treasure_manager".toList, "list".toList], Effect.wait 23]) ∧
    invoker_report 137 ∉
      (Monitor.execute_treasure_manager ⟨23, true, WStatus.signaled 9⟩ "list".toList none
        Monitor.init).2 ∧
    Monitor.execute_treasure_manager ⟨23, true, WStatus.exited 0⟩ "list".toList none
        Monitor.init
      = (Monitor.init,
          [Effect.spawn 23 ["treasure_manager".toList, "list".toList], Effect.wait 23]) := by
  decide

/-- C12 (amended): `execute_treasure_manager` returns no value. For every wait status
of the worker it has spawned, it leaves the state of the Monitor unchanged and, after
the wait, prints the worker's exit code unchanged when the worker exited normally
with a code other than 0; for exit code 0 and for a termination by signal it prints
nothing. -/
theorem invoker_reports_nonzero_exit (o : MOracle) (action : List Char)
    (params : Option (List Char)) (m : Monitor) (hfork : 0 < o.fork_pid) :
    Monitor.execute_treasure_manager o action params m =
      (m, [Effect.spawn o.fork_pid (Monitor.worker_argv action params),
           Effect.wait o.fork_pid] ++
          (match o.status with
           | WStatus.exited code => if code = 0 then [] else [invoker_report code]
           | WStatus.signaled _ => []
           | WStatus.other => [])) := by
  have h1 : ¬ o.fork_pid < 0 := by omega
  have h2 : ¬ o.fork_pid = 0 := by omega
  unfold Monitor.execute_treasure_manager
  rw [if_neg h1, if_neg h2]
  cases hs : o.status with
  | exited code =>
    by_cases hc : code = 0
    · simp [WIFEXITED, WEXITSTATUS, hc]
    · simp [WIFEXITED, WEXITSTATUS, hc, invoker_report]
  | signaled sig => simp [WIFEXITED]
  | other => simp [WIFEXITED]

/-- Witness for C12: a worker that exits with code 1 is reported with status 1. -/
theorem invoker_reports_nonzero_exit_witness :
    Monitor.execute_treasure_manager ⟨23, true, WStatus.exited 1⟩ "list".toList none
        Monitor.init
      = (Monitor.init,
          [Effect.spawn 23 ["treasure_manager".toList, "list".toList], Effect.wait 23,
           invoker_report 1]) :=
  invoker_reports_nonzero_exit ⟨23, true, WStatus.exited 1⟩ "list".toList none Monitor.init
    (by decide)

/-! ### Failure to create a process -/

/-- C16: in every Hub state without monitor (`monitor_pid <= 0`), when `pipe` or `fork`
fails inside `start_monitor` the state is exactly as before, so `monitor_pid`,
`monitor_exiting` and `child_exited` are unchanged and the state is still NotRunning,
no process is spawned, and a later `start_monitor` whose system calls succeed is
accepted and records the new pid; the same holds for `fork` failing in the Hub without
pipe. And when `fork` fails inside `execute_treasure_manager` the Monitor only reports
it: its state, with `should_exit` and `received_command`, is unchanged. -/
theorem spawn_failure_is_noop :
    (∀ (o : Oracle) (s : Hub), s.monitor_pid ≤ 0 →
      (o.pipe_ok = false ∨ o.fork_pid < 0) →
      (HubV2.start_monitor o s).1 = s ∧
      spawned (HubV2.start_monitor o s).2 = [] ∧
      lifecycle (HubV2.start_monitor o s).1 = Lifecycle.NotRunning ∧
      ∀ o2 : Oracle, o2.pipe_ok = true → 0 < o2.fork_pid →
        (HubV2.start_monitor o2 (HubV2.start_monitor o s).1).1
          = { s with monitor_pid := o2.fork_pid }) ∧
    (∀ (o : Oracle) (s : Hub), s.monitor_pid ≤ 0 → o.fork_pid < 0 →
      HubV1.start_monitor o s = (s, [Effect.perror "Fork failed".toList]) ∧
      ∀ o2 : Oracle, 0 < o2.fork_pid →
        (HubV1.start_monitor o2 (HubV1.start_monitor o s).1).1
          = { s with monitor_pid := o2.fork_pid }) ∧
    (∀ (o : MOracle) (action : List Char) (params : Option (List Char)) (m : Monitor),
      o.fork_pid < 0 →
      Monitor.execute_treasure_manager o action params m
        = (m, [Effect.perror "Fork failed".toList])) := by
  refine ⟨?_, ?_, ?_⟩
  · intro o s hs hfail
    have hp : ¬ s.monitor_pid > 0 := by omega
    have hsame : (HubV2.start_monitor o s).1 = s ∧
        spawned (HubV2.start_monitor o s).2 = [] := by
      unfold HubV2.start_monitor
      rw [if_neg hp]
      by_cases hpipe : o.pipe_ok = true
      · have hf : o.fork_pid < 0 := by
          rcases hfail with h | h
          · rw [hpipe] at h; cases h
          · exact h
        simp [hpipe, hf, spawned]
      · simp [hpipe, spawned]
    refine ⟨hsame.1, hsame.2, ?_, ?_⟩
    · rw [hsame.1]
      simp [lifecycle, hs]
    · intro o2 hpipe2 hfork2
      rw [hsame.1]
      have h1 : ¬ o2.fork_pid < 0 := by omega
      have h2 : ¬ o2.fork_pid = 0 := by omega
      simp [HubV2.start_monitor, hp, hpipe2, h1, h2]
  · intro o s hs hf
    have hp : ¬ s.monitor_pid > 0 := by omega
    have hsame : HubV1.start_monitor o s = (s, [Effect.perror "Fork failed".toList]) := by
      simp [HubV1.start_monitor, hp, hf]
    refine ⟨hsame, ?_⟩
    intro o2 hfork2
    rw [hsame]
    have h1 : ¬ o2.fork_pid < 0 := by omega
    have h2 : ¬ o2.fork_pid = 0 := by omega
    simp [HubV1.start_monitor, hp, h1, h2]
  · intro o action params m hf
    simp [Monitor.execute_treasure_manager, hf]

/-- Witness for C16: `fork` fails for the first `start_monitor`, the second one starts
monitor 7. -/
theorem spawn_failure_is_noop_witness :
    (HubV2.start_monitor (Oracle.ok (-1)) (Hub.init ⟨none, none⟩)).1 = Hub.init ⟨none, none⟩ ∧
    (HubV2.start_monitor (Oracle.ok 7)
        (HubV2.start_monitor (Oracle.ok (-1)) (Hub.init ⟨none, none⟩)).1).1
      = { Hub.init ⟨none, none⟩ with monitor_pid := 7 } :=
  ⟨(spawn_failure_is_noop.1 (Oracle.ok (-1)) (Hub.init ⟨none, none⟩) (by decide)
      (Or.inr (by decide))).1,
   (spawn_failure_is_noop.1 (Oracle.ok (-1)) (Hub.init ⟨none, none⟩) (by decide)
      (Or.inr (by decide))).2.2.2 (Oracle.ok 7) rfl (by decide)⟩

/-! ### The child-exit handler of the Hub -/

theorem reap_one_status (pid : Int) (status : WStatus) (s : Hub) (h : pid = s.monitor_pid) :
    HubV2.reap_one pid status s =
      ({ s with child_exited := 1, exit_status := recorded_status status s.exit_status,
                monitor_pid := -1 }, [Effect.close 0]) ∧
    HubV1.reap_one pid status s =
      ({ s with child_exited := 1, exit_status := recorded_status status s.exit_status,
                monitor_pid := -1 }, []) := by
  cases status <;>
    simp [HubV2.reap_one, HubV1.reap_one, h, recorded_status, WIFEXITED, WEXITSTATUS,
      WIFSIGNALED, WTERMSIG]

theorem reap_one_other (pid : Int) (status : WStatus) (s : Hub) (h : pid ≠ s.monitor_pid) :
    HubV2.reap_one pid status s = (s, []) ∧ HubV1.reap_one pid status s = (s, []) := by
  simp [HubV2.reap_one, HubV1.reap_one, h]

/-- The handler changes nothing when no reaped child is the monitor. -/
theorem handle_sigchld_others (reaped : List (Int × WStatus)) (s : Hub)
    (h : ∀ p ∈ reaped, p.1 ≠ s.monitor_pid) :
    HubV2.handle_sigchld reaped s = (s, []) ∧ HubV1.handle_sigchld reaped s = (s, []) := by
  induction reaped with
  | nil => simp [HubV2.handle_sigchld, HubV1.handle_sigchld]
  | cons ps more ih =>
    obtain ⟨pid, status⟩ := ps
    have hne : pid ≠ s.monitor_pid := h (pid, status) (by simp)
    have ih2 := ih (fun p hp => h p (by simp [hp]))
    have hr := reap_one_other pid status s hne
    unfold HubV2.handle_sigchld HubV1.handle_sigchld
    split
    · simp only [hr.1, hr.2, ih2.1, ih2.2, List.append_nil, and_self]
    · simp

/-- Without a monitor (`monitor_pid <= 0`) the handler changes nothing: the loop only
sees positive pids. -/
theorem handle_sigchld_no_monitor (reaped : List (Int × WStatus)) (s : Hub)
    (h : s.monitor_pid ≤ 0) :
    HubV2.handle_sigchld reaped s = (s, []) ∧ HubV1.handle_sigchld reaped s = (s, []) := by
  induction reaped with
  | nil => simp [HubV2.handle_sigchld, HubV1.handle_sigchld]
  | cons ps more ih =>
    obtain ⟨pid, status⟩ := ps
    unfold HubV2.handle_sigchld HubV1.handle_sigchld
    split
    · rename_i hpos
      have hr := reap_one_other pid status s (by omega)
      simp only [hr.1, hr.2, ih.1, ih.2, List.append_nil, and_self]
    · simp

theorem handle_sigchld_monitor_first (pid : Int) (status : WStatus)
    (more : List (Int × WStatus)) (s : Hub) (hpos : 0 < pid) (h : pid = s.monitor_pid) :
    HubV2.handle_sigchld ((pid, status) :: more) s =
      ({ s with child_exited := 1, exit_status := recorded_status status s.exit_status,
                monitor_pid := -1 }, [Effect.close 0]) ∧
    HubV1.handle_sigchld ((pid, status) :: more) s =
      ({ s with child_exited := 1, exit_status := recorded_status status s.exit_status,
                monitor_pid := -1 }, []) := by
  have hr := reap_one_status pid status s h
  have hn := handle_sigchld_no_monitor more
    { s with child_exited := 1, exit_status := recorded_status status s.exit_status,
             monitor_pid := -1 } (by simp)
  unfold HubV2.handle_sigchld HubV1.handle_sigchld
  simp only [gt_iff_lt, hpos, if_true, hr.1, hr.2, hn.1, hn.2, List.append_nil, and_self]

/-- C17: in both Hub variants, for every wait status the handler obtains for the pid
equal to `monitor_pid`, the recorded `exit_status` is the exit code when the monitor
exited normally and 128 plus the signal number when it was killed by a signal; and a
reaped child whose pid differs from `monitor_pid` changes nothing, so none of
`monitor_pid`, `child_exited` and `exit_status`. This holds for the body of the
`waitpid` loop and for the whole handler. -/
theorem reaper_records_status :
    (∀ (status : WStatus) (s : Hub),
      (HubV2.reap_one s.monitor_pid status s).1.exit_status
        = recorded_status status s.exit_status ∧
      (HubV1.reap_one s.monitor_pid status s).1.exit_status
        = recorded_status status s.exit_status) ∧
    (∀ (code sig : Nat) (old : Int),
      recorded_status (WStatus.exited code) old = code ∧
      recorded_status (WStatus.signaled sig) old = 128 + sig) ∧
    (∀ (pid : Int) (status : WStatus) (s : Hub), pid ≠ s.monitor_pid →
      HubV2.reap_one pid status s = (s, []) ∧ HubV1.reap_one pid status s = (s, [])) ∧
    (∀ (status : WStatus) (more : List (Int × WStatus)) (s : Hub), 0 < s.monitor_pid →
      (HubV2.handle_sigchld ((s.monitor_pid, status) :: more) s).1.exit_status
        = recorded_status status s.exit_status ∧
      (HubV1.handle_sigchld ((s.monitor_pid, status) :: more) s).1.exit_status
        = recorded_status status s.exit_status) ∧
    (∀ (reaped : List (Int × WStatus)) (s : Hub), (∀ p ∈ reaped, p.1 ≠ s.monitor_pid) →
      HubV2.handle_sigchld reaped s = (s, []) ∧
      HubV1.handle_sigchld reaped s = (s, [])) := by
  refine ⟨?_, ?_, reap_one_other, ?_, handle_sigchld_others⟩
  · intro status s
    have h := reap_one_status s.monitor_pid status s rfl
    rw [h.1, h.2]
    exact ⟨rfl, rfl⟩
  · intro code sig old
    exact ⟨rfl, rfl⟩
  · intro status more s hpos
    have h := handle_sigchld_monitor_first s.monitor_pid status more s hpos rfl
    rw [h.1, h.2]
    exact ⟨rfl, rfl⟩

/-- Witness for C17: monitor 7 killed by signal 15 is recorded as 143; the exit of
another child, 9, is not recorded. -/
theorem reaper_records_status_witness :
    (HubV2.handle_sigchld [(7, WStatus.signaled 15)]
        ⟨7, 0, 0, 0, ⟨none, none⟩, none⟩).1.exit_status = 143 ∧
    HubV2.handle_sigchld [(9, WStatus.exited 2)] ⟨7, 0, 0, 0, ⟨none, none⟩, none⟩
      = (⟨7, 0, 0, 0, ⟨none, none⟩, none⟩, []) :=
  ⟨(reaper_records_status.2.2.2.1 (WStatus.signaled 15) []
      ⟨7, 0, 0, 0, ⟨none, none⟩, none⟩ (by decide)).1,
   (reaper_records_status.2.2.2.2 [(9, WStatus.exited 2)]
      ⟨7, 0, 0, 0, ⟨none, none⟩, none⟩ (by decide)).1⟩

/-- What the handler does, whole: nothing, or, for the first reaped child that is the
monitor, the record of its exit with `monitor_pid` set to -1. -/
theorem handle_sigchld_whole (reaped : List (Int × WStatus)) (s : Hub) :
    (HubV2.handle_sigchld reaped s = (s, []) ∧ HubV1.handle_sigchld reaped s = (s, [])) ∨
    (0 < s.monitor_pid ∧ ∃ status, (s.monitor_pid, status) ∈ reaped ∧
      HubV2.handle_sigchld reaped s = (s.reaped status, [Effect.close 0]) ∧
      HubV1.handle_sigchld reaped s = (s.reaped status, [])) := by
  induction reaped with
  | nil => left; simp [HubV2.handle_sigchld, HubV1.handle_sigchld]
  | cons ps more ih =>
    obtain ⟨pid, status⟩ := ps
    by_cases hpos : 0 < pid
    · by_cases hm : pid = s.monitor_pid
      · right
        have h := handle_sigchld_monitor_first pid status more s hpos hm
        exact ⟨by omega, status, by simp [hm], h.1, h.2⟩
      · have hr := reap_one_other pid status s hm
        have e2 : HubV2.handle_sigchld ((pid, status) :: more) s
            = HubV2.handle_sigchld more s := by
          rw [HubV2.handle_sigchld]
          simp only [gt_iff_lt, hpos, if_true, hr.1, List.nil_append]
        have e1 : HubV1.handle_sigchld ((pid, status) :: more) s
            = HubV1.handle_sigchld more s := by
          rw [HubV1.handle_sigchld]
          simp only [gt_iff_lt, hpos, if_true, hr.2, List.nil_append]
        rw [e1, e2]
        rcases ih with h | ⟨hp, st, hmem, h2, h1⟩
        · exact Or.inl h
        · exact Or.inr ⟨hp, st, by simp [hmem], h2, h1⟩
    · left
      simp [HubV2.handle_sigchld, HubV1.handle_sigchld, hpos]

/-- C15, as stated, fails: with monitor 7 running, the handler that reaps it makes the
lifecycle state NotRunning at once, before any loop-top check: right after it
`list_hunts` is refused because no monitor is running. -/
theorem handler_changes_lifecycle_at_once :
    lifecycle (HubV2.run [Event.check,
        Event.input (Oracle.ok 7) (Input.line "start_monitor\n".toList), Event.check]
        (Hub.init ⟨none, none⟩)).1 = Lifecycle.Running ∧
    lifecycle (HubV2.handle_sigchld [(7, WStatus.exited 0)]
        (HubV2.run [Event.check,
          Event.input (Oracle.ok 7) (Input.line "start_monitor\n".toList), Event.check]
          (Hub.init ⟨none, none⟩)).1).1 = Lifecycle.NotRunning ∧
    (HubV2.list_hunts (Oracle.ok 7)
        (HubV2.handle_sigchld [(7, WStatus.exited 0)]
          (HubV2.run [Event.check,
            Event.input (Oracle.ok 7) (Input.line "start_monitor\n".toList), Event.check]
            (Hub.init ⟨none, none⟩)).1).1).2
      = [Effect.print "Error: Monitor is not running\n".toList] := by
  decide

/-- The handler reaches the monitor behind any children that are not the monitor: the
exit is recorded and the rest of the list changes nothing more. -/
theorem handle_sigchld_monitor_after (before more : List (Int × WStatus))
    (status : WStatus) (s : Hub) (hpos : 0 < s.monitor_pid)
    (hbefore : ∀ p ∈ before, 0 < p.1 ∧ p.1 ≠ s.monitor_pid) :
    HubV2.handle_sigchld (before ++ (s.monitor_pid, status) :: more) s =
      ({ s with child_exited := 1, exit_status := recorded_status status s.exit_status,
                monitor_pid := -1 }, [Effect.close 0]) ∧
    HubV1.handle_sigchld (before ++ (s.monitor_pid, status) :: more) s =
      ({ s with child_exited := 1, exit_status := recorded_status status s.exit_status,
                monitor_pid := -1 }, []) := by
  induction before with
  | nil => exact handle_sigchld_monitor_first s.monitor_pid status more s hpos rfl
  | cons ps rest ih =>
    obtain ⟨pid, st⟩ := ps
    have hp := hbefore (pid, st) (List.mem_cons_self _ _)
    have hr := reap_one_other pid st s hp.2
    have ih2 := ih (fun p hmem => hbefore p (List.mem_cons_of_mem _ hmem))
    have e2 : HubV2.handle_sigchld ((pid, st) :: (rest ++ (s.monitor_pid, status) :: more)) s
        = HubV2.handle_sigchld (rest ++ (s.monitor_pid, status) :: more) s := by
      rw [HubV2.handle_sigchld]
      simp only [gt_iff_lt, hp.1, if_true, hr.1, List.nil_append]
    have e1 : HubV1.handle_sigchld ((pid, st) :: (rest ++ (s.monitor_pid, status) :: more)) s
        = HubV1.handle_sigchld (rest ++ (s.monitor_pid, status) :: more) s := by
      rw [HubV1.handle_sigchld]
      simp only [gt_iff_lt, hp.1, if_true, hr.2, List.nil_append]
    rw [List.cons_append, e1, e2]
    exact ih2

/-- C15 (amended): in both Hub variants and for every Hub state, when the monitor is
among the children the handler reaps (behind any number of other children), the
handler records the exit status, sets `child_exited` and sets `monitor_pid` to -1
(and, with the result pipe, closes its read end) and prints nothing, so the lifecycle
state seen by commands, Running or Exiting before, is NotRunning at once;
`monitor_exiting` and everything else stay as they are. When no reaped child is the
monitor the handler changes and prints nothing, and in every case it does one or the
other. Deferred to the loop-top check are the print of the recorded status and the
clearing of `child_exited` and `monitor_exiting`: right after such a handler the
check prints the recorded status and clears both flags, and in general it does
exactly that when `child_exited` is set and nothing but the prompt otherwise. -/
theorem handler_records_exit :
    (∀ (before more : List (Int × WStatus)) (status : WStatus) (s : Hub),
      0 < s.monitor_pid → (∀ p ∈ before, 0 < p.1 ∧ p.1 ≠ s.monitor_pid) →
      HubV2.handle_sigchld (before ++ (s.monitor_pid, status) :: more) s =
        ({ s with child_exited := 1,
                  exit_status := recorded_status status s.exit_status,
                  monitor_pid := -1 }, [Effect.close 0]) ∧
      HubV1.handle_sigchld (before ++ (s.monitor_pid, status) :: more) s =
        ({ s with child_exited := 1,
                  exit_status := recorded_status status s.exit_status,
                  monitor_pid := -1 }, []) ∧
      lifecycle s ≠ Lifecycle.NotRunning ∧
      lifecycle (HubV2.handle_sigchld (before ++ (s.monitor_pid, status) :: more) s).1
        = Lifecycle.NotRunning ∧
      lifecycle (HubV1.handle_sigchld (before ++ (s.monitor_pid, status) :: more) s).1
        = Lifecycle.NotRunning ∧
      HubV2.loop_top
          (HubV2.handle_sigchld (before ++ (s.monitor_pid, status) :: more) s).1
        = ({ s with child_exited := 0, monitor_exiting := 0,
                    exit_status := recorded_status status s.exit_status,
                    monitor_pid := -1 },
            [status_line (recorded_status status s.exit_status),
              Effect.print "> ".toList]) ∧
      HubV1.loop_top
          (HubV1.handle_sigchld (before ++ (s.monitor_pid, status) :: more) s).1
        = ({ s with child_exited := 0, monitor_exiting := 0,
                    exit_status := recorded_status status s.exit_status,
                    monitor_pid := -1 },
            [status_line (recorded_status status s.exit_status),
              Effect.print "> ".toList])) ∧
    (∀ (reaped : List (Int × WStatus)) (s : Hub),
      (∀ p ∈ reaped, p.1 ≠ s.monitor_pid) →
      HubV2.handle_sigchld reaped s = (s, []) ∧ HubV1.handle_sigchld reaped s = (s, [])) ∧
    (∀ (reaped : List (Int × WStatus)) (s : Hub),
      (HubV2.handle_sigchld reaped s = (s, []) ∧ HubV1.handle_sigchld reaped s = (s, [])) ∨
      (0 < s.monitor_pid ∧ ∃ status, (s.monitor_pid, status) ∈ reaped ∧
        HubV2.handle_sigchld reaped s = (s.reaped status, [Effect.close 0]) ∧
        HubV1.handle_sigchld reaped s = (s.reaped status, []) ∧
        lifecycle (s.reaped status) = Lifecycle.NotRunning ∧
        (s.reaped status).monitor_exiting = s.monitor_exiting ∧
        (s.reaped status).child_exited = 1)) ∧
    (∀ s : Hub, s.child_exited ≠ 0 →
      HubV2.loop_top s = ({ s with child_exited := 0, monitor_exiting := 0 },
        [status_line s.exit_status, Effect.print "> ".toList]) ∧
      HubV1.loop_top s = ({ s with child_exited := 0, monitor_exiting := 0 },
        [status_line s.exit_status, Effect.print "> ".toList])) ∧
    (∀ s : Hub, s.child_exited = 0 →
      HubV2.loop_top s = (s, [Effect.print "> ".toList]) ∧
      HubV1.loop_top s = (s, [Effect.print "> ".toList])) := by
  refine ⟨?_, handle_sigchld_others, ?_, ?_, ?_⟩
  · intro before more status s hpos hbefore
    have h := handle_sigchld_monitor_after before more status s hpos hbefore
    rw [h.1, h.2]
    refine ⟨rfl, rfl, ?_, ?_, ?_, ?_, ?_⟩
    · have hn : ¬ s.monitor_pid ≤ 0 := by omega
      unfold lifecycle
      rw [if_neg hn]
      split <;> simp
    · simp [lifecycle]
    · simp [lifecycle]
    · simp [HubV2.loop_top, status_line]
    · simp [HubV1.loop_top, status_line]
  · intro reaped s
    rcases handle_sigchld_whole reaped s with h | ⟨hp, status, hmem, h2, h1⟩
    · exact Or.inl h
    · exact Or.inr ⟨hp, status, hmem, h2, h1, by simp [lifecycle, Hub.reaped], rfl, rfl⟩
  · intro s h
    simp [HubV2.loop_top, HubV1.loop_top, h, status_line]
  · intro s h
    simp [HubV2.loop_top, HubV1.loop_top, h]

/-- Witness for C15: the handler reaps another child, 9, and then monitor 7, which
was told to stop and was killed by signal 15. It records 143 and makes the state
NotRunning at once; the stop flag stays until the loop-top check, which prints the
status and clears both flags. -/
theorem handler_records_exit_witness :
    HubV2.handle_sigchld [(9, WStatus.exited 2), (7, WStatus.signaled 15)]
        ⟨7, 1, 0, 0, ⟨none, none⟩, none⟩
      = (⟨-1, 1, 1, 143, ⟨none, none⟩, none⟩, [Effect.close 0]) ∧
    lifecycle ⟨7, 1, 0, 0, ⟨none, none⟩, none⟩ = Lifecycle.Exiting ∧
    lifecycle (HubV2.handle_sigchld [(9, WStatus.exited 2), (7, WStatus.signaled 15)]
        ⟨7, 1, 0, 0, ⟨none, none⟩, none⟩).1 = Lifecycle.NotRunning ∧
    HubV2.loop_top (HubV2.handle_sigchld [(9, WStatus.exited 2), (7, WStatus.signaled 15)]
        ⟨7, 1, 0, 0, ⟨none, none⟩, none⟩).1
      = (⟨-1, 0, 0, 143, ⟨none, none⟩, none⟩,
          [status_line 143, Effect.print "> ".toList]) :=
  ⟨(handler_records_exit.1 [(9, WStatus.exited 2)] [] (WStatus.signaled 15)
      ⟨7, 1, 0, 0, ⟨none, none⟩, none⟩ (by decide) (by decide)).1,
    by decide,
    (handler_records_exit.1 [(9, WStatus.exited 2)] [] (WStatus.signaled 15)
      ⟨7, 1, 0, 0, ⟨none, none⟩, none⟩ (by decide) (by decide)).2.2.2.1,
    (handler_records_exit.1 [(9, WStatus.exited 2)] [] (WStatus.signaled 15)
      ⟨7, 1, 0, 0, ⟨none, none⟩, none⟩ (by decide) (by decide)).2.2.2.2.2.1⟩

/-! ### The grace delay of the Monitor -/

theorem execute_no_flag (o : MOracle) (action : List Char) (params : Option (List Char))
    (m : Monitor) :
    (Monitor.execute_treasure_manager o action params m).1.should_exit = m.should_exit :=
  (execute_keeps_flag o action params m).1

theorem dispatch_stop_message (o : MOracle) (command params : List Char) (m : Monitor)
    (h0 : m.should_exit = 0)
    (h : (Monitor.dispatch o command params m).1.should_exit ≠ 0) :
    stop_message ∈ (Monitor.dispatch o command params m).2 := by
  have hf := (dispatch_flag o command params m).1
  by_cases hc : command = "stop".toList
  · subst hc
    have s1 : "stop".toList ≠ "list_hunts".toList := by decide
    have s2 : "stop".toList ≠ "list_treasures".toList := by decide
    have s3 : "stop".toList ≠ "view_treasure".toList := by decide
    simp [Monitor.dispatch, s1, s2, s3, stop_message]
  · rw [hf, if_neg hc] at h
    exact absurd h0 h

theorem handle_command_stop_message (o : MOracle) (ch : Channel) (m : Monitor)
    (h0 : m.should_exit = 0)
    (h : (Monitor.handle_command o ch m).1.should_exit ≠ 0) :
    stop_message ∈ (Monitor.handle_command o ch m).2 := by
  unfold Monitor.handle_command at h ⊢
  cases hr : Monitor.read_channel ch with
  | none =>
    rw [hr] at h
    exact absurd h0 h
  | some cp =>
    rw [hr] at h
    exact dispatch_stop_message o cp.1 cp.2 m h0 h

theorem step_grace (ev : MEvent) (m : Monitor) (trace : List Effect)
    (h : GraceKept m trace) :
    GraceKept (Monitor.step ev m).1 (trace ++ (Monitor.step ev m).2) := by
  unfold Monitor.step
  split
  · simpa using h
  · rename_i hh
    have hnh : m.halted = none := by
      cases hm : m.halted with
      | none => rfl
      | some x => simp [hm] at hh
    cases ev with
    | sigusr1 =>
      simp only [Monitor.handle_sigusr1, List.append_nil]
      exact h
    | turn o ch =>
      simp only [Monitor.main_turn]
      by_cases hx : m.should_exit ≠ 0
      · rw [if_pos hx]
        refine ⟨fun _ => by simp [h.1 hx], fun _ => ⟨trace, rfl, h.1 hx⟩⟩
      · rw [if_neg hx]
        have hx0 : m.should_exit = 0 := by simpa using hx
        by_cases hr : m.received_command ≠ 0
        · rw [if_pos hr]
          have hf := handle_command_flag o ch m
          have hmsg := handle_command_stop_message o ch m hx0
          have hne : (Monitor.handle_command o ch m).1.halted ≠ some (Halt.exit 0) := by
            intro hc
            have := hf.2.2 hc
            rw [hnh] at this
            cases this
          split
          · refine ⟨fun hs => ?_, fun hc => absurd hc hne⟩
            simp [hmsg hs]
          · refine ⟨fun hs => ?_, fun hc => absurd hc hne⟩
            have := hmsg hs
            simp [this]
        · rw [if_neg hr]
          refine ⟨fun hs => absurd hs hx, fun hc => ?_⟩
          rw [hnh] at hc
          cases hc

theorem run_grace (evs : List MEvent) (m : Monitor) (trace : List Effect)
    (h : GraceKept m trace) :
    GraceKept (Monitor.run evs m).1 (trace ++ (Monitor.run evs m).2) := by
  induction evs generalizing m trace with
  | nil => simpa [Monitor.run] using h
  | cons ev evs ih =>
    simp only [Monitor.run]
    have := ih _ _ (step_grace ev m trace h)
    simpa [List.append_assoc] using this

/-- C14: in every run of the Monitor from its start, if `main` has returned then the
trace of the process ends with the grace-delay sleep of `DELAY_BEFORE_EXIT`
(2 000 000 microseconds) between its two messages, and the dispatch of `stop` lies
before that sleep; and whenever the exit flag is set, `stop` has been dispatched. -/
theorem grace_delay_before_exit (evs : List MEvent) :
    ((Monitor.run evs Monitor.init).1.halted = some (Halt.exit 0) →
      ∃ before,
        (Monitor.run evs Monitor.init).2 = before ++
          [Effect.print "Monitor: Delaying before exit...\n".toList,
           Effect.usleep 2000000,
           Effect.print "Monitor: Exiting now\n".toList] ∧
        stop_message ∈ before) ∧
    ((Monitor.run evs Monitor.init).1.should_exit ≠ 0 →
      stop_message ∈ (Monitor.run evs Monitor.init).2) := by
  have h := run_grace evs Monitor.init []
    ⟨fun h => absurd rfl h, fun h => by cases h⟩
  simp only [List.nil_append] at h
  exact ⟨h.2, h.1⟩

/-- Witness for C14: the Monitor is signalled, reads `stop` and leaves its loop. -/
theorem grace_delay_before_exit_witness :
    ∃ before,
      (Monitor.run [MEvent.sigusr1,
          MEvent.turn ⟨23, true, WStatus.exited 0⟩ ⟨some "stop".toList, none⟩,
          MEvent.turn ⟨23, true, WStatus.exited 0⟩ ⟨some "stop".toList, none⟩]
          Monitor.init).2 = before ++
        [Effect.print "Monitor: Delaying before exit...\n".toList,
         Effect.usleep 2000000,
         Effect.print "Monitor: Exiting now\n".toList] ∧
      stop_message ∈ before :=
  (grace_delay_before_exit [MEvent.sigusr1,
      MEvent.turn ⟨23, true, WStatus.exited 0⟩ ⟨some "stop".toList, none⟩,
      MEvent.turn ⟨23, true, WStatus.exited 0⟩ ⟨some "stop".toList, none⟩]).1 (by decide)

/-! ### Identifiers from the input line to the worker -/

theorem takeWhile_append_stop (p : Char → Bool) (l : List Char) (a : Char) (r : List Char)
    (hl : ∀ c ∈ l, p c = true) (ha : p a = false) :
    (l ++ a :: r).takeWhile p = l ∧ (l ++ a :: r).dropWhile p = a :: r := by
  induction l with
  | nil => simp [List.takeWhile_cons, List.dropWhile_cons, ha]
  | cons c cs ih =>
    have hc : p c = true := hl c (by simp)
    have ih2 := ih (fun x hx => hl x (by simp [hx]))
    simp [List.takeWhile_cons, List.dropWhile_cons, hc, ih2.1, ih2.2]

theorem takeWhile_all (p : Char → Bool) (l : List Char) (hl : ∀ c ∈ l, p c = true) :
    l.takeWhile p = l ∧ l.dropWhile p = [] := by
  induction l with
  | nil => simp
  | cons c cs ih =>
    have hc : p c = true := hl c (by simp)
    have ih2 := ih (fun x hx => hl x (by simp [hx]))
    simp [List.takeWhile_cons, List.dropWhile_cons, hc, ih2.1, ih2.2]

theorem dropWhile_head_stop (p : Char → Bool) (l : List Char) (hne : l ≠ [])
    (hl : ∀ c ∈ l, p c = false) : l.dropWhile p = l := by
  cases l with
  | nil => exact absurd rfl hne
  | cons c cs => simp [List.dropWhile_cons, hl c (by simp)]

theorem isspace_SP : isspace SP = true := by decide

/-- The re-parse of the Monitor finds the two ids again when neither holds white
space. -/
theorem sscanf_two_join (h t : List Char) (hh : h ≠ []) (ht : t ≠ []) (wh : NoWhite h)
    (wt : NoWhite t) : sscanf_two (h ++ SP :: t) = (h, t) := by
  have d1 : (h ++ SP :: t).dropWhile isspace = h ++ SP :: t :=
    by
      cases h with
      | nil => exact absurd rfl hh
      | cons c cs => simp [List.dropWhile_cons, wh c (by simp)]
  have k := takeWhile_append_stop (fun c => !isspace c) h SP t
    (fun c hc => by simp [wh c hc]) (by simp [isspace_SP])
  have d2 : (SP :: t).dropWhile isspace = t := by
    rw [List.dropWhile_cons, if_pos isspace_SP]
    exact dropWhile_head_stop isspace t ht wt
  have k2 := takeWhile_all (fun c => !isspace c) t (fun c hc => by simp [wt c hc])
  have s1 : scan_word (h ++ SP :: t) = (h, SP :: t) := by
    simp only [scan_word, d1, k.1, k.2]
  have s2 : (scan_word (SP :: t)).1 = t := by
    simp only [scan_word, d2, k2.1]
  simp only [sscanf_two, s1, hh, if_false, s2]

/-- A token of `strtok` is not empty, holds no space and only bytes of the text, as
does the text left; together they are no longer than the text. -/
theorem strtok_token (text token rest : List Char) (h : strtok text = some (token, rest)) :
    token ≠ [] ∧ (∀ c ∈ token, c ∈ text) ∧ (∀ c ∈ rest, c ∈ text) ∧
    token.length + rest.length ≤ text.length := by
  unfold strtok at h
  simp only at h
  split at h
  · cases h
  · rename_i hne
    simp only [Option.some.injEq, Prod.mk.injEq] at h
    obtain ⟨ht, hr⟩ := h
    have hsub : ∀ c ∈ text.dropWhile (fun c => c == SP), c ∈ text :=
      fun c hc => (List.dropWhile_sublist _).subset hc
    have hlen : (text.dropWhile (fun c => c == SP)).length ≤ text.length :=
      (List.dropWhile_sublist _).length_le
    have hsplit := takeWhile_length_add_dropWhile (fun c => c != SP)
      (text.dropWhile (fun c => c == SP))
    refine ⟨?_, ?_, ?_, ?_⟩
    · rw [← ht]
      cases hd : text.dropWhile (fun c => c == SP) with
      | nil => exact absurd hd hne
      | cons c cs =>
        have hh := List.head_dropWhile_not (fun c => c == SP) text (by rw [hd]; simp)
        simp only [hd, List.head_cons] at hh
        have : (c != SP) = true := by simpa [bne] using hh
        simp [List.takeWhile_cons, this]
    · intro c hc
      rw [← ht] at hc
      exact hsub c ((List.takeWhile_sublist _).subset hc)
    · intro c hc
      rw [← hr] at hc
      exact hsub c ((List.dropWhile_sublist _).subset ((List.drop_sublist _ _).subset hc))
    · rw [← ht, ← hr]
      simp only [List.length_drop]
      omega

theorem trim_newline_subset (cmd : List Char) :
    (∀ c ∈ trim_newline cmd, c ∈ cmd) ∧ (trim_newline cmd).length ≤ cmd.length := by
  unfold trim_newline
  split
  · exact ⟨fun c hc => (List.dropLast_sublist _).subset hc,
      (List.dropLast_sublist _).length_le⟩
  · exact ⟨fun _ h => h, le_refl _⟩

theorem dispatch_show (mo : MOracle) (params : List Char) (m : Monitor) :
    SpawnsWorker mo m (Monitor.dispatch mo "list_treasures".toList params m)
      ["treasure_manager".toList, "show".toList, params] := by
  have hne : "list_treasures".toList ≠ "list_hunts".toList := by decide
  simp only [Monitor.dispatch, hne, if_false, if_true, Monitor.list_treasures]
  exact execute_spawns mo _ (some params) m _

theorem dispatch_view (mo : MOracle) (params : List Char) (m : Monitor) :
    SpawnsWorker mo m (Monitor.dispatch mo "view_treasure".toList params m)
      ["treasure_manager".toList, "view".toList,
        snprintf MAX_CMD_LEN ((sscanf_two params).1 ++ SP :: (sscanf_two params).2)] := by
  have hne1 : "view_treasure".toList ≠ "list_hunts".toList := by decide
  have hne2 : "view_treasure".toList ≠ "list_treasures".toList := by decide
  simp only [Monitor.dispatch, hne1, hne2, if_false, if_true, Monitor.view_treasure]
  exact execute_spawns mo _ _ m _

theorem read_channel_of_sendable (name params : List Char) (hn : Sendable name)
    (hp : Sendable params) :
    Monitor.read_channel ⟨some name, some params⟩ = some (name, params) := by
  simp [Monitor.read_channel, read_field_of_sendable name hn, read_field_of_sendable params hp]

/-- A token of an input line, and two tokens joined by a space, pass the channel
unchanged. -/
theorem token_sendable (cmd token : List Char) (hline : InputLine cmd)
    (hsub : ∀ c ∈ token, c ∈ trim_newline cmd)
    (hlen : token.length ≤ (trim_newline cmd).length) : Sendable token := by
  obtain ⟨hnul, hnl, hl⟩ := hline
  have ht := trim_newline_subset cmd
  refine ⟨fun h => hnul (ht.1 _ (hsub _ h)), fun h => hnl (hsub _ h), ?_⟩
  unfold MAX_CMD_LEN at *
  omega

/-- C11, as stated, fails: the Hub accepts the space-free tokens `a<TAB>b` and `3` of the
line `view_treasure a<TAB>b 3` as hunt id and treasure id, but the Monitor, which
re-parses the params at every white space, hands `a b` to the worker. -/
theorem tab_in_identifier_not_forwarded :
    tokens (trim_newline "view_treasure a\tb 3\n".toList)
      = ["view_treasure".toList, "a\tb".toList, "3".toList] ∧
    spawned (forwarded (Oracle.ok 7) ⟨23, true, WStatus.exited 0⟩
        "view_treasure a\tb 3\n".toList ⟨7, 0, 0, 0, ⟨none, none⟩, none⟩ Monitor.init).2
      = [["treasure_manager".toList, "view".toList, "a b".toList]] := by
  decide

/-- C11 (amended): for every input line, every Hub state in which the command is
accepted (a monitor runs and is not exiting) and both channel files can be written:
the hunt id that `process_command` takes from a `list_treasures` line, any token of
the line, is exactly the params with which the Monitor spawns the worker for `show`;
and the hunt id and treasure id it takes from a `view_treasure` line reach the worker
for `view` as exactly hunt id, one space, treasure id, provided neither id holds white
space in the sense of `isspace` (space-free alone is not enough). -/
theorem identifiers_forwarded (o : Oracle) (mo : MOracle) (s : Hub) (m : Monitor)
    (cmd : List Char) (hline : InputLine cmd) (hpid : 0 < s.monitor_pid)
    (hex : s.monitor_exiting = 0) (hc : o.cmd_open = true) (hp : o.param_open = true) :
    (∀ hunt_id more,
      tokens (trim_newline cmd) = "list_treasures".toList :: hunt_id :: more →
      SpawnsWorker mo m (forwarded o mo cmd s m)
        ["treasure_manager".toList, "show".toList, hunt_id]) ∧
    (∀ hunt_id treasure_id more,
      tokens (trim_newline cmd)
        = "view_treasure".toList :: hunt_id :: treasure_id :: more →
      NoWhite hunt_id → NoWhite treasure_id →
      SpawnsWorker mo m (forwarded o mo cmd s m)
        ["treasure_manager".toList, "view".toList, hunt_id ++ SP :: treasure_id]) := by
  have hneg : ¬ s.monitor_pid < 0 := by omega
  have l1 : "list_treasures".toList ≠ "start_monitor".toList := by decide
  have l2 : "list_treasures".toList ≠ "list_hunts".toList := by decide
  have v1 : "view_treasure".toList ≠ "start_monitor".toList := by decide
  have v2 : "view_treasure".toList ≠ "list_hunts".toList := by decide
  have v3 : "view_treasure".toList ≠ "list_treasures".toList := by decide
  constructor
  · intro hunt_id more htok
    obtain ⟨rest, hs, hrest⟩ := strtok_of_tokens_cons _ _ _ htok
    obtain ⟨rest2, hs2, -⟩ := strtok_of_tokens_cons _ _ _ hrest
    have t1 := strtok_token _ _ _ hs
    have t2 := strtok_token _ _ _ hs2
    have hsend : Sendable hunt_id :=
      token_sendable cmd hunt_id hline (fun c hc => t1.2.2.1 c (t2.2.1 c hc)) (by omega)
    have hchan : (HubV2.process_command o cmd s).1.chan
        = ⟨some "list_treasures".toList, some hunt_id⟩ := by
      simp [HubV2.process_command, hs, hs2, l1, l2, HubV2.list_treasures, hneg, hex,
        HubV2.send_command_to_monitor, hc, hp]
    unfold forwarded Monitor.handle_command
    rw [hchan, read_channel_of_sendable _ _ (by decide) hsend]
    exact dispatch_show mo hunt_id m
  · intro hunt_id treasure_id more htok wh wt
    obtain ⟨rest, hs, hrest⟩ := strtok_of_tokens_cons _ _ _ htok
    obtain ⟨rest2, hs2, hrest2⟩ := strtok_of_tokens_cons _ _ _ hrest
    obtain ⟨rest3, hs3, -⟩ := strtok_of_tokens_cons _ _ _ hrest2
    have t1 := strtok_token _ _ _ hs
    have t2 := strtok_token _ _ _ hs2
    have t3 := strtok_token _ _ _ hs3
    have hvlen : ("view_treasure".toList).length = 13 := by decide
    have hjoin_len : (hunt_id ++ SP :: treasure_id).length
        ≤ (trim_newline cmd).length := by
      simp only [List.length_append, List.length_cons]
      omega
    have hfit : snprintf MAX_CMD_LEN (hunt_id ++ SP :: treasure_id)
        = hunt_id ++ SP :: treasure_id := by
      unfold snprintf
      apply List.take_of_length_le
      have := (trim_newline_subset cmd).2
      have := hline.2.2
      unfold MAX_CMD_LEN at *
      omega
    have hsend : Sendable (hunt_id ++ SP :: treasure_id) := by
      obtain ⟨hnul, hnl, hl⟩ := hline
      have ht := trim_newline_subset cmd
      have hmem : ∀ c ∈ hunt_id ++ SP :: treasure_id, c = SP ∨ c ∈ trim_newline cmd := by
        intro c hcm
        simp only [List.mem_append, List.mem_cons] at hcm
        rcases hcm with h | h | h
        · exact Or.inr (t1.2.2.1 c (t2.2.1 c h))
        · exact Or.inl h
        · exact Or.inr (t1.2.2.1 c (t2.2.2.1 c (t3.2.1 c h)))
      refine ⟨fun h => ?_, fun h => ?_, ?_⟩
      · rcases hmem _ h with h1 | h1
        · exact absurd h1 (by decide)
        · exact hnul (ht.1 _ h1)
      · rcases hmem _ h with h1 | h1
        · exact absurd h1 (by decide)
        · exact hnl h1
      · unfold MAX_CMD_LEN at *
        omega
    have hchan : (HubV2.process_command o cmd s).1.chan
        = ⟨some "view_treasure".toList, some (hunt_id ++ SP :: treasure_id)⟩ := by
      simp [HubV2.process_command, hs, hs2, hs3, v1, v2, v3, HubV2.view_treasure, hneg,
        hex, HubV2.send_command_to_monitor, hc, hp, hfit]
    have hscan := sscanf_two_join hunt_id treasure_id t2.1 t3.1 wh wt
    have hd := dispatch_view mo (hunt_id ++ SP :: treasure_id) m
    rw [hscan] at hd
    simp only [hfit] at hd
    unfold forwarded Monitor.handle_command
    rw [hchan, read_channel_of_sendable _ _ (by decide) hsend]
    exact hd

/-- Witness for C11: the line `view_treasure pirates42 3`. -/
theorem identifiers_forwarded_witness :
    SpawnsWorker ⟨23, true, WStatus.exited 0⟩ Monitor.init
      (forwarded (Oracle.ok 7) ⟨23, true, WStatus.exited 0⟩
        "view_treasure pirates42 3\n".toList ⟨7, 0, 0, 0, ⟨none, none⟩, none⟩ Monitor.init)
      ["treasure_manager".toList, "view".toList, "pirates42 3".toList] :=
  (identifiers_forwarded (Oracle.ok 7) ⟨23, true, WStatus.exited 0⟩
    ⟨7, 0, 0, 0, ⟨none, none⟩, none⟩ Monitor.init "view_treasure pirates42 3\n".toList
    (by decide) (by decide) rfl rfl rfl).2 "pirates42".toList "3".toList [] (by decide)
    (by decide) (by decide)

/-! ### The two Hub variants -/

theorem agree_of_eq (s : Hub) (r1 r2 : Hub × List Effect) (h : r2 = r1) : Agree s r1 r2 := by
  subst h
  exact ⟨rfl, rfl, rfl, rfl, rfl, rfl, rfl, rfl, rfl, fun _ => Iff.rfl⟩

theorem send_same (o : Oracle) (command : List Char) (params : Option (List Char))
    (s : Hub) :
    HubV1.send_command_to_monitor o command params s
      = HubV2.send_command_to_monitor o command params s := rfl

theorem send_head (o : Oracle) (command : List Char) (params : Option (List Char))
    (s : Hub) (more : List Effect) (t : List Char) :
    ((HubV2.send_command_to_monitor o command params s).2 ++ more).head?
      ≠ some (Effect.print t) := by
  unfold HubV2.send_command_to_monitor
  cases o.cmd_open <;> simp

theorem not_refused_of_head (s : Hub) (r : Hub × List Effect) (message : List Char)
    (h : r.2.head? ≠ some (Effect.print message)) : ¬ Refused s r message := by
  intro hr
  unfold Refused at hr
  rw [hr] at h
  simp at h

theorem spawned_append (a b : List Effect) : spawned (a ++ b) = spawned a ++ spawned b := by
  induction a with
  | nil => simp [spawned]
  | cons e es ih => cases e <;> simp [spawned, ih]

theorem v2_read_monitor_output_spawns (o : Oracle) :
    spawned (HubV2.read_monitor_output o) = [] := by
  unfold HubV2.read_monitor_output
  generalize o.drained = chunks
  induction chunks with
  | nil => simp [spawned]
  | cons c cs ih => simpa [spawned] using ih

/-- A command that both variants send: the variant with pipe only adds the drain. -/
theorem agree_send (s0 : Hub) (o : Oracle) (command : List Char)
    (params : Option (List Char)) (s : Hub) (tail : List Effect)
    (hw : channel_writes tail = []) (hs : signals tail = []) (hp : spawned tail = []) :
    Agree s0
      ((HubV1.send_command_to_monitor o command params s).1,
        (HubV1.send_command_to_monitor o command params s).2 ++ tail)
      ((HubV2.send_command_to_monitor o command params s).1,
        (HubV2.send_command_to_monitor o command params s).2
          ++ HubV2.read_monitor_output o ++ tail) := by
  have q := v2_read_monitor_output_quiet o
  have hd := v2_read_monitor_output_spawns o
  rw [send_same]
  refine ⟨rfl, rfl, rfl, rfl, rfl, rfl, ?_, ?_, ?_, ?_⟩
  · simp [channel_writes_append, q.1, hw]
  · simp [signals_append, q.2, hs]
  · simp [spawned_append, hd, hp]
  · intro message
    constructor
    · intro h
      exact absurd h (not_refused_of_head _ _ _ (send_head o command params s _ message))
    · intro h
      refine absurd h (not_refused_of_head _ _ _ ?_)
      have := send_head o command params s (HubV2.read_monitor_output o ++ tail) message
      simpa [List.append_assoc] using this

theorem agree_list_hunts (o : Oracle) (s : Hub) :
    Agree s (HubV1.list_hunts o s) (HubV2.list_hunts o s) := by
  unfold HubV1.list_hunts HubV2.list_hunts
  split
  · exact agree_of_eq _ _ _ rfl
  · split
    · exact agree_of_eq _ _ _ rfl
    · have h := agree_send s o "list_hunts".toList none s [] rfl rfl rfl
      simpa using h

theorem agree_list_treasures (o : Oracle) (hunt_id : List Char) (s : Hub) :
    Agree s (HubV1.list_treasures o hunt_id s) (HubV2.list_treasures o hunt_id s) := by
  unfold HubV1.list_treasures HubV2.list_treasures
  split
  · exact agree_of_eq _ _ _ rfl
  · split
    · exact agree_of_eq _ _ _ rfl
    · have h := agree_send s o "list_treasures".toList (some hunt_id) s [] rfl rfl rfl
      simpa using h

theorem agree_view_treasure (o : Oracle) (hunt_id treasure_id : List Char) (s : Hub) :
    Agree s (HubV1.view_treasure o hunt_id treasure_id s)
      (HubV2.view_treasure o hunt_id treasure_id s) := by
  unfold HubV1.view_treasure HubV2.view_treasure
  split
  · exact agree_of_eq _ _ _ rfl
  · split
    · exact agree_of_eq _ _ _ rfl
    · have h := agree_send s o "view_treasure".toList
        (some (snprintf MAX_CMD_LEN (hunt_id ++ SP :: treasure_id))) s [] rfl rfl rfl
      simpa using h

theorem agree_stop_monitor (o : Oracle) (s : Hub) :
    Agree s (HubV1.stop_monitor o s) (HubV2.stop_monitor o s) := by
  unfold HubV1.stop_monitor HubV2.stop_monitor
  split
  · exact agree_of_eq _ _ _ rfl
  · split
    · exact agree_of_eq _ _ _ rfl
    · exact agree_send s o "stop".toList none { s with monitor_exiting := 1 }
        [Effect.print "Stopping monitor...\n".toList] rfl rfl rfl

theorem agree_start_monitor (o : Oracle) (s : Hub)
    (h : ¬ (s.monitor_pid ≤ 0 ∧ o.pipe_ok = false)) :
    Agree s (HubV1.start_monitor o s) (HubV2.start_monitor o s) := by
  unfold HubV1.start_monitor HubV2.start_monitor
  split
  · exact agree_of_eq _ _ _ rfl
  · rename_i hp
    have hpipe : o.pipe_ok = true := by
      cases hpo : o.pipe_ok with
      | true => rfl
      | false => exact absurd ⟨by omega, hpo⟩ h
    simp only [hpipe, Bool.not_true, Bool.false_eq_true, if_false]
    split
    · simp [Agree, Refused, channel_writes, signals, spawned]
    · split
      · split
        · split <;> simp [Agree, Refused, channel_writes, signals, spawned]
        · split <;> simp [Agree, Refused, channel_writes, signals, spawned]
      · simp [Agree, Refused, channel_writes, signals, spawned]

/-- C19, as stated, fails: when `pipe` fails, `start_monitor` of the Hub with result
pipe gives up and the state stays NotRunning, while the Hub without pipe, which makes
no such call, starts monitor 7 and is Running. -/
theorem variants_differ_when_pipe_fails :
    lifecycle (HubV1.process_command { Oracle.ok 7 with pipe_ok := false }
        "start_monitor\n".toList (Hub.init ⟨none, none⟩)).1 = Lifecycle.Running ∧
    lifecycle (HubV2.process_command { Oracle.ok 7 with pipe_ok := false }
        "start_monitor\n".toList (Hub.init ⟨none, none⟩)).1 = Lifecycle.NotRunning := by
  decide

/-- C19 (amended): for every Hub state, every outcome of the system calls and every
input line whose first token is not `calculate_score`, `process_command` of the two
Hub variants leave the same `monitor_pid`, `monitor_exiting`, `child_exited`,
`exit_status` and channel files, refuse or accept alike, write the same command and
params and raise the same signals, except when the line is a `start_monitor` that
passes the guard and `pipe` fails: then the Hub with result pipe only reports the
failure and changes nothing. -/
theorem hub_variants_agree (o : Oracle) (s : Hub) (cmd : List Char)
    (hcmd : first_token cmd ≠ some "calculate_score".toList) :
    ((first_token cmd = some "start_monitor".toList ∧ s.monitor_pid ≤ 0 ∧
        o.pipe_ok = false) →
      HubV2.process_command o cmd s
        = (s, [Effect.perror "Failed to create pipe".toList])) ∧
    (¬ (first_token cmd = some "start_monitor".toList ∧ s.monitor_pid ≤ 0 ∧
        o.pipe_ok = false) →
      Agree s (HubV1.process_command o cmd s) (HubV2.process_command o cmd s)) := by
  unfold first_token at hcmd ⊢
  unfold HubV1.process_command HubV2.process_command
  cases hs : strtok (trim_newline cmd) with
  | none =>
    simp only [Option.map_none']
    exact ⟨fun h => by simp at h, fun _ => agree_of_eq _ _ _ rfl⟩
  | some tr =>
    obtain ⟨token, rest⟩ := tr
    simp only [hs, Option.map_some', ne_eq, Option.some.injEq] at hcmd
    simp only [Option.map_some', Option.some.injEq]
    by_cases h1 : token = "start_monitor".toList
    · simp only [h1, if_true, true_and]
      constructor
      · intro h
        have hp : ¬ s.monitor_pid > 0 := by omega
        simp [HubV2.start_monitor, hp, h.2]
      · intro h
        exact agree_start_monitor o s h
    · simp only [h1, if_false, false_and, not_false_eq_true, forall_true_left,
        IsEmpty.forall_iff, true_and]
      by_cases h2 : token = "list_hunts".toList
      · simp only [h2, if_true]
        exact agree_list_hunts o s
      · simp only [h2, if_false]
        by_cases h3 : token = "list_treasures".toList
        · simp only [h3, if_true]
          cases strtok rest with
          | none => exact agree_of_eq _ _ _ rfl
          | some tr2 => exact agree_list_treasures o tr2.1 s
        · simp only [h3, if_false]
          by_cases h4 : token = "view_treasure".toList
          · simp only [h4, if_true]
            cases strtok rest with
            | none => exact agree_of_eq _ _ _ rfl
            | some tr2 =>
              obtain ⟨hunt_id, rest2⟩ := tr2
              simp only
              cases strtok rest2 with
              | none => exact agree_of_eq _ _ _ rfl
              | some tr3 => exact agree_view_treasure o hunt_id tr3.1 s
          · simp only [h4, if_false, hcmd]
            by_cases h5 : token = "stop_monitor".toList
            · simp only [h5, if_true]
              exact agree_stop_monitor o s
            · simp only [h5, if_false]
              by_cases h6 : token = "exit".toList
              · simp only [h6, if_true]
                exact agree_of_eq _ _ _ rfl
              · simp only [h6, if_false]
                simp [Agree, Refused, channel_writes, signals, spawned]

/-- Witness for C19: an accepted `stop_monitor` in both variants. -/
theorem hub_variants_agree_witness :
    Agree ⟨7, 0, 0, 0, ⟨none, none⟩, none⟩
      (HubV1.process_command (Oracle.ok 9) "stop_monitor\n".toList
        ⟨7, 0, 0, 0, ⟨none, none⟩, none⟩)
      (HubV2.process_command (Oracle.ok 9) "stop_monitor\n".toList
        ⟨7, 0, 0, 0, ⟨none, none⟩, none⟩) :=
  (hub_variants_agree (Oracle.ok 9) ⟨7, 0, 0, 0, ⟨none, none⟩, none⟩
    "stop_monitor\n".toList (by decide)).2 (by decide)

/-! ### Reporting the exit of the Monitor -/

/-- What the loop-top check prints, as a step. -/
theorem v2_check_step (s : Hub) :
    (s.halted = none → s.child_exited ≠ 0 →
      HubV2.step Event.check s = ({ s with child_exited := 0, monitor_exiting := 0 },
        [status_line s.exit_status, Effect.print "> ".toList])) ∧
    (s.halted = none → s.child_exited = 0 →
      HubV2.step Event.check s = (s, [Effect.print "> ".toList])) ∧
    (s.halted ≠ none → HubV2.step Event.check s = (s, [])) := by
  refine ⟨?_, ?_, ?_⟩
  · intro hh hc
    simp [HubV2.step, hh, HubV2.loop_top, hc, status_line]
  · intro hh hc
    simp [HubV2.step, hh, HubV2.loop_top, hc]
  · intro hh
    cases hx : s.halted with
    | none => exact absurd hx hh
    | some x => simp [HubV2.step, hx]

theorem v2_start_halted (o : Oracle) (s : Hub)
    (h : (HubV2.start_monitor o s).1.monitor_pid ≠ s.monitor_pid) :
    (HubV2.start_monitor o s).1.halted = s.halted := by
  unfold HubV2.start_monitor at h ⊢
  split
  · rfl
  · split
    · rfl
    · split
      · rfl
      · split
        · rename_i h1 h2 h3 h4
          rw [if_neg h1, if_neg h2, if_neg h3, if_pos h4] at h
          split at h
          · exact absurd rfl h
          · split at h <;> exact absurd rfl h
        · rfl

theorem v2_process_command_start (o : Oracle) (cmd : List Char) (s : Hub)
    (h : first_token cmd = some "start_monitor".toList) :
    HubV2.process_command o cmd s = HubV2.start_monitor o s := by
  unfold first_token at h
  cases hs : strtok (trim_newline cmd) with
  | none => simp [hs] at h
  | some tr =>
    obtain ⟨token, rest⟩ := tr
    simp only [hs, Option.map_some', Option.some.injEq] at h
    subst h
    simp only [HubV2.process_command, hs, if_true]

theorem v2_process_command_stop (o : Oracle) (cmd : List Char) (s : Hub)
    (h : first_token cmd = some "stop_monitor".toList) :
    HubV2.process_command o cmd s = HubV2.stop_monitor o s := by
  unfold first_token at h
  cases hs : strtok (trim_newline cmd) with
  | none => simp [hs] at h
  | some tr =>
    obtain ⟨token, rest⟩ := tr
    simp only [hs, Option.map_some', Option.some.injEq] at h
    subst h
    have e1 : "stop_monitor".toList ≠ "start_monitor".toList := by decide
    have e2 : "stop_monitor".toList ≠ "list_hunts".toList := by decide
    have e3 : "stop_monitor".toList ≠ "list_treasures".toList := by decide
    have e4 : "stop_monitor".toList ≠ "view_treasure".toList := by decide
    have e5 : "stop_monitor".toList ≠ "calculate_score".toList := by decide
    simp only [HubV2.process_command, hs, e1, e2, e3, e4, e5, if_false, if_true]

theorem starts_monitor_iff (s : Hub) (ev : Event) :
    starts_monitor (s, ev) = true ↔
      s.monitor_pid ≤ 0 ∧ 0 < (HubV2.step ev s).1.monitor_pid := by
  simp [starts_monitor]

theorem sends_stop_iff (s : Hub) (o : Oracle) (cmd : List Char) :
    sends_stop (s, Event.input o (Input.line cmd)) = true ↔
      first_token cmd = some "stop_monitor".toList ∧
      Effect.kill s.monitor_pid ∈ (HubV2.step (Event.input o (Input.line cmd)) s).2 := by
  simp [sends_stop]

/-- What one input line does, with the stop it may send: nothing to the three
globals and no stop; an accepted `start_monitor`; or an accepted `stop_monitor`, which
signals the monitor. -/
theorem v2_line_summary (o : Oracle) (cmd : List Char) (s : Hub) (hp : s.monitor_pid ≠ 0) :
    ((HubV2.process_command o cmd s).1.monitor_pid = s.monitor_pid ∧
      (HubV2.process_command o cmd s).1.monitor_exiting = s.monitor_exiting ∧
      (HubV2.process_command o cmd s).1.child_exited = s.child_exited ∧
      ¬ (first_token cmd = some "stop_monitor".toList ∧
          Effect.kill s.monitor_pid ∈ (HubV2.process_command o cmd s).2)) ∨
    (s.monitor_pid ≤ 0 ∧ 0 < (HubV2.process_command o cmd s).1.monitor_pid ∧
      (HubV2.process_command o cmd s).1.monitor_exiting = s.monitor_exiting ∧
      (HubV2.process_command o cmd s).1.child_exited = s.child_exited ∧
      (HubV2.process_command o cmd s).1.halted = s.halted) ∨
    (0 < s.monitor_pid ∧ s.monitor_exiting = 0 ∧
      (HubV2.process_command o cmd s).1.monitor_pid = s.monitor_pid ∧
      (HubV2.process_command o cmd s).1.monitor_exiting = 1 ∧
      (HubV2.process_command o cmd s).1.child_exited = s.child_exited ∧
      first_token cmd = some "stop_monitor".toList ∧
      Effect.kill s.monitor_pid ∈ (HubV2.process_command o cmd s).2) := by
  have h := v2_process_command_cases o cmd s
  rcases h.2 with h2 | h2 | h2
  · left
    refine ⟨h2.1, h2.2, h.1, ?_⟩
    rintro ⟨htok, hk⟩
    rw [v2_process_command_stop o cmd s htok] at hk h2
    rcases v2_stop_cases o s with c | c | c
    · have := c.1
      unfold Refused at this
      rw [this] at hk
      simp at hk
    · have := c.1
      unfold Refused at this
      rw [this] at hk
      simp at hk
    · have e1 := c.2.2.2.1
      rw [h2.2, c.2.1] at e1
      exact absurd e1 (by decide)
  · right; left
    obtain ⟨htok, hle, hfork, hpid, hex, -⟩ := h2
    refine ⟨hle, by rw [hpid]; exact hfork, hex, h.1, ?_⟩
    rw [v2_process_command_start o cmd s htok] at hpid ⊢
    exact v2_start_halted o s (by rw [hpid]; omega)
  · right; right
    obtain ⟨htok, hge, he0, hstop, hpid, hex⟩ := h2
    have hpos : 0 < s.monitor_pid := by omega
    refine ⟨hpos, he0, hpid, hex, h.1, htok, ?_⟩
    rw [hstop]
    have hsig := (v2_stop_accepted o s hpos he0).2.2.2.2
    have : Effect.kill s.monitor_pid ∈ signals (HubV2.stop_monitor o s).2 := by
      rw [hsig]; simp
    unfold signals at this
    exact List.mem_of_mem_filter this

theorem flag_inv_same (checked checked2 : Bool) (s t : Hub) (n : Nat)
    (h : FlagInv checked s n) (hp : t.monitor_pid = s.monitor_pid)
    (he : t.monitor_exiting = s.monitor_exiting) (hc : t.child_exited = s.child_exited)
    (h5 : 0 < s.monitor_pid → s.child_exited ≠ 0 → checked2 = false ∧ t.halted = none) :
    FlagInv checked2 t n := by
  obtain ⟨j1, j2, j3, j4, j5, j6⟩ := h
  unfold FlagInv
  rw [hp, he, hc]
  exact ⟨j1, j2, j3, j4, fun a b => ⟨(h5 a b).1, (j5 a b).2.1, (h5 a b).2⟩, j6⟩

theorem step_flag_inv (ev : Event) (checked : Bool) (s : Hub) (n : Nat)
    (hJ : FlagInv checked s n) (hsch : scheduled checked [ev] = true) :
    FlagInv (checked_after checked [ev]) (HubV2.step ev s).1
      (if starts_monitor (s, ev) then 0 else if sends_stop (s, ev) then n + 1 else n) := by
  by_cases hh : s.halted.isSome = true
  · -- a halted process takes no step
    have hstep : HubV2.step ev s = (s, []) := by simp [HubV2.step, hh]
    have hst : starts_monitor (s, ev) = false := by
      cases hb : starts_monitor (s, ev) with
      | false => rfl
      | true =>
        have := (starts_monitor_iff s ev).1 hb
        rw [hstep] at this
        dsimp only at this
        omega
    have hsd : sends_stop (s, ev) = false := by
      cases ev with
      | check => rfl
      | sigchld r => rfl
      | input o i =>
        cases i with
        | eof => rfl
        | error => rfl
        | line cmd =>
          cases hb : sends_stop (s, Event.input o (Input.line cmd)) with
          | false => rfl
          | true =>
            have := ((sends_stop_iff s o cmd).1 hb).2
            rw [hstep] at this
            simp at this
    rw [hst, hsd, hstep]
    simp only [Bool.false_eq_true, if_false]
    refine flag_inv_same checked _ s s n hJ rfl rfl rfl ?_
    intro a b
    have := (hJ.2.2.2.2.1 a b).2.2
    rw [this] at hh
    simp at hh
  · have hnone : s.halted = none := by
      cases hx : s.halted with
      | none => rfl
      | some x => simp [hx] at hh
    obtain ⟨j1, j2, j3, j4, j5, j6⟩ := hJ
    cases ev with
    | check =>
      have hck : checked = false := by
        cases checked with
        | false => rfl
        | true => simp [scheduled] at hsch
      have hst : starts_monitor (s, Event.check) = false := by
        cases hb : starts_monitor (s, Event.check) with
        | false => rfl
        | true =>
          have := (starts_monitor_iff s Event.check).1 hb
          have hc := v2_check_step s
          by_cases hx : s.child_exited ≠ 0
          · rw [hc.1 hnone hx] at this
            simp only at this
            omega
          · rw [hc.2.1 hnone (by simpa using hx)] at this
            dsimp only at this
            omega
      have hsd : sends_stop (s, Event.check) = false := rfl
      rw [hst, hsd]
      simp only [Bool.false_eq_true, if_false, checked_after]
      have hc := v2_check_step s
      by_cases hx : s.child_exited ≠ 0
      · rw [hc.1 hnone hx]
        refine ⟨j1, j2, ?_, ?_, ?_, ?_⟩
        · intro a b
          have := (j5 a hx).2.1
          omega
        · intro _ b
          exact absurd rfl b
        · intro _ b
          exact absurd rfl b
        · intro _ b
          exact absurd rfl b
      · have hx0 : s.child_exited = 0 := by simpa using hx
        rw [hc.2.1 hnone hx0]
        exact ⟨j1, j2, j3, j4, fun _ b => absurd hx0 b, j6⟩
    | sigchld reaped =>
      have hsd : sends_stop (s, Event.sigchld reaped) = false := rfl
      have hstep : HubV2.step (Event.sigchld reaped) s = HubV2.handle_sigchld reaped s := by
        simp [HubV2.step, hnone]
      have hst : starts_monitor (s, Event.sigchld reaped) = false := by
        cases hb : starts_monitor (s, Event.sigchld reaped) with
        | false => rfl
        | true =>
          have := (starts_monitor_iff s (Event.sigchld reaped)).1 hb
          rw [hstep] at this
          rcases handle_sigchld_whole reaped s with h | ⟨hp, status, -, h2, -⟩
          · rw [h.1] at this
            dsimp only at this
            omega
          · rw [h2] at this
            simp only [Hub.reaped] at this
            omega
      rw [hst, hsd, hstep]
      simp only [Bool.false_eq_true, if_false, checked_after]
      rcases handle_sigchld_whole reaped s with h | ⟨hp, status, -, h2, -⟩
      · rw [h.1]
        exact ⟨j1, j2, j3, j4, j5, j6⟩
      · rw [h2]
        refine ⟨by simp [Hub.reaped], j2, ?_, ?_, ?_, ?_⟩
        · intro a
          simp only [Hub.reaped] at a
          omega
        · intro a
          simp only [Hub.reaped] at a
          omega
        · intro a
          simp only [Hub.reaped] at a
          omega
        · intro _ _
          simp [Hub.reaped]
    | input o i =>
      have hck : checked = true := by
        cases checked with
        | true => rfl
        | false => simp [scheduled] at hsch
      subst hck
      have hquiet : 0 < s.monitor_pid → s.child_exited = 0 := by
        intro a
        by_contra b
        have := (j5 a b).1
        cases this
      cases i with
      | eof =>
        have hstep : (HubV2.step (Event.input o Input.eof) s).1
            = { s with halted := some (Halt.exit 0) } := by
          simp [HubV2.step, hnone]
        have hst : starts_monitor (s, Event.input o Input.eof) = false := by
          cases hb : starts_monitor (s, Event.input o Input.eof) with
          | false => rfl
          | true =>
            have := (starts_monitor_iff s _).1 hb
            rw [hstep] at this
            simp only at this
            omega
        have hsd : sends_stop (s, Event.input o Input.eof) = false := rfl
        rw [hst, hsd, hstep]
        simp only [Bool.false_eq_true, if_false, checked_after]
        exact ⟨j1, j2, j3, j4, fun a b => absurd (hquiet a) b, j6⟩
      | error =>
        have hstep : (HubV2.step (Event.input o Input.error) s).1 = s := by
          simp [HubV2.step, hnone]
        have hst : starts_monitor (s, Event.input o Input.error) = false := by
          cases hb : starts_monitor (s, Event.input o Input.error) with
          | false => rfl
          | true =>
            have := (starts_monitor_iff s _).1 hb
            rw [hstep] at this
            omega
        have hsd : sends_stop (s, Event.input o Input.error) = false := rfl
        rw [hst, hsd, hstep]
        simp only [Bool.false_eq_true, if_false, checked_after]
        exact ⟨j1, j2, j3, j4, fun a b => absurd (hquiet a) b, j6⟩
      | line cmd =>
        have hstep : HubV2.step (Event.input o (Input.line cmd)) s
            = HubV2.process_command o cmd s := by
          simp [HubV2.step, hnone]
        have hsti := starts_monitor_iff s (Event.input o (Input.line cmd))
        have hsdi := sends_stop_iff s o cmd
        rw [hstep] at hsti hsdi
        rw [hstep]
        simp only [checked_after]
        rcases v2_line_summary o cmd s j1 with u | u | u
        · obtain ⟨up, ue, uc, uk⟩ := u
          have hst : starts_monitor (s, Event.input o (Input.line cmd)) = false := by
            cases hb : starts_monitor (s, Event.input o (Input.line cmd)) with
            | false => rfl
            | true =>
              have := hsti.1 hb
              rw [up] at this
              omega
          have hsd : sends_stop (s, Event.input o (Input.line cmd)) = false := by
            cases hb : sends_stop (s, Event.input o (Input.line cmd)) with
            | false => rfl
            | true => exact absurd (hsdi.1 hb) uk
          rw [hst, hsd]
          simp only [Bool.false_eq_true, if_false]
          unfold FlagInv
          rw [up, ue, uc]
          exact ⟨j1, j2, j3, j4, fun a b => absurd (hquiet a) b, j6⟩
        · obtain ⟨ule, upos, ue, uc, uh⟩ := u
          have hst : starts_monitor (s, Event.input o (Input.line cmd)) = true :=
            hsti.2 ⟨ule, upos⟩
          rw [hst]
          simp only [if_true]
          unfold FlagInv
          rw [ue, uc, uh]
          refine ⟨by omega, by omega, ?_, ?_, ?_, ?_⟩
          · intro _ b
            exact absurd b (by decide)
          · intro _ b _
            exact j6 ule b
          · intro _ _
            exact ⟨rfl, rfl, hnone⟩
          · intro a
            omega
        · obtain ⟨upos, ue0, up, ue, uc, utok, uk⟩ := u
          have hst : starts_monitor (s, Event.input o (Input.line cmd)) = false := by
            cases hb : starts_monitor (s, Event.input o (Input.line cmd)) with
            | false => rfl
            | true =>
              have := hsti.1 hb
              omega
          have hsd : sends_stop (s, Event.input o (Input.line cmd)) = true :=
            hsdi.2 ⟨utok, uk⟩
          have hn0 : n = 0 := by
            by_contra hn
            have : n = 1 := by omega
            exact j3 upos this ue0
          rw [hst, hsd, hn0]
          simp only [Bool.false_eq_true, if_false, if_true]
          unfold FlagInv
          rw [up, ue, uc]
          refine ⟨j1, by omega, ?_, ?_, ?_, ?_⟩
          · intro _ _
            decide
          · intro _ _ b
            omega
          · intro a b
            exact absurd (hquiet a) b
          · intro a
            omega

theorem scheduled_cons (checked : Bool) (ev : Event) (evs : List Event) :
    scheduled checked (ev :: evs) = true ↔
      scheduled checked [ev] = true ∧ scheduled (checked_after checked [ev]) evs = true := by
  cases ev <;> cases checked <;> simp [scheduled, checked_after]

theorem checked_after_cons (checked : Bool) (ev : Event) (evs : List Event) :
    checked_after checked (ev :: evs) = checked_after (checked_after checked [ev]) evs := by
  cases ev <;> simp [checked_after]

theorem run_flag_inv (evs : List Event) (checked : Bool) (s : Hub) (n : Nat)
    (hJ : FlagInv checked s n) (hsch : scheduled checked evs = true) :
    FlagInv (checked_after checked evs) (HubV2.run evs s).1 (stops_sent evs s n) := by
  induction evs generalizing checked s n with
  | nil => exact hJ
  | cons ev evs ih =>
    have h := (scheduled_cons checked ev evs).1 hsch
    rw [checked_after_cons]
    simp only [HubV2.run, stops_sent]
    exact ih _ _ _ (step_flag_inv ev checked s n hJ h.1) h.2

theorem scheduled_before_input (evs : List Event) (checked : Bool) (o : Oracle) (i : Input)
    (h : scheduled checked (evs ++ [Event.input o i]) = true) :
    scheduled checked evs = true ∧ checked_after checked evs = true := by
  induction evs generalizing checked with
  | nil =>
    cases checked with
    | true => exact ⟨rfl, rfl⟩
    | false => simp [scheduled] at h
  | cons ev evs ih =>
    rw [List.cons_append] at h
    have h2 := (scheduled_cons checked ev (evs ++ [Event.input o i])).1 h
    have h3 := ih _ h2.2
    exact ⟨(scheduled_cons checked ev evs).2 ⟨h2.1, h3.1⟩,
      by rw [checked_after_cons]; exact h3.2⟩

theorem init_flag_inv (chan : Channel) : FlagInv false (Hub.init chan) 0 := by
  unfold FlagInv Hub.init
  simp

/-- C18: in every run of the Hub from its initial state that follows the order of
`main` (the loop-top check before every read of input, child-exit signals anywhere),
at every point where the Hub is about to process an input line while a monitor is
recorded (`monitor_pid > 0`), `monitor_exiting` is set if and only if a stop has been
sent to that very monitor: so a monitor to which no stop was sent is never taken as
exiting because of a flag left by its predecessor; and at any point of such a run at
most one stop has been sent to the recorded monitor. -/
theorem exiting_flag_tracks_stops (chan : Channel) (evs : List Event) :
    (scheduled false evs = true → stops_sent evs (Hub.init chan) 0 ≤ 1) ∧
    (∀ (o : Oracle) (i : Input), scheduled false (evs ++ [Event.input o i]) = true →
      0 < (HubV2.run evs (Hub.init chan)).1.monitor_pid →
      ((HubV2.run evs (Hub.init chan)).1.monitor_exiting ≠ 0 ↔
        stops_sent evs (Hub.init chan) 0 = 1)) := by
  constructor
  · intro h
    exact (run_flag_inv evs false _ 0 (init_flag_inv chan) h).2.1
  · intro o i h hp
    have hs := scheduled_before_input evs false o i h
    have hJ := run_flag_inv evs false _ 0 (init_flag_inv chan) hs.1
    rw [hs.2] at hJ
    obtain ⟨-, j2, j3, j4, j5, -⟩ := hJ
    constructor
    · intro he
      by_contra hn
      have hn0 : stops_sent evs (Hub.init chan) 0 = 0 := by omega
      have := (j5 hp (j4 hp he hn0)).1
      cases this
    · intro hn
      exact j3 hp hn

/-- Witness for C18: monitor 8, started in the window after monitor 7 was stopped and
reaped, is not exiting when the next line is processed, and no stop was sent to it. -/
theorem exiting_flag_tracks_stops_witness :
    (HubV2.run
        [Event.check, Event.input (Oracle.ok 7) (Input.line "start_monitor\n".toList),
         Event.check, Event.input (Oracle.ok 7) (Input.line "stop_monitor\n".toList),
         Event.check, Event.sigchld [(7, WStatus.exited 0)],
         Event.input (Oracle.ok 8) (Input.line "start_monitor\n".toList), Event.check]
        (Hub.init ⟨none, none⟩)).1.monitor_exiting ≠ 0 ↔
    stops_sent
        [Event.check, Event.input (Oracle.ok 7) (Input.line "start_monitor\n".toList),
         Event.check, Event.input (Oracle.ok 7) (Input.line "stop_monitor\n".toList),
         Event.check, Event.sigchld [(7, WStatus.exited 0)],
         Event.input (Oracle.ok 8) (Input.line "start_monitor\n".toList), Event.check]
        (Hub.init ⟨none, none⟩) 0 = 1 :=
  (exiting_flag_tracks_stops ⟨none, none⟩
    [Event.check, Event.input (Oracle.ok 7) (Input.line "start_monitor\n".toList),
     Event.check, Event.input (Oracle.ok 7) (Input.line "stop_monitor\n".toList),
     Event.check, Event.sigchld [(7, WStatus.exited 0)],
     Event.input (Oracle.ok 8) (Input.line "start_monitor\n".toList), Event.check]).2
    (Oracle.ok 8) (Input.line "list_hunts\n".toList) (by decide) (by decide)

/-! ### The score calculator -/

theorem int32_of_range (x : Int) (h1 : -2147483648 ≤ x) (h2 : x < 2147483648) :
    int32 x = x := by
  unfold int32
  omega

theorem strtok_with_field (a rest : List Char) (ha : a ≠ []) (hc : COMMA ∉ a) :
    strtok_with COMMA (a ++ COMMA :: rest) = some (a, rest) ∧
    strtok_with COMMA a = some (a, []) := by
  have hne : ∀ c ∈ a, (c == COMMA) = false := by
    intro c hm
    have : c ≠ COMMA := fun e => hc (e ▸ hm)
    simpa using this
  have hne2 : ∀ c ∈ a, (c != COMMA) = true := by
    intro c hm
    simp [bne, hne c hm]
  have d1 : (a ++ COMMA :: rest).dropWhile (fun c => c == COMMA) = a ++ COMMA :: rest := by
    cases a with
    | nil => exact absurd rfl ha
    | cons c cs => simp [List.dropWhile_cons, hne c (by simp)]
  have d2 : a.dropWhile (fun c => c == COMMA) = a :=
    dropWhile_head_stop _ a ha hne
  have k := takeWhile_append_stop (fun c => c != COMMA) a COMMA rest hne2 (by simp)
  have k2 := takeWhile_all (fun c => c != COMMA) a hne2
  constructor
  · simp only [strtok_with, d1, k.1, k.2]
    simp
  · simp only [strtok_with, d2, k2.1, k2.2]
    simp [ha]

theorem strtok_with_nil : strtok_with COMMA [] = none := by
  simp [strtok_with]

theorem join_fields_clean (fields : List (List Char)) (h : ∀ f ∈ fields, Field f) :
    NL ∉ join_fields fields ∧ NUL ∉ join_fields fields := by
  induction fields with
  | nil => simp [join_fields]
  | cons a rest ih =>
    have ha := h a (by simp)
    have ih2 := ih (fun f hf => h f (by simp [hf]))
    cases rest with
    | nil => exact ⟨ha.2.2.1, ha.2.2.2.1⟩
    | cons b more =>
      simp only [join_fields, List.mem_append, List.mem_cons, not_or]
      have c1 : NL ≠ COMMA := by decide
      have c2 : NUL ≠ COMMA := by decide
      exact ⟨⟨ha.2.2.1, c1, ih2.1⟩, ⟨ha.2.2.2.1, c2, ih2.2⟩⟩

/-- The line that the loop body works on is the text before the newline. -/
theorem line_of_render (l : ScoreLine) (h : ∀ f ∈ l.fields, Field f) :
    (cstr l.render).takeWhile (fun c => c != NL) = join_fields l.fields := by
  have hc := join_fields_clean l.fields h
  have hnl : ∀ c ∈ join_fields l.fields, (c != NL) = true := by
    intro c hm
    have : c ≠ NL := fun e => hc.1 (e ▸ hm)
    simpa using this
  have hnul : ∀ c ∈ join_fields l.fields, (c != NUL) = true := by
    intro c hm
    have : c ≠ NUL := fun e => hc.2 (e ▸ hm)
    simpa using this
  unfold ScoreLine.render cstr
  cases l.newline with
  | false =>
    simp only [Bool.false_eq_true, if_false, List.append_nil]
    rw [(takeWhile_all _ _ hnul).1, (takeWhile_all _ _ hnl).1]
  | true =>
    simp only [if_true]
    have e1 : (join_fields l.fields ++ [NL]).takeWhile (fun c => c != NUL)
        = join_fields l.fields ++ [NL] := by
      apply (takeWhile_all _ _ _).1
      intro c hm
      simp only [List.mem_append, List.mem_singleton] at hm
      rcases hm with hm | hm
      · exact hnul c hm
      · subst hm; decide
    rw [e1]
    exact (takeWhile_append_stop _ _ NL [] hnl (by simp)).1

theorem parse_item_render (l : ScoreLine) (h : l.Valid) :
    Score.parse_item l.render =
      match l.fields with
      | [name, value, owner] => some ⟨name, int32 (atoi value), owner⟩
      | _ => none := by
  obtain ⟨hlen, hf⟩ := h
  unfold Score.parse_item
  rw [line_of_render l hf]
  match hfs : l.fields with
  | [] => simp [join_fields]
  | [a] =>
    have fa := hf a (by simp [hfs])
    have s1 := (strtok_with_field a [] fa.1 fa.2.1).2
    simp [join_fields, fa.1, s1, strtok_with_nil]
  | [a, b] =>
    have fa := hf a (by simp [hfs])
    have fb := hf b (by simp [hfs])
    have s1 := (strtok_with_field a b fa.1 fa.2.1).1
    have s2 := (strtok_with_field b [] fb.1 fb.2.1).2
    simp [join_fields, s1, s2, strtok_with_nil, fa.1]
  | [a, b, c] =>
    have fa := hf a (by simp [hfs])
    have fb := hf b (by simp [hfs])
    have fc := hf c (by simp [hfs])
    have s1 := (strtok_with_field a (b ++ COMMA :: c) fa.1 fa.2.1).1
    have s2 := (strtok_with_field b c fb.1 fb.2.1).1
    have s3 := (strtok_with_field c [] fc.1 fc.2.1).2
    simp [join_fields, s1, s2, s3, fa.1]
  | _ :: _ :: _ :: _ :: _ =>
    rw [hfs] at hlen
    simp at hlen

theorem entries_cons_three (l : ScoreLine) (ls : List ScoreLine) (n v o : List Char)
    (h : l.fields = [n, v, o]) : entries (l :: ls) = ⟨n, atoi v, o⟩ :: entries ls := by
  simp only [entries, h]

theorem entries_cons_other (l : ScoreLine) (ls : List ScoreLine)
    (h : ∀ n v o, l.fields ≠ [n, v, o]) : entries (l :: ls) = entries ls := by
  rw [entries]
  split
  · rename_i n v o hf
    exact absurd hf (h n v o)
  · rfl

/-- The read loop stores one item for every line with three fields, in order, and
records the owners one after the other, as long as the lines fit the item array. -/
theorem read_loop_render (lines : List ScoreLine) (items : List Item) (users : List User)
    (hv : ∀ l ∈ lines, l.Valid) (hlen : items.length + lines.length ≤ MAX_ITEMS) :
    Score.read_loop (lines.map ScoreLine.render) items users =
      (items ++ (entries lines).map (fun i => ⟨i.name, int32 i.value, i.owner⟩),
        ((entries lines).map Item.owner).foldl Score.record_user users) := by
  induction lines generalizing items users with
  | nil => simp [Score.read_loop, entries]
  | cons l ls ih =>
    have hl := hv l (by simp)
    have hls : ∀ x ∈ ls, x.Valid := fun x hx => hv x (by simp [hx])
    simp only [List.map_cons, Score.read_loop]
    rw [parse_item_render l hl]
    simp only [List.length_cons] at hlen
    match hfs : l.fields with
    | [n, v, o] =>
      rw [entries_cons_three l ls n v o hfs]
      simp only
      by_cases hfull : (items ++ [(⟨n, int32 (atoi v), o⟩ : Item)]).length ≥ MAX_ITEMS
      · rw [if_pos hfull]
        have : ls = [] := by
          simp only [List.length_append, List.length_singleton] at hfull
          have : ls.length = 0 := by omega
          exact List.length_eq_zero.mp this
        subst this
        simp [entries]
      · rw [if_neg hfull]
        rw [ih _ _ hls (by simp only [List.length_append, List.length_singleton]; omega)]
        simp
    | [] =>
      rw [entries_cons_other l ls (by intro n v o h; rw [hfs] at h; cases h)]
      exact ih _ _ hls (by omega)
    | [a] =>
      rw [entries_cons_other l ls (by intro n v o h; rw [hfs] at h; cases h)]
      exact ih _ _ hls (by omega)
    | [a, b] =>
      rw [entries_cons_other l ls (by intro n v o h; rw [hfs] at h; cases h)]
      exact ih _ _ hls (by omega)
    | _ :: _ :: _ :: _ :: _ =>
      have := hl.1
      rw [hfs] at this
      simp at this

theorem first_appearances_filter (p : List Char → Bool) (l : List (List Char)) :
    first_appearances (l.filter p) = (first_appearances l).filter p := by
  induction l with
  | nil => rfl
  | cons x xs ih =>
    by_cases hp : p x = true
    · simp only [List.filter_cons, hp, if_true, first_appearances, ih, List.filter_filter]
      congr 1
      apply List.filter_congr
      intro y _
      exact Bool.and_comm _ _
    · have hp' : p x = false := by simpa using hp
      simp only [List.filter_cons, hp', Bool.false_eq_true, if_false, first_appearances, ih,
        List.filter_filter]
      apply List.filter_congr
      intro y _
      by_cases hy : p y = true
      · have : y ≠ x := fun e => by rw [e] at hy; exact hp hy
        simp [hy, this]
      · have hy' : p y = false := by simpa using hy
        simp [hy']

/-- The users recorded for a sequence of owners: the owners that are new and not
`none`, in the order of first appearance, each with score 0. -/
theorem record_users (owners : List (List Char)) (users : List User) :
    owners.foldl Score.record_user users =
      users ++ (first_appearances (owners.filter
          (fun o => o != "none".toList && !(users.any (fun u => u.name == o))))).map
        (fun o => ⟨o, 0⟩) := by
  induction owners generalizing users with
  | nil => simp [first_appearances]
  | cons o rest ih =>
    simp only [List.foldl_cons]
    rw [ih]
    by_cases hold : (users.any (fun u => u.name == o) || o == "none".toList) = true
    · have hr : Score.record_user users o = users := by
        simp only [Score.record_user, hold, if_true]
      have hf : (o != "none".toList && !(users.any (fun u => u.name == o))) = false := by
        rcases Bool.or_eq_true _ _ |>.mp hold with h | h
        · simp [h]
        · have : o = "none".toList := by simpa using h
          simp [this]
      rw [hr]
      simp only [List.filter_cons, hf, Bool.false_eq_true, if_false]
    · have hold' : (users.any (fun u => u.name == o) || o == "none".toList) = false := by
        simpa using hold
      have hr : Score.record_user users o = users ++ [⟨o, 0⟩] := by
        simp only [Score.record_user, hold', Bool.false_eq_true, if_false]
      have hparts := Bool.or_eq_false_iff.mp hold'
      have hf : (o != "none".toList && !(users.any (fun u => u.name == o))) = true := by
        have h2 : (o == "none".toList) = false := hparts.2
        rw [Bool.and_eq_true]
        exact ⟨by simp only [bne, h2, Bool.not_false], by simp only [hparts.1, Bool.not_false]⟩
      rw [hr]
      simp only [List.filter_cons, hf, if_true, first_appearances, List.map_cons,
        List.append_assoc, List.singleton_append]
      have key : rest.filter (fun x => x != "none".toList &&
            !((users ++ [(⟨o, 0⟩ : User)]).any (fun u => u.name == x)))
          = (rest.filter (fun x => x != "none".toList &&
              !(users.any (fun u => u.name == x)))).filter (fun y => y != o) := by
        rw [List.filter_filter]
        apply List.filter_congr
        intro y _
        simp only [List.any_append, List.any_cons, List.any_nil, Bool.or_false, Bool.not_or]
        by_cases hy : y = o
        · subst hy
          simp
        · have h1 : (o == y) = false := by
            simpa using fun e : o = y => hy e.symm
          have h2 : (y != o) = true := by simpa using hy
          simp [h1, h2]
      rw [key, first_appearances_filter]

theorem total_cons (i : Item) (items : List Item) (o : List Char) :
    total (i :: items) o = (if i.owner = o then i.value else 0) + total items o := by
  unfold total
  by_cases h : i.owner = o
  · simp [List.filter_cons, h]
  · simp [List.filter_cons, h]

/-- Without overflow the inner loop adds up the values of the items of the user. -/
theorem add_scores_total (items : List Item) (o : List Char) (acc : Int)
    (h : acc.natAbs + (items.map (fun item => item.value.natAbs)).sum < 2147483648) :
    Score.add_scores items ⟨o, acc⟩ = ⟨o, acc + total items o⟩ := by
  induction items generalizing acc with
  | nil => simp [Score.add_scores, total]
  | cons i rest ih =>
    simp only [List.map_cons, List.sum_cons] at h
    rw [total_cons]
    unfold Score.add_scores
    simp only [List.foldl_cons]
    by_cases ho : i.owner = o
    · simp only [ho, if_true]
      have hr : int32 (acc + i.value) = acc + i.value := by
        apply int32_of_range <;> omega
      rw [hr]
      have := ih (acc + i.value) (by omega)
      unfold Score.add_scores at this
      rw [this, add_assoc]
    · simp only [ho, if_false]
      have := ih acc (by omega)
      unfold Score.add_scores at this
      rw [this]
      simp

theorem values_fit (items : List Item) (h : NoOverflow items) :
    items.map (fun i => (⟨i.name, int32 i.value, i.owner⟩ : Item)) = items := by
  unfold NoOverflow at h
  induction items with
  | nil => rfl
  | cons i rest ih =>
    simp only [List.map_cons, List.sum_cons] at h
    have hr : int32 i.value = i.value := by
      apply int32_of_range <;> omega
    simp only [List.map_cons, hr]
    rw [ih (by omega)]

theorem mem_first_appearances (l : List (List Char)) (x : List Char) :
    x ∈ first_appearances l ↔ x ∈ l := by
  induction l with
  | nil => simp [first_appearances]
  | cons y ys ih =>
    simp only [first_appearances, List.mem_cons, List.mem_filter, ih]
    constructor
    · rintro (h | ⟨h, -⟩)
      · exact Or.inl h
      · exact Or.inr h
    · rintro (h | h)
      · exact Or.inl h
      · by_cases e : x = y
        · exact Or.inl e
        · exact Or.inr ⟨h, by simpa using e⟩

theorem nodup_first_appearances (l : List (List Char)) : (first_appearances l).Nodup := by
  induction l with
  | nil => simp [first_appearances]
  | cons y ys ih =>
    simp only [first_appearances, List.nodup_cons, List.mem_filter]
    refine ⟨?_, ih.filter _⟩
    rintro ⟨-, h⟩
    simp at h

/-- The item and user counts stay within the arrays, for any input. -/
theorem read_loop_bounds (input : List (List Char)) (items : List Item) (users : List User)
    (hu : users.length ≤ items.length) (hi : items.length < MAX_ITEMS) :
    (Score.read_loop input items users).2.length
        ≤ (Score.read_loop input items users).1.length ∧
    (Score.read_loop input items users).1.length ≤ MAX_ITEMS := by
  induction input generalizing items users with
  | nil => exact ⟨hu, Nat.le_of_lt hi⟩
  | cons buf more ih =>
    unfold Score.read_loop
    cases Score.parse_item buf with
    | none => exact ih items users hu hi
    | some item =>
      have hrec : (Score.record_user users item.owner).length ≤ users.length + 1 := by
        unfold Score.record_user
        split <;> simp
      simp only
      split
      · simp only [List.length_append, List.length_singleton]
        exact ⟨by omega, by omega⟩
      · rename_i hfull
        apply ih
        · simp only [List.length_append, List.length_singleton]
          omega
        · simp only [List.length_append, List.length_singleton, ge_iff_le, not_le] at hfull ⊢
          exact hfull

/-- C20, as stated, fails: two items of value 2000000000 for the same owner are within
the stated form, but their sum does not fit the `int` that holds the score; the line
printed shows -294967296, not the sum 4000000000. -/
theorem score_sum_overflows :
    Score.calculate_scores
        ([⟨["gold".toList, "2000000000".toList, "ann".toList], true⟩,
          ⟨["ruby".toList, "2000000000".toList, "ann".toList], true⟩].map ScoreLine.render)
      = ["===== USER SCORES =====\n".toList, "ann: -294967296 points\n".toList] ∧
    expected_output (entries
        [⟨["gold".toList, "2000000000".toList, "ann".toList], true⟩,
         ⟨["ruby".toList, "2000000000".toList, "ann".toList], true⟩])
      = ["===== USER SCORES =====\n".toList, "ann: 4000000000 points\n".toList] := by
  decide

/-- C20 (amended): for every input of at most 100 lines, each with at most three non-empty
comma-free fields shorter than 128 bytes, whose values add up without leaving the
range of `int`: `calculate_scores` prints the header and then exactly one line for
every distinct owner other than `none`, in the order of first appearance, with the sum
of the values of all items of that owner (and the notice when there is no such
owner); lines with fewer than three fields contribute nothing; and the number of
users never exceeds the number of items, which never exceeds 100. -/
theorem scores_per_owner (lines : List ScoreLine) (hlen : lines.length ≤ 100)
    (hv : ∀ l ∈ lines, l.Valid) (hno : NoOverflow (entries lines)) :
    Score.calculate_scores (lines.map ScoreLine.render) = expected_output (entries lines) ∧
    (owners_in_order (entries lines)).Nodup ∧
    (∀ o, o ∈ owners_in_order (entries lines) ↔
      o ≠ "none".toList ∧ ∃ i ∈ entries lines, i.owner = o) ∧
    (Score.read_loop (lines.map ScoreLine.render) [] []).2.length
      ≤ (Score.read_loop (lines.map ScoreLine.render) [] []).1.length ∧
    (Score.read_loop (lines.map ScoreLine.render) [] []).1.length ≤ MAX_ITEMS := by
  have hb := read_loop_bounds (lines.map ScoreLine.render) [] [] (le_refl _)
    (by simp [MAX_ITEMS])
  refine ⟨?_, nodup_first_appearances _, ?_, hb.1, hb.2⟩
  · have hloop := read_loop_render lines [] [] hv (by simpa [MAX_ITEMS] using hlen)
    rw [values_fit _ hno, record_users] at hloop
    have hfilter : ((entries lines).map Item.owner).filter
          (fun o => o != "none".toList && !(([] : List User).any (fun u => u.name == o)))
        = ((entries lines).map Item.owner).filter (fun o => o != "none".toList) := by
      apply List.filter_congr
      intro o _
      simp
    rw [hfilter] at hloop
    simp only [List.nil_append] at hloop
    have hscored : ((owners_in_order (entries lines)).map
          (fun o => (⟨o, 0⟩ : User))).map (Score.add_scores (entries lines))
        = (owners_in_order (entries lines)).map
          (fun o => (⟨o, total (entries lines) o⟩ : User)) := by
      rw [List.map_map]
      apply List.map_congr_left
      intro o _
      have := add_scores_total (entries lines) o 0 (by
        unfold NoOverflow at hno
        simpa using hno)
      simpa using this
    unfold Score.calculate_scores expected_output
    rw [hloop]
    simp only
    have hown : first_appearances (((entries lines).map Item.owner).filter
        (fun o => o != "none".toList)) = owners_in_order (entries lines) := rfl
    rw [hown, hscored]
    simp only [List.map_map, List.length_map, List.length_eq_zero]
    rfl
  · intro o
    unfold owners_in_order
    rw [mem_first_appearances]
    simp only [List.mem_filter, List.mem_map, bne_iff_ne, ne_eq]
    constructor
    · rintro ⟨⟨i, hi, rfl⟩, hn⟩
      exact ⟨hn, i, hi, rfl⟩
    · rintro ⟨hn, i, hi, rfl⟩
      exact ⟨⟨i, hi, rfl⟩, hn⟩

/-- Witness for C20: five lines, one of them short and one owned by `none`. -/
theorem scores_per_owner_witness :
    Score.calculate_scores
        ([⟨["gold".toList, "10".toList, "ann".toList], true⟩,
          ⟨["map".toList, "5".toList, "none".toList], true⟩,
          ⟨["bad".toList], true⟩,
          ⟨["ruby".toList, "7".toList, "bob".toList], true⟩,
          ⟨["coin".toList, "-3".toList, "ann".toList], false⟩].map ScoreLine.render)
      = ["===== USER SCORES =====\n".toList, "ann: 7 points\n".toList,
         "bob: 7 points\n".toList] :=
  (scores_per_owner
    [⟨["gold".toList, "10".toList, "ann".toList], true⟩,
     ⟨["map".toList, "5".toList, "none".toList], true⟩,
     ⟨["bad".toList], true⟩,
     ⟨["ruby".toList, "7".toList, "bob".toList], true⟩,
     ⟨["coin".toList, "-3".toList, "ann".toList], false⟩]
    (by decide) (by decide) (by decide)).1


/-! ### The treasure file -/

theorem max_id_loop_ge (records : List Treasure) (m : Int) :
    m ≤ Manager.max_id_loop m records := by
  induction records generalizing m with
  | nil => simp [Manager.max_id_loop]
  | cons t rest ih =>
    rw [Manager.max_id_loop]
    split
    · rename_i h
      exact le_trans (le_of_lt h.2) (ih _)
    · exact ih _

theorem max_id_loop_bound (records : List Treasure) (m : Int) (t : Treasure)
    (ht : t ∈ records) (hact : t.active = true) : t.id ≤ Manager.max_id_loop m records := by
  induction records generalizing m with
  | nil => simp at ht
  | cons u rest ih =>
    rw [Manager.max_id_loop]
    rcases List.mem_cons.1 ht with rfl | hmem
    · have hne : t.is_active ≠ 0 := by simpa [Treasure.active] using hact
      split
      · exact max_id_loop_ge rest _
      · rename_i h
        have : ¬ t.id > m := fun hgt => h ⟨hne, hgt⟩
        exact le_trans (not_lt.1 this) (max_id_loop_ge rest _)
    · exact ih _ hmem

theorem max_id_loop_mem (records : List Treasure) (m : Int) :
    Manager.max_id_loop m records = m ∨
      ∃ t ∈ records, t.active = true ∧ t.id = Manager.max_id_loop m records := by
  induction records generalizing m with
  | nil => left; simp [Manager.max_id_loop]
  | cons u rest ih =>
    rw [Manager.max_id_loop]
    split
    · rename_i h
      rcases ih u.id with h1 | ⟨t, ht, hact, hid⟩
      · right
        exact ⟨u, List.mem_cons_self _ _, by simpa [Treasure.active] using h.1, h1.symm⟩
      · right
        exact ⟨t, List.mem_cons_of_mem _ ht, hact, hid⟩
    · rcases ih m with h1 | ⟨t, ht, hact, hid⟩
      · left; exact h1
      · right
        exact ⟨t, List.mem_cons_of_mem _ ht, hact, hid⟩

theorem max_id_loop_append (xs ys : List Treasure) (m : Int) :
    Manager.max_id_loop m (xs ++ ys) = Manager.max_id_loop (Manager.max_id_loop m xs) ys := by
  induction xs generalizing m with
  | nil => simp [Manager.max_id_loop]
  | cons u rest ih =>
    rw [List.cons_append, Manager.max_id_loop, Manager.max_id_loop]
    exact ih _

theorem mem_active_ids (file : Option (List Treasure)) (i : Int) :
    i ∈ active_ids file ↔ ∃ t ∈ file.getD [], t.active = true ∧ t.id = i := by
  simp [active_ids, List.mem_map, List.mem_filter, and_assoc]

theorem active_ids_getD (file : Option (List Treasure)) :
    active_ids (some (file.getD [])) = active_ids file := by
  cases file <;> rfl

theorem active_ids_append (xs ys : List Treasure) :
    active_ids (some (xs ++ ys)) = active_ids (some xs) ++ active_ids (some ys) := by
  simp [active_ids]

theorem set_at_split (pre post : List Treasure) (t u : Treasure) :
    (pre ++ t :: post).set pre.length u = pre ++ u :: post := by
  induction pre with
  | nil => rfl
  | cons a rest ih => simp [List.set, ih]

theorem find_treasure_none (treasure_id : Int) (records : List Treasure) (p : Nat) :
    Manager.find_treasure treasure_id records p = none ↔
      ∀ t ∈ records, ¬ (t.active = true ∧ t.id = treasure_id) := by
  induction records generalizing p with
  | nil => simp [Manager.find_treasure]
  | cons u rest ih =>
    rw [Manager.find_treasure]
    split
    · rename_i h
      constructor
      · intro h0; cases h0
      · intro hall
        exact absurd ⟨by simpa [Treasure.active] using h.1, h.2⟩
          (hall u (List.mem_cons_self _ _))
    · rename_i h
      rw [ih]
      constructor
      · intro hall t ht
        rcases List.mem_cons.1 ht with rfl | hmem
        · intro hh
          exact h ⟨by simpa [Treasure.active] using hh.1, hh.2⟩
        · exact hall t hmem
      · intro hall t ht
        exact hall t (List.mem_cons_of_mem _ ht)

theorem find_treasure_some (treasure_id : Int) (records : List Treasure) (p q : Nat)
    (t : Treasure) (h : Manager.find_treasure treasure_id records p = some (q, t)) :
    ∃ pre post, records = pre ++ t :: post ∧ q = p + pre.length ∧
      (∀ u ∈ pre, ¬ (u.active = true ∧ u.id = treasure_id)) ∧
      t.active = true ∧ t.id = treasure_id := by
  induction records generalizing p with
  | nil => simp [Manager.find_treasure] at h
  | cons u rest ih =>
    rw [Manager.find_treasure] at h
    split at h
    · rename_i hu
      simp only [Option.some.injEq, Prod.mk.injEq] at h
      obtain ⟨rfl, rfl⟩ := h
      exact ⟨[], rest, rfl, rfl, by simp, by simpa [Treasure.active] using hu.1, hu.2⟩
    · rename_i hu
      obtain ⟨pre, post, hrec, hq, hpre, hact, hid⟩ := ih (p + 1) h
      refine ⟨u :: pre, post, by rw [hrec]; rfl, by rw [hq, List.length_cons]; omega, ?_,
        hact, hid⟩
      intro v hv
      rcases List.mem_cons.1 hv with rfl | hmem
      · intro hh
        exact hu ⟨by simpa [Treasure.active] using hh.1, hh.2⟩
      · exact hpre v hmem

theorem remove_treasure_found (sys : Sys) (hunt_id : List Char) (treasure_id : Int)
    (records : List Treasure) (h1 : sys.open_fails = false) (h2 : sys.lseek_fails = false)
    (h3 : sys.write_fails = false)
    (hex : ∃ t ∈ records, t.active = true ∧ t.id = treasure_id) :
    ∃ pre treasure post, records = pre ++ treasure :: post ∧
      (∀ u ∈ pre, ¬ (u.active = true ∧ u.id = treasure_id)) ∧
      treasure.active = true ∧ treasure.id = treasure_id ∧
      (Manager.remove_treasure sys hunt_id treasure_id (some records)).file
        = some (pre ++ { treasure with is_active := 0 } :: post) := by
  cases hfind : Manager.find_treasure treasure_id records 0 with
  | none =>
    obtain ⟨t, ht, hh⟩ := hex
    exact absurd hh ((find_treasure_none treasure_id records 0).1 hfind t ht)
  | some found =>
    obtain ⟨q, t⟩ := found
    obtain ⟨pre, post, hrec, hq, hpre, hact, hid⟩ :=
      find_treasure_some treasure_id records 0 q t hfind
    refine ⟨pre, t, post, hrec, hpre, hact, hid, ?_⟩
    simp only [Manager.remove_treasure, h1, h2, h3, hfind, Bool.false_eq_true, if_false]
    rw [hq, Nat.zero_add, hrec, set_at_split]

theorem remove_treasure_unchanged (sys : Sys) (hunt_id : List Char) (treasure_id : Int)
    (records : List Treasure)
    (h : (∀ t ∈ records, ¬ (t.active = true ∧ t.id = treasure_id)) ∨
      sys.open_fails = true ∨ sys.lseek_fails = true ∨ sys.write_fails = true) :
    (Manager.remove_treasure sys hunt_id treasure_id (some records)).file = some records := by
  cases ho : sys.open_fails with
  | true => simp only [Manager.remove_treasure, ho, if_true]
  | false =>
    cases hfind : Manager.find_treasure treasure_id records 0 with
    | none => simp only [Manager.remove_treasure, ho, hfind, Bool.false_eq_true, if_false]
    | some found =>
      obtain ⟨q, t⟩ := found
      cases hl : sys.lseek_fails with
      | true => simp only [Manager.remove_treasure, ho, hfind, hl, Bool.false_eq_true, if_false,
          if_true]
      | false =>
        cases hw : sys.write_fails with
        | true => simp only [Manager.remove_treasure, ho, hfind, hl, hw, Bool.false_eq_true,
            if_false, if_true]
        | false =>
          rcases h with h | h | h | h
          · rw [← find_treasure_none treasure_id records 0, hfind] at h
            cases h
          · rw [ho] at h; cases h
          · rw [hl] at h; cases h
          · rw [hw] at h; cases h

theorem remove_treasure_cases (sys : Sys) (hunt_id : List Char) (treasure_id : Int)
    (records : List Treasure) :
    (Manager.remove_treasure sys hunt_id treasure_id (some records)).file = some records ∨
    ∃ pre treasure post, records = pre ++ treasure :: post ∧
      (∀ u ∈ pre, ¬ (u.active = true ∧ u.id = treasure_id)) ∧
      treasure.active = true ∧ treasure.id = treasure_id ∧
      (Manager.remove_treasure sys hunt_id treasure_id (some records)).file
        = some (pre ++ { treasure with is_active := 0 } :: post) := by
  by_cases hfail : (∀ t ∈ records, ¬ (t.active = true ∧ t.id = treasure_id)) ∨
      sys.open_fails = true ∨ sys.lseek_fails = true ∨ sys.write_fails = true
  · exact Or.inl (remove_treasure_unchanged sys hunt_id treasure_id records hfail)
  · right
    simp only [not_or, not_forall, Bool.not_eq_true, not_not] at hfail
    obtain ⟨⟨t, ht, hh⟩, h1, h2, h3⟩ := hfail
    exact remove_treasure_found sys hunt_id treasure_id records h1 h2 h3 ⟨t, ht, hh⟩

theorem remove_treasure_absent (sys : Sys) (hunt_id : List Char) (treasure_id : Int) :
    (Manager.remove_treasure sys hunt_id treasure_id none).file = none := by
  unfold Manager.remove_treasure
  split <;> rfl

theorem get_next_of_bounds (sys : Sys) (records : List Treasure) (n : Nat)
    (hopen : sys.open_fails = false)
    (hids : ∀ i ∈ active_ids (some records), 1 ≤ i ∧ i ≤ (n : Int)) (hn : n < 2147483647) :
    Manager.get_next_treasure_id sys (some records)
        = some (Manager.max_id_loop 0 records + 1) ∧
      0 ≤ Manager.max_id_loop 0 records ∧ Manager.max_id_loop 0 records ≤ (n : Int) ∧
      (∀ i ∈ active_ids (some records), i ≤ Manager.max_id_loop 0 records) ∧
      (active_ids (some records) = [] → Manager.max_id_loop 0 records = 0) ∧
      (active_ids (some records) ≠ [] →
        Manager.max_id_loop 0 records ∈ active_ids (some records)) := by
  have hge : 0 ≤ Manager.max_id_loop 0 records := max_id_loop_ge records 0
  have hall : ∀ i ∈ active_ids (some records), i ≤ Manager.max_id_loop 0 records := by
    intro i hi
    obtain ⟨t, ht, hact, hid⟩ := (mem_active_ids (some records) i).1 hi
    rw [← hid]
    exact max_id_loop_bound records 0 t ht hact
  have hmem : Manager.max_id_loop 0 records = 0 ∨
      Manager.max_id_loop 0 records ∈ active_ids (some records) := by
    rcases max_id_loop_mem records 0 with h | ⟨t, ht, hact, hid⟩
    · exact Or.inl h
    · exact Or.inr ((mem_active_ids (some records) _).2 ⟨t, ht, hact, hid⟩)
  have hle : Manager.max_id_loop 0 records ≤ (n : Int) := by
    rcases hmem with h | h
    · rw [h]; exact Int.ofNat_nonneg n
    · exact (hids _ h).2
  refine ⟨?_, hge, hle, hall, ?_, ?_⟩
  · simp only [Manager.get_next_treasure_id, hopen, Bool.false_eq_true, if_false]
    rw [int32_of_range _ (by omega) (by omega)]
  · intro hnil
    rcases hmem with h | h
    · exact h
    · rw [hnil] at h; cases h
  · intro hne
    rcases hmem with h | h
    · obtain ⟨i, hi⟩ := List.exists_mem_of_ne_nil _ hne
      have h1 := (hids i hi).1
      have h2 := hall i hi
      omega
    · exact h

theorem file_inv_mono (n m : Nat) (file : Option (List Treasure)) (h : FileInv n file)
    (hnm : n ≤ m) : FileInv m file := by
  refine ⟨h.1, fun i hi => ⟨(h.2 i hi).1, ?_⟩⟩
  have := (h.2 i hi).2
  omega

theorem file_inv_getD (n : Nat) (file : Option (List Treasure)) (h : FileInv n file) :
    FileInv n (some (file.getD [])) := by
  unfold FileInv DistinctActive at *
  rw [active_ids_getD]
  exact h

theorem file_inv_append (n : Nat) (records : List Treasure) (entered : Entered) (id : Int)
    (h : FileInv n (some records)) (hnew : ∀ i ∈ active_ids (some records), i < id)
    (h1 : 1 ≤ id) (h2 : id ≤ (n : Int) + 1) :
    FileInv (n + 1) (some (records ++ [⟨id, entered.username, entered.latitude,
      entered.longitude, entered.clue, entered.value, 1⟩])) := by
  have hids : active_ids (some [(⟨id, entered.username, entered.latitude,
      entered.longitude, entered.clue, entered.value, 1⟩ : Treasure)]) = [id] := rfl
  unfold FileInv DistinctActive
  rw [active_ids_append, hids]
  constructor
  · rw [List.nodup_append]
    refine ⟨h.1, List.nodup_singleton _, ?_⟩
    intro i hi hi2
    rw [List.mem_singleton] at hi2
    have := hnew i hi
    omega
  · intro i hi
    rcases List.mem_append.1 hi with hi | hi
    · have := h.2 i hi
      push_cast
      omega
    · rw [List.mem_singleton] at hi
      push_cast
      omega

theorem add_treasure_inv (sys : Sys) (hunt_id : List Char) (entered : Entered)
    (file : Option (List Treasure)) (n : Nat) (hinv : FileInv n file)
    (hn : n < 2147483647) :
    FileInv (n + 1) (Manager.add_treasure sys hunt_id entered file).file := by
  have hsame : FileInv (n + 1) file := file_inv_mono n (n + 1) file hinv (Nat.le_succ n)
  unfold Manager.add_treasure
  split
  · exact hsame
  · cases hnext : Manager.get_next_treasure_id sys file with
    | none => exact hsame
    | some id =>
      dsimp only
      split
      · exact hsame
      · split
        · exact file_inv_getD (n + 1) file hsame
        · have hopen : sys.open_fails = false := by
            cases ho : sys.open_fails with
            | false => rfl
            | true => simp [Manager.get_next_treasure_id, ho] at hnext
          cases file with
          | none =>
            simp only [Manager.get_next_treasure_id, hopen, Bool.false_eq_true, if_false,
              Option.some.injEq] at hnext
            subst hnext
            exact file_inv_append n [] entered 1 (file_inv_getD n none hinv)
              (by intro i hi; cases hi) (le_refl _) (by omega)
          | some records =>
            obtain ⟨hget, hge, hle, hall, -, -⟩ :=
              get_next_of_bounds sys records n hopen hinv.2 hn
            rw [hget, Option.some.injEq] at hnext
            subst hnext
            exact file_inv_append n records entered _ hinv
              (fun i hi => by have := hall i hi; omega) (by omega) (by omega)

theorem remove_treasure_inv (sys : Sys) (hunt_id : List Char) (treasure_id : Int)
    (file : Option (List Treasure)) (n : Nat) (hinv : FileInv n file) :
    FileInv n (Manager.remove_treasure sys hunt_id treasure_id file).file := by
  cases file with
  | none => rw [remove_treasure_absent]; exact hinv
  | some records =>
    rcases remove_treasure_cases sys hunt_id treasure_id records with h | h
    · rw [h]; exact hinv
    · obtain ⟨pre, t, post, hrec, -, -, -, hfile⟩ := h
      rw [hfile]
      have hsub : (active_ids (some (pre ++ { t with is_active := 0 } :: post))).Sublist
          (active_ids (some records)) := by
        rw [hrec]
        have e1 : pre ++ { t with is_active := 0 } :: post
            = pre ++ ([{ t with is_active := 0 }] ++ post) := rfl
        have e2 : pre ++ t :: post = pre ++ ([t] ++ post) := rfl
        rw [e1, e2, active_ids_append, active_ids_append, active_ids_append,
          active_ids_append]
        refine List.Sublist.append (List.Sublist.refl _) (List.Sublist.append ?_
          (List.Sublist.refl _))
        have : active_ids (some [({ t with is_active := 0 } : Treasure)]) = [] := rfl
        rw [this]
        exact List.nil_sublist _
      exact ⟨hinv.1.sublist hsub, fun i hi => hinv.2 i (hsub.subset hi)⟩

theorem run_ops_inv (hunt_id : List Char) (ops : List FileOp) (file : Option (List Treasure))
    (n : Nat) (hinv : FileInv n file) (hn : n + adds ops ≤ 2147483647) :
    FileInv (n + adds ops) (run_ops hunt_id file ops) := by
  induction ops generalizing file n with
  | nil => simpa [run_ops, adds] using hinv
  | cons op rest ih =>
    have hrun : run_ops hunt_id file (op :: rest)
        = run_ops hunt_id (apply_op hunt_id file op) rest := rfl
    rw [hrun]
    cases op with
    | add sys entered =>
      have hadds : adds (FileOp.add sys entered :: rest) = adds rest + 1 := by
        simp [adds]
      rw [hadds] at hn ⊢
      have := ih (apply_op hunt_id file (FileOp.add sys entered)) (n + 1)
        (add_treasure_inv sys hunt_id entered file n hinv (by omega)) (by omega)
      have e : n + (adds rest + 1) = n + 1 + adds rest := by omega
      rw [e]
      exact this
    | remove sys treasure_id =>
      have hadds : adds (FileOp.remove sys treasure_id :: rest) = adds rest := by
        simp [adds]
      rw [hadds] at hn ⊢
      exact ih (apply_op hunt_id file (FileOp.remove sys treasure_id)) n
        (remove_treasure_inv sys hunt_id treasure_id file n hinv) hn

theorem file_inv_start (start : Option (List Treasure))
    (hstart : start = none ∨ start = some []) : FileInv 0 start := by
  rcases hstart with rfl | rfl
  · exact ⟨List.nodup_nil, fun i hi => by cases hi⟩
  · exact ⟨List.nodup_nil, fun i hi => by cases hi⟩

theorem run_ops_append (hunt_id : List Char) (file : Option (List Treasure))
    (xs ys : List FileOp) :
    run_ops hunt_id file (xs ++ ys) = run_ops hunt_id (run_ops hunt_id file xs) ys := by
  simp [run_ops, List.foldl_append]

theorem add_treasure_fine (hunt_id : List Char) (entered : Entered)
    (records : List Treasure) :
    apply_op hunt_id (some records) (FileOp.add Sys.fine entered)
      = some (records ++ [⟨int32 (Manager.max_id_loop 0 records + 1), entered.username,
          entered.latitude, entered.longitude, entered.clue, entered.value, 1⟩]) := rfl

theorem max_id_loop_added (entered : Entered) (n : Nat) :
    Manager.max_id_loop 0 (added_file entered n) = (n : Int) := by
  induction n with
  | zero => rfl
  | succ k ih =>
    rw [added_file, max_id_loop_append, ih]
    simp [Manager.max_id_loop]

theorem run_adds (hunt_id : List Char) (entered : Entered) (n : Nat)
    (hn : n + 1 ≤ 2147483647) :
    run_ops hunt_id none (List.replicate (n + 1) (FileOp.add Sys.fine entered))
      = some (added_file entered (n + 1)) := by
  induction n with
  | zero => rfl
  | succ k ih =>
    rw [List.replicate_succ', run_ops_append, ih (by omega)]
    have hstep : run_ops hunt_id (some (added_file entered (k + 1)))
        [FileOp.add Sys.fine entered]
        = apply_op hunt_id (some (added_file entered (k + 1)))
            (FileOp.add Sys.fine entered) := rfl
    rw [hstep, add_treasure_fine, max_id_loop_added,
      int32_of_range _ (by omega) (by omega)]
    rw [added_file.eq_2 entered (k + 1)]

theorem run_adds_wrapped (hunt_id : List Char) (entered : Entered) (n : Nat)
    (hn : n + 1 = 2147483647) :
    run_ops hunt_id none (List.replicate (n + 1 + 2) (FileOp.add Sys.fine entered))
      = some (added_file entered (n + 1) ++
          [⟨-2147483648, entered.username, entered.latitude, entered.longitude,
              entered.clue, entered.value, 1⟩,
            ⟨-2147483648, entered.username, entered.latitude, entered.longitude,
              entered.clue, entered.value, 1⟩]) := by
  have hwrap : int32 (((n + 1 : Nat) : Int) + 1) = -2147483648 := by
    rw [hn]; decide
  rw [List.replicate_add, run_ops_append, run_adds hunt_id entered n (by omega)]
  have hstep : ∀ file, run_ops hunt_id file
      (List.replicate 2 (FileOp.add Sys.fine entered))
      = apply_op hunt_id (apply_op hunt_id file (FileOp.add Sys.fine entered))
          (FileOp.add Sys.fine entered) := fun _ => rfl
  rw [hstep, add_treasure_fine, max_id_loop_added, hwrap, add_treasure_fine,
    max_id_loop_append, max_id_loop_added]
  have hmax : Manager.max_id_loop ((n + 1 : Nat) : Int)
      [⟨-2147483648, entered.username, entered.latitude, entered.longitude,
        entered.clue, entered.value, 1⟩] = ((n + 1 : Nat) : Int) := by
    simp only [Manager.max_id_loop]
    rw [if_neg]
    intro h
    have := h.2
    omega
  rw [hmax, hwrap, List.append_assoc]
  rfl

/-- C21, as stated, fails for long sequences: the id is an `int`. After 2147483647 runs
of `--add` from an absent file the largest active id is 2147483647 and
`get_next_treasure_id` returns -2147483648, not one more; after two further runs two
active records share the id -2147483648. -/
theorem id_counter_wraps :
    (2147483647 ∈ active_ids (run_ops "h".toList none (List.replicate 2147483647
        (FileOp.add Sys.fine ⟨"ann".toList, 0, 0, "clue".toList, 1⟩))) ∧
      Manager.get_next_treasure_id Sys.fine (run_ops "h".toList none
        (List.replicate 2147483647
          (FileOp.add Sys.fine ⟨"ann".toList, 0, 0, "clue".toList, 1⟩)))
        = some (-2147483648)) ∧
    ¬ DistinctActive (run_ops "h".toList none (List.replicate 2147483649
        (FileOp.add Sys.fine ⟨"ann".toList, 0, 0, "clue".toList, 1⟩))) := by
  refine ⟨?_, ?_⟩
  · have h := run_adds "h".toList ⟨"ann".toList, 0, 0, "clue".toList, 1⟩ 2147483646
      (by decide)
    have e : (2147483647 : Nat) = 2147483646 + 1 := rfl
    rw [e, h]
    constructor
    · rw [added_file, active_ids_append]
      exact List.mem_append_right _ (List.mem_singleton.2 (by norm_num))
    · simp only [Manager.get_next_treasure_id, Sys.fine, Bool.false_eq_true, if_false]
      rw [max_id_loop_added]
      decide
  · have h := run_adds_wrapped "h".toList ⟨"ann".toList, 0, 0, "clue".toList, 1⟩
      2147483646 (by decide)
    have e : (2147483649 : Nat) = 2147483646 + 1 + 2 := rfl
    rw [e, h]
    unfold DistinctActive
    rw [active_ids_append]
    intro hnd
    have h2 := (List.nodup_append.1 hnd).2.1
    revert h2
    decide

/-- C21 (amended): starting from an empty or absent treasure file, after every
sequence of runs of `add_treasure` and `remove_treasure` with fewer than 2147483647
runs of `add_treasure`, whatever calls fail, no two active records of the file share
an id. `get_next_treasure_id` returns 1 for an absent file, and for the file reached a
value above every active id that is 1 when no record is active and otherwise one more
than an active id, hence one more than the largest. `remove_treasure` leaves an
absent file absent and never changes the number of records; it leaves the file as it
is when no active record has the id or a call fails, and otherwise marks the first
active record with the id inactive and leaves every other record as it is. -/
theorem active_ids_stay_distinct (hunt_id : List Char) (start : Option (List Treasure))
    (hstart : start = none ∨ start = some []) (ops : List FileOp)
    (hbound : adds ops < 2147483647) :
    DistinctActive (run_ops hunt_id start ops) ∧
    (∀ sys : Sys, sys.open_fails = false →
      Manager.get_next_treasure_id sys none = some 1) ∧
    (∀ (sys : Sys) (records : List Treasure), sys.open_fails = false →
      run_ops hunt_id start ops = some records →
      ∃ next, Manager.get_next_treasure_id sys (some records) = some next ∧
        (∀ i ∈ active_ids (some records), i < next) ∧
        (active_ids (some records) = [] → next = 1) ∧
        (active_ids (some records) ≠ [] → next - 1 ∈ active_ids (some records))) ∧
    (∀ (sys : Sys) (treasure_id : Int),
      (Manager.remove_treasure sys hunt_id treasure_id none).file = none) ∧
    (∀ (sys : Sys) (treasure_id : Int) (records : List Treasure),
      ∃ after, (Manager.remove_treasure sys hunt_id treasure_id (some records)).file
          = some after ∧ after.length = records.length) ∧
    (∀ (sys : Sys) (treasure_id : Int) (records : List Treasure),
      ((∀ t ∈ records, ¬ (t.active = true ∧ t.id = treasure_id)) ∨
        sys.open_fails = true ∨ sys.lseek_fails = true ∨ sys.write_fails = true) →
      (Manager.remove_treasure sys hunt_id treasure_id (some records)).file
        = some records) ∧
    (∀ (sys : Sys) (treasure_id : Int) (records : List Treasure),
      sys.open_fails = false → sys.lseek_fails = false → sys.write_fails = false →
      (∃ t ∈ records, t.active = true ∧ t.id = treasure_id) →
      ∃ pre treasure post, records = pre ++ treasure :: post ∧
        (∀ u ∈ pre, ¬ (u.active = true ∧ u.id = treasure_id)) ∧
        treasure.active = true ∧ treasure.id = treasure_id ∧
        (Manager.remove_treasure sys hunt_id treasure_id (some records)).file
          = some (pre ++ { treasure with is_active := 0 } :: post)) := by
  have hinv : FileInv (0 + adds ops) (run_ops hunt_id start ops) :=
    run_ops_inv hunt_id ops start 0 (file_inv_start start hstart) (by omega)
  rw [Nat.zero_add] at hinv
  refine ⟨hinv.1, ?_, ?_, ?_, ?_, ?_, ?_⟩
  · intro sys hopen
    simp only [Manager.get_next_treasure_id, hopen, Bool.false_eq_true, if_false]
  · intro sys records hopen hrun
    rw [hrun] at hinv
    obtain ⟨hget, -, -, hall, hnil, hne⟩ :=
      get_next_of_bounds sys records (adds ops) hopen hinv.2 hbound
    refine ⟨_, hget, ?_, ?_, ?_⟩
    · intro i hi
      have := hall i hi
      omega
    · intro h
      rw [hnil h]
      rfl
    · intro h
      rw [add_sub_cancel_right]
      exact hne h
  · intro sys treasure_id
    exact remove_treasure_absent sys hunt_id treasure_id
  · intro sys treasure_id records
    rcases remove_treasure_cases sys hunt_id treasure_id records with h | h
    · exact ⟨records, h, rfl⟩
    · obtain ⟨pre, t, post, hrec, -, -, -, hfile⟩ := h
      refine ⟨_, hfile, ?_⟩
      rw [hrec]
      simp
  · intro sys treasure_id records h
    exact remove_treasure_unchanged sys hunt_id treasure_id records h
  · intro sys treasure_id records h1 h2 h3 hex
    exact remove_treasure_found sys hunt_id treasure_id records h1 h2 h3 hex

/-- The amended C21 at a sequence of three additions and a removal from an absent file:
the second id is given again once its record is inactive, and the active ids stay
distinct. -/
theorem active_ids_stay_distinct_witness :
    adds [FileOp.add Sys.fine ⟨"ann".toList, 0, 0, "cave".toList, 5⟩,
        FileOp.add Sys.fine ⟨"bob".toList, 0, 0, "tree".toList, 7⟩,
        FileOp.remove Sys.fine 2,
        FileOp.add Sys.fine ⟨"cy".toList, 0, 0, "well".toList, 9⟩] < 2147483647 ∧
    run_ops "h".toList none
      [FileOp.add Sys.fine ⟨"ann".toList, 0, 0, "cave".toList, 5⟩,
        FileOp.add Sys.fine ⟨"bob".toList, 0, 0, "tree".toList, 7⟩,
        FileOp.remove Sys.fine 2,
        FileOp.add Sys.fine ⟨"cy".toList, 0, 0, "well".toList, 9⟩]
      = some [⟨1, "ann".toList, 0, 0, "cave".toList, 5, 1⟩,
          ⟨2, "bob".toList, 0, 0, "tree".toList, 7, 0⟩,
          ⟨2, "cy".toList, 0, 0, "well".toList, 9, 1⟩] ∧
    DistinctActive (run_ops "h".toList none
      [FileOp.add Sys.fine ⟨"ann".toList, 0, 0, "cave".toList, 5⟩,
        FileOp.add Sys.fine ⟨"bob".toList, 0, 0, "tree".toList, 7⟩,
        FileOp.remove Sys.fine 2,
        FileOp.add Sys.fine ⟨"cy".toList, 0, 0, "well".toList, 9⟩]) :=
  ⟨by decide, by decide,
    (active_ids_stay_distinct "h".toList none (Or.inl rfl) _ (by decide)).1⟩

end TreasureHunt
